import Mathlib

/-!
# chim: the admission checks of the retweet bot

A shallow embedding of `checks.go`, `text_filters.go`, `mute.go` and the
gate chain `processTweet` of `chim_bot.go`, followed by theorems about them.

Conventions of the embedding

* Go's package-level variables (the configuration, the five LRU caches and the
  four member sets) are the fields of `Globals`; a function that writes one of
  them returns the new `Globals`.
* `log.Fatal` ends the process: a function that can reach it returns `none`
  (stateless functions) or `Outcome.fatal` (stateful ones).
* `int`, `int64` and `time.Duration` values are integers; every multiplication
  the source performs on them is wrapped to 64 bits with `wrap64`.
* A `time.Time` is the number of nanoseconds since Go's zero time
  (January 1, year 1, 00:00:00 UTC), an unbounded integer.
* `time.Parse(time.RubyDate, ·)`, `time.Now()` and the Twitter API are the
  environment: the first two are the fields of `World`, the API calls are
  function arguments as in the source.
* Logging and the Prometheus counters do not influence any result and are
  left out.
-/

namespace Chim

/-! ## Machine integers, durations and times -/

/-- Two's complement wrap-around of an integer to the signed 64-bit range
(the result of a Go `int64` operation that overflows). -/
def wrap64 (x : Int) : Int :=
  (x + 9223372036854775808) % 18446744073709551616 - 9223372036854775808

/-- Go `time.Time` as nanoseconds since the zero time. A Go `time.Duration`, a
signed 64-bit count of nanoseconds, is a plain `Int`. -/
abbrev Time := Int

def minDuration : Int := -9223372036854775808

def maxDuration : Int := 9223372036854775807

def Nanosecond : Int := 1

def Second : Int := 1000000000

def Hour : Int := 3600000000000

/-- Go `t.Sub(u)`: the difference `t - u`, saturated to the range of a
`Duration`. -/
def Time.Sub (t u : Int) : Int :=
  if t - u < minDuration then minDuration
  else if maxDuration < t - u then maxDuration
  else t - u

/-- Go `t.Truncate(d)`: `t` rounded down to a multiple of `d` since the zero
time; `t` itself when `d <= 0`. -/
def Time.Truncate (t : Int) (d : Int) : Int :=
  if d ≤ 0 then t else t - t % d

/-- The environment of a check: the RubyDate parser (`none` when
`time.Parse` returns an error) and the wall clock reading `time.Now()`. -/
structure World where
  parseRubyDate : String → Option Int
  now : Int

/-! ## Strings -/

/-- Go `strings.EqualFold`, on the ASCII letters: equality after lower-casing
`A`..`Z`. (Go folds by Unicode simple case folding; the two agree on ASCII
text, which is what screen names and media types are.) -/
def EqualFold (s t : String) : Bool :=
  s.toList.map Char.toLower == t.toList.map Char.toLower

/-- Go `strings.ToLower`, on the ASCII letters. -/
def ToLower (s : String) : String :=
  String.mk (s.toList.map Char.toLower)

/-- Go `strings.HasPrefix(s, pre)`: does `s` begin with `pre`. -/
def HasPrefix (s pre : String) : Bool :=
  pre.toList.isPrefixOf s.toList

/-- Splitting of a character list at every single space; consecutive spaces
give empty pieces and the empty list gives one empty piece. -/
def splitSpaces : List Char → List (List Char)
  | [] => [[]]
  | c :: cs =>
    if c = ' ' then [] :: splitSpaces cs
    else
      match splitSpaces cs with
      | [] => [[c]]
      | w :: ws => (c :: w) :: ws

/-- Go `strings.Split(s, " ")`. -/
def Split (s : String) : List String :=
  (splitSpaces s.toList).map String.mk

/-- Go `url.Values`, restricted to single-valued keys. -/
abbrev Values := List (String × String)

/-- Go `v.Set(key, value)`. -/
def Values.Set (v : Values) (key value : String) : Values :=
  (key, value) :: v.filter (fun e => e.1 ≠ key)

/-- Go `v.Get(key)`: the value, or the empty string when the key is absent. -/
def Values.Get (v : Values) (key : String) : String :=
  (v.lookup key).getD ""

/-! ## External data structures -/

/-- Modelled from the spec: the bounded recency cache `lru.Cache` of
github.com/davidk/lru, whose code is not part of the sources. Fixed capacity
`MaxEntries`; the entries are kept in recency order, most recently used
first. -/
structure Cache (K V : Type) where
  MaxEntries : Nat
  entries : List (K × V)
  deriving DecidableEq

/-- Modelled from the spec: `lru.New(n)`, an empty cache of capacity `n`. -/
def Cache.New {K V : Type} (n : Nat) : Cache K V :=
  ⟨n, []⟩

/-- Modelled from the spec: `Get(key) → (value, present)` of the absent
`lru.Cache`, a pure lookup that does not change the recency order; `none` is
a miss. -/
def Cache.Get {K V : Type} [DecidableEq K] (c : Cache K V) (key : K) : Option V :=
  c.entries.lookup key

/-- Modelled from the spec: `Add(key, value)` of the absent `lru.Cache`:
inserts or updates the entry, makes it the most recently used one, and evicts
the least recently used entry if the capacity is exceeded. -/
def Cache.Add {K V : Type} [DecidableEq K] (c : Cache K V) (key : K) (value : V) :
    Cache K V :=
  let es := (key, value) :: c.entries.filter (fun e => e.1 ≠ key)
  ⟨c.MaxEntries, if c.MaxEntries < es.length then es.dropLast else es⟩

/-- Modelled from the spec: the keys of the absent `memberset.MemberSet`
(github.com/davidk/memberset), normalised to a tagged variant: integer
identities of any width are one numeric key, text keys are distinct from
numeric keys. -/
inductive MemberKey where
  | num (n : Int)
  | str (s : String)
  deriving DecidableEq

/-- Modelled from the spec: the membership set `memberset.MemberSet`, an
unbounded set of normalised keys. -/
structure MemberSet where
  keys : List MemberKey
  deriving DecidableEq

/-- Modelled from the spec: `memberset.New()`, the empty set. -/
def MemberSet.New : MemberSet :=
  ⟨[]⟩

/-- Modelled from the spec: `Get(key) → present` of the absent
`memberset.MemberSet`. -/
def MemberSet.Get (m : MemberSet) (key : MemberKey) : Bool :=
  decide (key ∈ m.keys)

/-- Modelled from the spec: `Add(key)` of the absent `memberset.MemberSet`. -/
def MemberSet.Add (m : MemberSet) (key : MemberKey) : MemberSet :=
  if key ∈ m.keys then m else ⟨key :: m.keys⟩

/-- Modelled from the spec: `Delete(key)` of the absent
`memberset.MemberSet`. -/
def MemberSet.Delete (m : MemberSet) (key : MemberKey) : MemberSet :=
  ⟨m.keys.filter (fun k => k ≠ key)⟩

/-! ## The Twitter data model (the fields of `anaconda` the checks read) -/

structure User where
  Id : Int
  ScreenName : String
  CreatedAt : String
  deriving DecidableEq

/-- The type `anaconda.EntityMedia`; `Type_` is its field `Type`. -/
structure EntityMedia where
  Type_ : String
  Media_url_https : String
  deriving DecidableEq

structure UserMention where
  Name : String
  Screen_name : String
  deriving DecidableEq

structure UrlEntity where
  Url : String
  Display_url : String
  Expanded_url : String
  deriving DecidableEq

structure Entities where
  Urls : List UrlEntity
  User_mentions : List UserMention
  Media : List EntityMedia
  deriving DecidableEq

structure ExtendedTweet where
  FullText : String
  Entities : Chim.Entities
  ExtendedEntities : Chim.Entities
  deriving DecidableEq

/-- The type `anaconda.Tweet`. `RetweetedStatus` is a pointer in the source,
of which the checks only test whether it is nil: `none` is nil, `some id` a
pointer to the status with that id. -/
structure Tweet where
  Id : Int
  Text : String
  CreatedAt : String
  InReplyToScreenName : String
  RetweetedStatus : Option Int
  PossiblySensitive : Bool
  User : Chim.User
  Entities : Chim.Entities
  ExtendedEntities : Chim.Entities
  ExtendedTweet : Chim.ExtendedTweet
  deriving DecidableEq

structure Target where
  Following : Bool
  deriving DecidableEq

structure Source where
  Following : Bool
  deriving DecidableEq

structure Relationship where
  Target : Chim.Target
  Source : Chim.Source
  deriving DecidableEq

structure RelationshipResponse where
  Relationship : Chim.Relationship
  deriving DecidableEq

structure UserCursor where
  Next_cursor_str : String
  Users : List User
  deriving DecidableEq

/-- A Go `error` value: an `*anaconda.ApiError` with the codes of its decoded
error list, or any other error. -/
inductive Error where
  | apiError (codes : List Int)
  | other (msg : String)
  deriving DecidableEq

def TwitterErrorCouldNotAuthenticate : Int := 32

def TwitterErrorDoesNotExist : Int := 34

def TwitterErrorStatusIsADuplicate : Int := 187

/-! ## Configuration and process state -/

structure InternalTuning where
  MustFollow : String
  IgnoreFrom : String
  PostTimeDelta : Int
  ContentTimeDelta : Int
  DeltaGatedContent : List String
  DenySensitiveContent : Bool
  MinAccountAgeHours : Int
  MutualFollow : Bool
  ProhibitedMentions : List String
  ProhibitedWords : List String
  TwitterFilterLevel : String
  deriving DecidableEq

/-- The type `AppConfiguration`, without the credentials and search terms. -/
structure AppConfiguration where
  Settings : InternalTuning
  TestMode : Bool
  deriving DecidableEq

/-- The key of `userContentDeltaLRU`. -/
structure ContentDelta where
  User : Int
  ContentType : String
  deriving DecidableEq

/-- The package-level variables of `chim_bot.go`. -/
structure Globals where
  config : AppConfiguration
  tweetOriginatorLRU : Cache String Int
  userContentDeltaLRU : Cache ContentDelta Time
  userPostDeltaLRU : Cache Int Time
  postTextLRU : Cache String Int
  urlLRU : Cache String Int
  mutedIds : MemberSet
  deltaGatedContent : MemberSet
  prohibitedMentions : MemberSet
  prohibitedWords : MemberSet
  deriving DecidableEq

/-- Result of a stateful function that can reach `log.Fatal`: either it
returns `ret` and leaves the globals `g`, or the process is ended with the
globals as they were at that moment. -/
inductive Outcome (α : Type) where
  | ok (ret : α) (g : Globals)
  | fatal (g : Globals)
  deriving DecidableEq

/-- The globals an outcome leaves. -/
def Outcome.globals {α : Type} : Outcome α → Globals
  | .ok _ g => g
  | .fatal g => g

/-- The implementations of `ErrorInterface`: `ErrorsAreFatal` calls
`log.Fatal`, which ends the process; the test double `FakeFatal` returns. -/
inductive ErrorInterface where
  | ErrorsAreFatal
  | FakeFatal
  deriving DecidableEq

/-- Result of a function that reports through an `ErrorInterface`: how often
`Fatal` was invoked, and the value returned (`none` when the process was
ended by `Fatal`). -/
structure FatalResult (α : Type) where
  fatalCalls : Nat
  ret : Option α
  deriving DecidableEq

/-- The interface `ApiInterface`, method `Retweet` (its error result). -/
structure ApiInterface where
  Retweet : Int → Bool → Option Error

/-- The interface `FriendshipStatus`. -/
structure FriendshipStatus where
  GetFriendshipStatus : Values → RelationshipResponse × Option Error

/-- The interface `GetMutedList`. -/
structure GetMutedList where
  GetMutedUsersList : Values → UserCursor × Option Error

/-! ## chim_bot.go: error handling and start-up -/

/-- Source function `check`: reports a non-nil error through `fs.Fatal`. -/
def check (fs : ErrorInterface) (_explain : String) (e : Option Error) : FatalResult Unit :=
  match e with
  | none => ⟨0, some ()⟩
  | some _ =>
    match fs with
    | .ErrorsAreFatal => ⟨1, none⟩
    | .FakeFatal => ⟨1, some ()⟩

/-- The loop of `checkRetweetErrors` over the decoded errors of an
`ApiError`; `n` counts the invocations of `Fatal` so far. -/
def checkRetweetErrorsLoop (fs : ErrorInterface) : List Int → Nat → FatalResult Bool
  | [], n => ⟨n, some true⟩
  | code :: rest, n =>
    if code = TwitterErrorStatusIsADuplicate then ⟨n, some true⟩
    else if code = TwitterErrorDoesNotExist then ⟨n, some true⟩
    else
      match fs with
      | .ErrorsAreFatal => ⟨n + 1, none⟩
      | .FakeFatal => checkRetweetErrorsLoop fs rest (n + 1)

/-- Source function `checkRetweetErrors`. -/
def checkRetweetErrors (fs : ErrorInterface) (_explain : String) (err : Option Error) :
    FatalResult Bool :=
  match err with
  | none => ⟨0, some true⟩
  | some (.other _) =>
    match fs with
    | .ErrorsAreFatal => ⟨1, none⟩
    | .FakeFatal => ⟨1, some true⟩
  | some (.apiError codes) => checkRetweetErrorsLoop fs codes 0

/-- The part of `ConfigureApp` that sets up the package-level variables: the
caches with their capacities (`userContentDeltaLRU` is created by its
declaration, with capacity 27) and the member sets loaded from the
configuration. -/
def ConfigureApp (config : AppConfiguration) : Globals :=
  { config := config
    tweetOriginatorLRU := Cache.New 128
    userContentDeltaLRU := Cache.New 27
    userPostDeltaLRU := Cache.New 128
    postTextLRU := Cache.New 25
    urlLRU := Cache.New 10
    mutedIds := MemberSet.New
    deltaGatedContent :=
      config.Settings.DeltaGatedContent.foldl (fun s types => s.Add (.str types)) MemberSet.New
    prohibitedMentions :=
      config.Settings.ProhibitedMentions.foldl (fun s entries => s.Add (.str entries))
        MemberSet.New
    prohibitedWords :=
      config.Settings.ProhibitedWords.foldl (fun s entries => s.Add (.str entries))
        MemberSet.New }

/-! ## checks.go -/

/-- Source function `checkAccountAge`; `none` when the account creation time
does not parse (`check(ErrorsAreFatal{}, ...)` ends the process). -/
def checkAccountAge (w : World) (status : Tweet) (minAgeHours : Int) : Option Bool :=
  let minAgeHours := if minAgeHours < 0 then 0 else minAgeHours
  let minAgeDuration : Int := wrap64 (wrap64 (minAgeHours * 24) * Hour)
  match w.parseRubyDate status.User.CreatedAt with
  | none => none
  | some userCreatedAt =>
    let userCreatedAt := Time.Truncate userCreatedAt Nanosecond
    let timeSinceUserCreated := Time.Sub (Time.Truncate w.now Hour) userCreatedAt
    if timeSinceUserCreated > minAgeDuration then some true else some false

/-- Source function `checkDuplicateContent`. -/
def checkDuplicateContent (g : Globals) (url : String) : Bool × Globals :=
  if g.urlLRU.Get url = none then (true, { g with urlLRU := g.urlLRU.Add url 1 })
  else (false, g)

/-- Source function `checkEntityMedia`: the first entry of type `animated_gif`
or `video`. -/
def checkEntityMedia (status : Tweet) : List EntityMedia → Bool × String × String
  | [] => (false, "", "")
  | media :: rest =>
    if EqualFold media.Type_ "animated_gif" then (true, "gif", media.Media_url_https)
    else if EqualFold media.Type_ "video" then (true, "video", media.Media_url_https)
    else checkEntityMedia status rest

/-- Source function `checkTweetContent`; the result is
`(approved, tweetType, contentURL)`. The first condition has
`strings.HasPrefix("RT", status.Text)` as the source writes it. -/
def checkTweetContent (config : AppConfiguration) (status : Tweet) : Bool × String × String :=
  if status.InReplyToScreenName.length != 0 ||
      status.RetweetedStatus != none ||
      HasPrefix "RT" status.Text ||
      EqualFold status.User.ScreenName config.Settings.IgnoreFrom then
    (false, "non-original", "")
  else if config.Settings.DenySensitiveContent == true && status.PossiblySensitive == true then
    (false, "sensitive", "")
  else if (checkEntityMedia status status.Entities.Media).1 then
    checkEntityMedia status status.Entities.Media
  else if (checkEntityMedia status status.ExtendedEntities.Media).1 then
    checkEntityMedia status status.ExtendedEntities.Media
  else if (checkEntityMedia status status.ExtendedTweet.Entities.Media).1 then
    checkEntityMedia status status.ExtendedTweet.Entities.Media
  else if (checkEntityMedia status status.ExtendedTweet.ExtendedEntities.Media).1 then
    checkEntityMedia status status.ExtendedTweet.ExtendedEntities.Media
  else (false, "no_match", "")

/-- Source function `checkUserFollowing`. The cached value is `some 1`,
`some 0` or `none` (Go's nil); the error of the live lookup is discarded as in
the source. -/
def checkUserFollowing (fs : FriendshipStatus) (g : Globals) (status : Tweet)
    (targetUser : String) : Bool × Globals :=
  if EqualFold status.User.ScreenName targetUser then (true, g)
  else if targetUser = "" then (true, g)
  else
    let val := g.tweetOriginatorLRU.Get status.User.ScreenName
    if val = some 1 then (true, g)
    else if val ≠ none ∧ val = some 0 then (false, g)
    else
      let values := (Values.Set [] "source_screen_name" status.User.ScreenName).Set
        "target_screen_name" targetUser
      let r := (fs.GetFriendshipStatus values).1
      if r.Relationship.Source.Following && g.config.Settings.MutualFollow == false then
        (true, { g with tweetOriginatorLRU := g.tweetOriginatorLRU.Add status.User.ScreenName 1 })
      else if g.config.Settings.MutualFollow == true then
        if r.Relationship.Source.Following && r.Relationship.Target.Following then
          (true, { g with
            tweetOriginatorLRU := g.tweetOriginatorLRU.Add status.User.ScreenName 1 })
        else
          (false, { g with
            tweetOriginatorLRU := g.tweetOriginatorLRU.Add status.User.ScreenName 0 })
      else
        (false, { g with tweetOriginatorLRU := g.tweetOriginatorLRU.Add status.User.ScreenName 0 })

/-- Source function `calculateTweetTime`; `none` when the creation time of
the status does not parse. -/
def calculateTweetTime (w : World) (status : Tweet) (timeDeltaSeconds : Int) :
    Option (Int × Int) :=
  match w.parseRubyDate status.CreatedAt with
  | none => none
  | some createdTime =>
    let createdTime := Time.Truncate createdTime Second
    let deltaDuration : Int := wrap64 (timeDeltaSeconds * Second)
    some (createdTime, deltaDuration)

/-- Source function `checkContentDelta`. -/
def checkContentDelta (w : World) (g : Globals) (user : Int) (_username : String)
    (contentType : String) (_gatedContent : MemberSet) (timeDeltaSeconds : Int)
    (status : Tweet) : Outcome Bool :=
  match calculateTweetTime w status timeDeltaSeconds with
  | none => .fatal g
  | some (currentTime, deltaDuration) =>
    match g.userContentDeltaLRU.Get ⟨user, contentType⟩ with
    | none =>
      .ok true { g with
        userContentDeltaLRU := g.userContentDeltaLRU.Add ⟨user, contentType⟩ currentTime }
    | some val =>
      if Time.Sub currentTime val ≥ deltaDuration then
        .ok true { g with
          userContentDeltaLRU := g.userContentDeltaLRU.Add ⟨user, contentType⟩ currentTime }
      else .ok false g

/-- Source function `checkUserPostDelta`. -/
def checkUserPostDelta (w : World) (g : Globals) (user : Int) (_username : String)
    (timeDeltaSeconds : Int) (status : Tweet) : Outcome Bool :=
  match calculateTweetTime w status timeDeltaSeconds with
  | none => .fatal g
  | some (currentTime, deltaDuration) =>
    match g.userPostDeltaLRU.Get user with
    | none => .ok true { g with userPostDeltaLRU := g.userPostDeltaLRU.Add user currentTime }
    | some val =>
      if Time.Sub currentTime val ≥ deltaDuration then
        .ok true { g with userPostDeltaLRU := g.userPostDeltaLRU.Add user currentTime }
      else .ok false g

/-- Source function `checkPostRecentLRU`. -/
def checkPostRecentLRU (g : Globals) (statusText : String) : Bool × Globals :=
  if g.postTextLRU.Get statusText = none then
    (true, { g with postTextLRU := g.postTextLRU.Add statusText 1 })
  else (false, g)

/-- Source function `userIsMuted`. -/
def userIsMuted (uid : MemberKey) (mutedIds : MemberSet) : Bool :=
  if mutedIds.Get uid then true else false

/-! ## text_filters.go -/

/-- Source function `checkForProhibitedMentions`: the extended mentions are
scanned first, then the legacy ones. -/
def checkForProhibitedMentions (status : Tweet) (filteredMentions : MemberSet) : Bool :=
  if status.ExtendedTweet.ExtendedEntities.User_mentions.any
      (fun mention => filteredMentions.Get (.str (ToLower mention.Screen_name))) then false
  else if status.Entities.User_mentions.any
      (fun mention => filteredMentions.Get (.str (ToLower mention.Screen_name))) then false
  else true

/-- Source function `checkForProhibitedWords`. -/
def checkForProhibitedWords (status : Tweet) (filteredWords : MemberSet) : Bool :=
  if (Split status.Text).any (fun word => word != "" && filteredWords.Get (.str word)) then false
  else true

/-! ## mute.go -/

/-- Result of `populateMutedList`: the muted set after the last page, the
process ended by a failed request, or the recursion budget of the model
used up before the cursor chain ended. -/
inductive MutedListResult where
  | done (mutedIds : MemberSet)
  | fatal
  | outOfFuel
  deriving DecidableEq

/-- Source function `populateMutedList`; the first argument bounds the depth
of the recursion over the pages. -/
def populateMutedList (m : GetMutedList) : Nat → Values → MemberSet → MutedListResult
  | 0, _, _ => .outOfFuel
  | fuel + 1, v, mutedIds =>
    match (m.GetMutedUsersList v).2 with
    | some _ => .fatal
    | none =>
      let cursor := (m.GetMutedUsersList v).1
      let mutedIds := cursor.Users.foldl (fun s user => s.Add (.num user.Id)) mutedIds
      if cursor.Next_cursor_str ≠ "0" then
        populateMutedList m fuel (Values.Set [] "cursor" cursor.Next_cursor_str) mutedIds
      else .done mutedIds

/-! ## chim_bot.go: the gate chain -/

/-- Source function `processTweet`. The retweet is issued unless `TestMode`
is set, and its error goes through `checkRetweetErrors(ErrorsAreFatal{}, ...)`. -/
def processTweet (w : World) (a : ApiInterface) (fs : FriendshipStatus) (g : Globals)
    (status : Tweet) : Outcome Bool :=
  if !(checkTweetContent g.config status).1 then .ok false g
  else if checkForProhibitedMentions status g.prohibitedMentions == false then .ok false g
  else if checkForProhibitedWords status g.prohibitedWords == false then .ok false g
  else
    match checkAccountAge w status g.config.Settings.MinAccountAgeHours with
    | none => .fatal g
    | some old =>
      if old == false then .ok false g
      else if userIsMuted (.num status.User.Id) g.mutedIds == true then .ok false g
      else
        match checkContentDelta w g status.User.Id status.User.ScreenName
            (checkTweetContent g.config status).2.1 g.deltaGatedContent
            g.config.Settings.ContentTimeDelta status with
        | .fatal g1 => .fatal g1
        | .ok r1 g1 =>
          if r1 == false then .ok false g1
          else
            match checkUserPostDelta w g1 status.User.Id status.User.ScreenName
                g1.config.Settings.PostTimeDelta status with
            | .fatal g2 => .fatal g2
            | .ok r2 g2 =>
              if r2 == false then .ok false g2
              else if (checkPostRecentLRU g2 status.Text).1 == false then
                .ok false (checkPostRecentLRU g2 status.Text).2
              else if (checkUserFollowing fs (checkPostRecentLRU g2 status.Text).2 status
                  (checkPostRecentLRU g2 status.Text).2.config.Settings.MustFollow).1 == false then
                .ok false (checkUserFollowing fs (checkPostRecentLRU g2 status.Text).2 status
                  (checkPostRecentLRU g2 status.Text).2.config.Settings.MustFollow).2
              else if (checkUserFollowing fs (checkPostRecentLRU g2 status.Text).2 status
                  (checkPostRecentLRU g2 status.Text).2.config.Settings.MustFollow).2.config.TestMode
                  == false then
                match (checkRetweetErrors .ErrorsAreFatal "Could not retweet"
                    (a.Retweet status.Id true)).ret with
                | none =>
                  .fatal (checkUserFollowing fs (checkPostRecentLRU g2 status.Text).2 status
                    (checkPostRecentLRU g2 status.Text).2.config.Settings.MustFollow).2
                | some _ =>
                  .ok true (checkUserFollowing fs (checkPostRecentLRU g2 status.Text).2 status
                    (checkPostRecentLRU g2 status.Text).2.config.Settings.MustFollow).2
              else
                .ok true (checkUserFollowing fs (checkPostRecentLRU g2 status.Text).2 status
                  (checkPostRecentLRU g2 status.Text).2.config.Settings.MustFollow).2

/-! ## The gate chain as the specification words it -/

/-- A gate: a decision function from the shared state to a verdict (`true`
admits, `false` rejects) and the state it leaves, or the end of the process. -/
abbrev Gate := Globals → Outcome Bool

/-- The states the chain can end in: `Admitted` after the last gate,
`Rejected i` at gate number `i` (counted from 0), `Halted` when a gate ended
the process. Each carries the globals left at that point. -/
inductive ChainState where
  | Admitted (g : Globals)
  | Rejected (gate : Nat) (g : Globals)
  | Halted (g : Globals)
  deriving DecidableEq

/-- The chain of the specification: the gates are evaluated in order, each on
the state left by the previous one; the first gate that rejects ends the
chain and no further gate is evaluated; the end of the list admits. `i` is
the number of the first gate of the list. -/
def runChain : List Gate → Nat → Globals → ChainState
  | [], _, g => .Admitted g
  | gate :: rest, i, g =>
    match gate g with
    | .fatal g1 => .Halted g1
    | .ok verdict g1 => if verdict then runChain rest (i + 1) g1 else .Rejected i g1

/-- The nine gates of `processTweet` in the order of the specification:
content (original content, sensitivity, media match), prohibited mentions,
prohibited words, account age, not muted, content delta (with the content type
found by the first gate), post delta, duplicate text, follow requirement. -/
def gateChain (w : World) (fs : FriendshipStatus) (status : Tweet) : List Gate :=
  [ fun g => .ok (checkTweetContent g.config status).1 g,
    fun g => .ok (checkForProhibitedMentions status g.prohibitedMentions) g,
    fun g => .ok (checkForProhibitedWords status g.prohibitedWords) g,
    fun g =>
      match checkAccountAge w status g.config.Settings.MinAccountAgeHours with
      | none => .fatal g
      | some old => .ok old g,
    fun g => .ok (!userIsMuted (.num status.User.Id) g.mutedIds) g,
    fun g => checkContentDelta w g status.User.Id status.User.ScreenName
      (checkTweetContent g.config status).2.1 g.deltaGatedContent
      g.config.Settings.ContentTimeDelta status,
    fun g => checkUserPostDelta w g status.User.Id status.User.ScreenName
      g.config.Settings.PostTimeDelta status,
    fun g => .ok (checkPostRecentLRU g status.Text).1 (checkPostRecentLRU g status.Text).2,
    fun g => .ok (checkUserFollowing fs g status g.config.Settings.MustFollow).1
      (checkUserFollowing fs g status g.config.Settings.MustFollow).2 ]

/-- The retweet at the end of `processTweet` does not end the process: test
mode is on, or the error `Retweet` returns gets past `checkRetweetErrors`. -/
def retweetSurvives (a : ApiInterface) (g : Globals) (status : Tweet) : Prop :=
  g.config.TestMode = true ∨
    (checkRetweetErrors .ErrorsAreFatal "Could not retweet" (a.Retweet status.Id true)).ret ≠ none

/-- What `processTweet` returns once the chain has ended: the retweet is
issued for an admitted status, a rejected one returns false. -/
def finishChain (a : ApiInterface) (status : Tweet) : ChainState → Outcome Bool
  | .Admitted g =>
    if g.config.TestMode == false then
      match (checkRetweetErrors .ErrorsAreFatal "Could not retweet"
          (a.Retweet status.Id true)).ret with
      | none => .fatal g
      | some _ => .ok true g
    else .ok true g
  | .Rejected _ g => .ok false g
  | .Halted g => .fatal g

/-- The media attachments the checks recognise. -/
def recognised (media : EntityMedia) : Bool :=
  EqualFold media.Type_ "animated_gif" || EqualFold media.Type_ "video"

/-- The label reported for a recognised attachment. -/
def mediaLabel (media : EntityMedia) : String :=
  if EqualFold media.Type_ "animated_gif" then "gif" else "video"

/-- The four media lists of a status, concatenated in the order they are
scanned. -/
def allMedia (status : Tweet) : List EntityMedia :=
  status.Entities.Media ++ status.ExtendedEntities.Media ++
    status.ExtendedTweet.Entities.Media ++ status.ExtendedTweet.ExtendedEntities.Media

/-- The status passes the original-content gate and the sensitivity gate of
`checkTweetContent`. -/
def passesContentGuards (config : AppConfiguration) (status : Tweet) : Prop :=
  (checkTweetContent config status).2.1 ≠ "non-original" ∧
    (checkTweetContent config status).2.1 ≠ "sensitive"

/-! ## Sequences of calls of the delta gates -/

/-- One call of a delta gate: the author, the delta in seconds and the status
that carries the creation time. -/
structure DeltaCall where
  user : Int
  username : String
  timeDeltaSeconds : Int
  status : Tweet

/-- A sequence of calls of `checkUserPostDelta`, each on the globals left by
the previous one: the verdicts in order (`none` for the call that ended the
process, after which no call is made) and the globals left. -/
def runUserPostDelta (w : World) : List DeltaCall → Globals → List (Option Bool) × Globals
  | [], g => ([], g)
  | c :: cs, g =>
    match checkUserPostDelta w g c.user c.username c.timeDeltaSeconds c.status with
    | .fatal g1 => ([none], g1)
    | .ok verdict g1 =>
      (some verdict :: (runUserPostDelta w cs g1).1, (runUserPostDelta w cs g1).2)

/-- The same sequence of calls made to `checkContentDelta` with one fixed
content type. -/
def runContentDelta (w : World) (contentType : String) (gatedContent : MemberSet) :
    List DeltaCall → Globals → List (Option Bool) × Globals
  | [], g => ([], g)
  | c :: cs, g =>
    match checkContentDelta w g c.user c.username contentType gatedContent c.timeDeltaSeconds
        c.status with
    | .fatal g1 => ([none], g1)
    | .ok verdict g1 =>
      (some verdict :: (runContentDelta w contentType gatedContent cs g1).1,
        (runContentDelta w contentType gatedContent cs g1).2)

/-- A cache keyed by author and a cache keyed by (author, `contentType`) hold
the same records: same capacity, and the same authors with the same recorded
times in the same recency order. -/
def sameRecords (p : Cache Int Time) (c : Cache ContentDelta Time) (contentType : String) :
    Prop :=
  c.MaxEntries = p.MaxEntries ∧
    c.entries = p.entries.map (fun e => ((⟨e.1, contentType⟩ : ContentDelta), e.2))

/-- The deltas, in seconds, whose duration in nanoseconds fits in 64 bits. -/
def deltaFits (timeDeltaSeconds : Int) : Prop :=
  -9223372036 ≤ timeDeltaSeconds ∧ timeDeltaSeconds ≤ 9223372036

/-! ## Sample values -/

/-- A parser that knows five timestamps (nanoseconds since the zero time). -/
def sampleParse (s : String) : Option Int :=
  [ ("Wed Aug 27 13:08:45 +0000 2008", (63355439325000000000 : Int)),
    ("Wed Aug 27 13:08:46 +0000 2008", 63355439326000000000),
    ("Wed Aug 27 13:08:47 +0000 2008", 63355439327000000000),
    ("Fri Dec 07 12:56:02 +0000 2300", 72578811362000000000),
    ("Wed Aug 27 13:00:00 +0000 2008", 63355438800000000000) ].lookup s

/-- A world whose clock reads Mon Aug 27 13:08:45 +0000 2018. -/
def sampleWorld : World :=
  ⟨sampleParse, 63670972125000000000⟩

/-- A world whose clock reads Wed Aug 27 13:08:45 +0000 2008. -/
def sampleWorld2008 : World :=
  ⟨sampleParse, 63355439325000000000⟩

def noEntities : Entities :=
  ⟨[], [], []⟩

def sampleUser : User :=
  ⟨1337821, "bothFollow", "Wed Aug 27 13:08:45 +0000 2008"⟩

/-- An original status with one video attachment. -/
def sampleStatus : Tweet :=
  { Id := 1
    Text := "I have pie!"
    CreatedAt := "Wed Aug 27 13:08:45 +0000 2008"
    InReplyToScreenName := ""
    RetweetedStatus := none
    PossiblySensitive := false
    User := sampleUser
    Entities := noEntities
    ExtendedEntities := ⟨[], [], [⟨"video", "https://example.com/v.mp4"⟩]⟩
    ExtendedTweet := ⟨"", noEntities, noEntities⟩ }

def sampleConfig : AppConfiguration :=
  { Settings :=
      { MustFollow := ""
        IgnoreFrom := "chim"
        PostTimeDelta := 2
        ContentTimeDelta := 2
        DeltaGatedContent := []
        DenySensitiveContent := true
        MinAccountAgeHours := 5
        MutualFollow := false
        ProhibitedMentions := []
        ProhibitedWords := []
        TwitterFilterLevel := "" }
    TestMode := false }

def sampleGlobals : Globals :=
  ConfigureApp sampleConfig

/-- A lookup that answers that neither side follows the other. -/
def sampleFriendship : FriendshipStatus :=
  ⟨fun _ => (⟨⟨⟨false⟩, ⟨false⟩⟩⟩, none)⟩

/-- An API whose `Retweet` succeeds. -/
def sampleApi : ApiInterface :=
  ⟨fun _ _ => none⟩

/-- An API whose `Retweet` fails with an error that is not an `ApiError`. -/
def failingApi : ApiInterface :=
  ⟨fun _ _ => some (.other "json: syntax error")⟩

/-- The sample status turned into a reply. -/
def sampleReply : Tweet :=
  { sampleStatus with InReplyToScreenName := "x" }

/-- An original status whose text starts with the marker `RT` and that
carries a video. -/
def sampleRT : Tweet :=
  { sampleStatus with
    Text := "RT Learn his one secret!"
    Entities := ⟨[], [], [⟨"video", "https://example.com/v.mp4"⟩]⟩
    ExtendedEntities := noEntities }

/-- An original status whose only attachment is in
`ExtendedTweet.ExtendedEntities`. -/
def sampleLastLocation : Tweet :=
  { sampleStatus with
    ExtendedEntities := noEntities
    ExtendedTweet :=
      ⟨"", noEntities, ⟨[], [], [⟨"Animated_GIF", "https://example.com/a.gif"⟩]⟩⟩ }

/-- An original status with a URL and no media. -/
def sampleUrlOnly : Tweet :=
  { sampleStatus with
    Entities := ⟨[⟨"", "", "https://google.com"⟩], [], []⟩
    ExtendedEntities := noEntities }

/-- The sample globals after a video of the sample author, created at
Wed Aug 27 13:08:45 +0000 2008, went through both delta gates. -/
def warmGlobals : Globals :=
  { sampleGlobals with
    userContentDeltaLRU := ⟨27, [(⟨1337821, "video"⟩, 63355439325000000000)]⟩
    userPostDeltaLRU := ⟨128, [(1337821, 63355439325000000000)]⟩ }

/-- The sample status created one second later. -/
def sampleStatus46 : Tweet :=
  { sampleStatus with CreatedAt := "Wed Aug 27 13:08:46 +0000 2008" }

/-- The sample status created two seconds later. -/
def sampleStatus47 : Tweet :=
  { sampleStatus with CreatedAt := "Wed Aug 27 13:08:47 +0000 2008" }

/-- The sample status created 9223372037 seconds later. -/
def sampleStatus2300 : Tweet :=
  { sampleStatus with CreatedAt := "Fri Dec 07 12:56:02 +0000 2300" }

/-- The sample globals with a content-delta cache of the capacity of the
post-delta cache. -/
def sampleGlobals128 : Globals :=
  { sampleGlobals with userContentDeltaLRU := Cache.New 128 }

/-- Three calls of a delta gate for the sample author, one second apart, with
a delta of 2 seconds. -/
def sampleCalls : List DeltaCall :=
  [ ⟨1337821, "bothFollow", 2, sampleStatus⟩,
    ⟨1337821, "bothFollow", 2, sampleStatus46⟩,
    ⟨1337821, "bothFollow", 2, sampleStatus47⟩ ]

/-- The minimum ages for which `time.Duration(minAgeHours*24) * time.Hour`
does not wrap around. -/
def minAgeFits (minAgeHours : Int) : Prop :=
  minAgeHours ≤ 106751

/-- A world whose clock reads Wed Aug 27 18:30:00 +0000 2008. -/
def sampleWorldEvening : World :=
  ⟨sampleParse, 63355458600000000000⟩

/-- A world whose clock reads Thu Aug 28 13:08:45 +0000 2008. -/
def sampleWorldNextDay : World :=
  ⟨sampleParse, 63355525725000000000⟩

/-- The sample status of an account created on the hour, at 13:00:00. -/
def sampleStatusOnTheHour : Tweet :=
  { sampleStatus with
    User := ⟨1337821, "bothFollow", "Wed Aug 27 13:00:00 +0000 2008"⟩ }

/-- The globals with the `MutualFollow` setting replaced. -/
def withMutualFollow (g : Globals) (mode : Bool) : Globals :=
  { g with config := { g.config with
      Settings := { g.config.Settings with MutualFollow := mode } } }

/-- The query `checkUserFollowing` sends to the live lookup. -/
def friendshipQuery (source target : String) : Values :=
  (Values.Set [] "source_screen_name" source).Set "target_screen_name" target

/-- The zero value of `anaconda.RelationshipResponse`. -/
def zeroResponse : RelationshipResponse :=
  ⟨⟨⟨false⟩, ⟨false⟩⟩⟩

/-- The mentions `checkForProhibitedMentions` scans, in scan order. -/
def allMentions (status : Tweet) : List UserMention :=
  status.ExtendedTweet.ExtendedEntities.User_mentions ++ status.Entities.User_mentions

/-- The sample globals with the sample author muted. -/
def mutedGlobals : Globals :=
  { sampleGlobals with mutedIds := MemberSet.New.Add (.num 1337821) }

/-- The sample globals with a cached 0 for the sample author. -/
def notFollowingGlobals : Globals :=
  { sampleGlobals with tweetOriginatorLRU := (Cache.New 128).Add "bothFollow" 0 }

/-- A lookup that answers that the source follows the target and the target
does not follow the source. -/
def sourceFollowsFriendship : FriendshipStatus :=
  ⟨fun _ => (⟨⟨⟨false⟩, ⟨true⟩⟩⟩, none)⟩

/-- A lookup that fails: the zero response and an error. -/
def failingFriendship : FriendshipStatus :=
  ⟨fun _ => (zeroResponse, some (.other "timeout"))⟩

/-- The member set of the mention test: `cake`, `bank`, `ace`, `boron`. -/
def sampleMentionSet : MemberSet :=
  ["cake", "bank", "ace", "boron"].foldl (fun s entries => s.Add (.str entries)) MemberSet.New

/-- The sample status mentioning a user whose display name is `cake` and
whose handle is `pie`. -/
def sampleMentionName : Tweet :=
  { sampleStatus with
    Entities := ⟨[], [⟨"cake", "pie"⟩, ⟨"emdawg", "em"⟩], []⟩ }

/-- The sample status mentioning the handle `Boron` in the extended tweet. -/
def sampleMentionHandle : Tweet :=
  { sampleStatus with
    ExtendedTweet :=
      ⟨"", noEntities, ⟨[], [⟨"pie", "Boron"⟩, ⟨"hyper", "iron_man"⟩], []⟩⟩ }

/-- The pieces of a split put together again with one space between
neighbours. -/
def joinSpaces : List (List Char) → List Char
  | [] => []
  | [p] => p
  | p :: q :: rest => p ++ ' ' :: joinSpaces (q :: rest)

/-- A status with the given text and nothing else set. -/
def textStatus (text : String) : Tweet :=
  { Id := 0
    Text := text
    CreatedAt := ""
    InReplyToScreenName := ""
    RetweetedStatus := none
    PossiblySensitive := false
    User := ⟨0, "", ""⟩
    Entities := noEntities
    ExtendedEntities := noEntities
    ExtendedTweet := ⟨"", noEntities, noEntities⟩ }

/-- The member set of the word test: `potassium`, `cat`, `dog in the iron`,
`woods` and the empty string. -/
def sampleWordSet : MemberSet :=
  ["potassium", "cat", "dog in the iron", "woods", ""].foldl
    (fun s entries => s.Add (.str entries)) MemberSet.New

/-- The sample configuration with the prohibited mention `Cake`. -/
def cakeConfig : AppConfiguration :=
  { sampleConfig with
    Settings := { sampleConfig.Settings with ProhibitedMentions := ["Cake"] } }

/-- The sample status mentioning the handle `cake`. -/
def sampleMentionCake : Tweet :=
  { sampleStatus with Entities := ⟨[], [⟨"Cake Shop", "cake"⟩], []⟩ }

/-- The status passes the original-content gate: the first condition of
`checkTweetContent`, as the source evaluates it, is false. -/
def passesOriginalGate (config : AppConfiguration) (status : Tweet) : Bool :=
  !(status.InReplyToScreenName.length != 0 ||
    status.RetweetedStatus != none ||
    HasPrefix "RT" status.Text ||
    EqualFold status.User.ScreenName config.Settings.IgnoreFrom)

/-- The sample status flagged as possibly sensitive. -/
def sampleSensitive : Tweet :=
  { sampleStatus with PossiblySensitive := true }

/-- The sample status with timestamps that are not in the RubyDate format. -/
def sampleMalformed : Tweet :=
  { sampleStatus with
    CreatedAt := "2008-08-27T13:08:45Z"
    User := ⟨1337821, "bothFollow", "2008-08-27T13:08:45Z"⟩ }

/-- The sample configuration in test mode, with the prohibited word `pie!`. -/
def pieConfig : AppConfiguration :=
  { sampleConfig with
    TestMode := true
    Settings := { sampleConfig.Settings with ProhibitedWords := ["pie!"] } }

/-- The sample status sent again two seconds later with a slightly different
text and the same video. -/
def sampleRepost : Tweet :=
  { sampleStatus47 with Text := "I have pie!!" }

/-- The sample globals once `checkDuplicateContent` has seen the URL of the
sample video. -/
def urlHeldGlobals : Globals :=
  (checkDuplicateContent sampleGlobals "https://example.com/v.mp4").2

/-- The globals set up from `pieConfig`. -/
def pieGlobals : Globals :=
  ConfigureApp pieConfig

/-- The globals left by `processTweet` on the sample status from
`urlHeldGlobals`. -/
def afterFirstGlobals : Globals :=
  (processTweet sampleWorld sampleApi sampleFriendship urlHeldGlobals sampleStatus).globals

/-- The globals a chain state carries. -/
def ChainState.globals : ChainState → Globals
  | .Admitted g => g
  | .Rejected _ g => g
  | .Halted g => g

/-- A world whose clock reads Wed Aug 27 13:00:00 +0000 2008. -/
def sampleWorldOnTheHour : World :=
  ⟨sampleParse, 63355438800000000000⟩

/-- The sample video status with an empty text. -/
def sampleEmptyText : Tweet :=
  { sampleStatus with Text := "" }

/-- The minimum age in the source, clamped at zero. -/
def clampMinAge (minAgeHours : Int) : Int :=
  if minAgeHours < 0 then 0 else minAgeHours

/-- The sample globals with a cached 0 for the handle `Alice`. -/
def aliceGlobals : Globals :=
  { sampleGlobals with tweetOriginatorLRU := (Cache.New 128).Add "Alice" 0 }

/-- A status of the author with the handle `alice`. -/
def aliceStatus : Tweet :=
  { sampleStatus with User := ⟨7, "alice", "Wed Aug 27 13:08:45 +0000 2008"⟩ }

/-! ## Paginated sources of the muted list -/

/-- The requests `populateMutedList` makes when started with the values `v`
are answered by the pages `pages`, in order and without error: the first page
answers `v`, each later page answers the request for the cursor the page
before it gave as next, every page but the last gives a next cursor other than
`"0"`, and the last page gives `"0"`. -/
def pagesFrom (m : GetMutedList) : Values → List UserCursor → Bool
  | _, [] => false
  | v, page :: rest =>
    decide (m.GetMutedUsersList v = (page, none)) &&
      match rest with
      | [] => decide (page.Next_cursor_str = "0")
      | next :: more =>
        decide (page.Next_cursor_str ≠ "0") &&
          pagesFrom m (Values.Set [] "cursor" page.Next_cursor_str) (next :: more)

/-- The source of the test `TestPopulateMuteList`, `FakeMuteInfo`: three pages
with one user each, chained by the cursors `"1"`, `"2"`, `"0"`; every answer
carries the error `err`. -/
def fakeMuteInfo (err : Option Error) : GetMutedList :=
  ⟨fun v =>
    if Values.Get v "cursor" = "1" then (⟨"2", [⟨4567, "recurse_this", ""⟩]⟩, err)
    else if Values.Get v "cursor" = "2" then (⟨"0", [⟨8910, "recurse_this", ""⟩]⟩, err)
    else (⟨"1", [⟨1234, "cake", ""⟩]⟩, err)⟩

/-- The three pages of `fakeMuteInfo`. -/
def fakePages : List UserCursor :=
  [⟨"1", [⟨1234, "cake", ""⟩]⟩, ⟨"2", [⟨4567, "recurse_this", ""⟩]⟩,
    ⟨"0", [⟨8910, "recurse_this", ""⟩]⟩]

/-! ## Sequences of calls of `checkDuplicateContent` -/

/-- The calls `checkDuplicateContent(url)` for the URLs of the list, one after
the other, each on the globals the call before it left: the verdicts in order
and the globals after the last call. -/
def runDuplicateContent : List String → Globals → List Bool × Globals
  | [], g => ([], g)
  | url :: rest, g =>
    ((checkDuplicateContent g url).1 ::
        (runDuplicateContent rest (checkDuplicateContent g url).2).1,
      (runDuplicateContent rest (checkDuplicateContent g url).2).2)

/-- The URLs of the list that `runDuplicateContent` accepts, in the order of
the calls. -/
def acceptedUrls : List String → Globals → List String
  | [], _ => []
  | url :: rest, g =>
    if (checkDuplicateContent g url).1 then
      url :: acceptedUrls rest (checkDuplicateContent g url).2
    else acceptedUrls rest (checkDuplicateContent g url).2

/-- The sample globals with a URL cache of capacity 2. -/
def smallUrlGlobals : Globals :=
  { sampleGlobals with urlLRU := Cache.New 2 }

/-! ## Samples for the state left by a rejected event -/

/-- The sample globals whose `postTextLRU` already holds the text of the
sample status. -/
def textHeldGlobals : Globals :=
  { sampleGlobals with postTextLRU := (Cache.New 25).Add "I have pie!" 1 }

/-- The globals `processTweet` leaves on the sample status from
`textHeldGlobals`. -/
def textRejectedGlobals : Globals :=
  (processTweet sampleWorld sampleApi sampleFriendship textHeldGlobals sampleStatus).globals

/-- The sample configuration with both deltas at 9223372037 seconds. -/
def longDeltaConfig : AppConfiguration :=
  { sampleConfig with
    Settings := { sampleConfig.Settings with
      PostTimeDelta := 9223372037
      ContentTimeDelta := 9223372037 } }

/-- The globals set up from `longDeltaConfig`, with the text of the sample
status already in `postTextLRU`. -/
def longDeltaGlobals : Globals :=
  { ConfigureApp longDeltaConfig with postTextLRU := (Cache.New 25).Add "I have pie!" 1 }

/-- The globals `processTweet` leaves on the sample status from
`longDeltaGlobals`. -/
def longDeltaRejectedGlobals : Globals :=
  (processTweet sampleWorld sampleApi sampleFriendship longDeltaGlobals sampleStatus).globals

/-- The sample globals whose delta caches hold Fri Dec 07 12:56:02 +0000 2300
as the recorded time of the sample author. -/
def futureGlobals : Globals :=
  { sampleGlobals with
    userContentDeltaLRU := ⟨27, [(⟨1337821, "video"⟩, 72578811362000000000)]⟩
    userPostDeltaLRU := ⟨128, [(1337821, 72578811362000000000)]⟩ }

/-- A world whose clock reads Thu Aug 28 13:13:45 +0000 2008. -/
def sampleWorldDayAndFive : World :=
  ⟨sampleParse, 63355526025000000000⟩

/-- The sample configuration with a minimum account age of 1. -/
def dayConfig : AppConfiguration :=
  { sampleConfig with
    Settings := { sampleConfig.Settings with MinAccountAgeHours := 1 } }

/-- The globals set up from `dayConfig`. -/
def dayGlobals : Globals :=
  ConfigureApp dayConfig

/-! ## The gate chain: refinement and short circuit -/

theorem processTweet_eq_finishChain (w : World) (a : ApiInterface) (fs : FriendshipStatus)
    (g : Globals) (status : Tweet) :
    processTweet w a fs g status =
      finishChain a status (runChain (gateChain w fs status) 0 g) := by
  unfold processTweet gateChain
  cases h1 : (checkTweetContent g.config status).1
  · simp [runChain, finishChain, h1]
  cases h2 : checkForProhibitedMentions status g.prohibitedMentions
  · simp [runChain, finishChain, h1, h2]
  cases h3 : checkForProhibitedWords status g.prohibitedWords
  · simp [runChain, finishChain, h1, h2, h3]
  cases h4 : checkAccountAge w status g.config.Settings.MinAccountAgeHours with
  | none => simp [runChain, finishChain, h1, h2, h3, h4]
  | some old =>
  cases old
  · simp [runChain, finishChain, h1, h2, h3, h4]
  cases h5 : userIsMuted (.num status.User.Id) g.mutedIds
  swap
  · simp [runChain, finishChain, h1, h2, h3, h4, h5]
  cases h6 : checkContentDelta w g status.User.Id status.User.ScreenName
      (checkTweetContent g.config status).2.1 g.deltaGatedContent
      g.config.Settings.ContentTimeDelta status with
  | fatal g1 => simp [runChain, finishChain, h1, h2, h3, h4, h5, h6]
  | ok r1 g1 =>
  cases r1
  · simp [runChain, finishChain, h1, h2, h3, h4, h5, h6]
  cases h7 : checkUserPostDelta w g1 status.User.Id status.User.ScreenName
      g1.config.Settings.PostTimeDelta status with
  | fatal g2 => simp [runChain, finishChain, h1, h2, h3, h4, h5, h6, h7]
  | ok r2 g2 =>
  cases r2
  · simp [runChain, finishChain, h1, h2, h3, h4, h5, h6, h7]
  cases h8 : (checkPostRecentLRU g2 status.Text).1
  · simp [runChain, finishChain, h1, h2, h3, h4, h5, h6, h7, h8]
  cases h9 : (checkUserFollowing fs (checkPostRecentLRU g2 status.Text).2 status
      (checkPostRecentLRU g2 status.Text).2.config.Settings.MustFollow).1
  · simp [runChain, finishChain, h1, h2, h3, h4, h5, h6, h7, h8, h9]
  simp [runChain, finishChain, h1, h2, h3, h4, h5, h6, h7, h8, h9]

/-! ### What each stateful check can leave behind -/

theorem checkContentDelta_cases (w : World) (g : Globals) (user : Int) (username : String)
    (contentType : String) (gatedContent : MemberSet) (d : Int) (status : Tweet) :
    (w.parseRubyDate status.CreatedAt = none ∧
        checkContentDelta w g user username contentType gatedContent d status = .fatal g) ∨
      checkContentDelta w g user username contentType gatedContent d status = .ok false g ∨
      ∃ c, checkContentDelta w g user username contentType gatedContent d status =
        .ok true { g with userContentDeltaLRU := c } := by
  unfold checkContentDelta calculateTweetTime
  cases hp : w.parseRubyDate status.CreatedAt with
  | none => simp
  | some t =>
    simp only
    cases hg : g.userContentDeltaLRU.Get ⟨user, contentType⟩ with
    | none => exact Or.inr (Or.inr ⟨_, rfl⟩)
    | some val =>
      simp only
      split
      · exact Or.inr (Or.inr ⟨_, rfl⟩)
      · exact Or.inr (Or.inl rfl)

theorem checkUserPostDelta_cases (w : World) (g : Globals) (user : Int) (username : String)
    (d : Int) (status : Tweet) :
    (w.parseRubyDate status.CreatedAt = none ∧
        checkUserPostDelta w g user username d status = .fatal g) ∨
      checkUserPostDelta w g user username d status = .ok false g ∨
      ∃ c, checkUserPostDelta w g user username d status =
        .ok true { g with userPostDeltaLRU := c } := by
  unfold checkUserPostDelta calculateTweetTime
  cases hp : w.parseRubyDate status.CreatedAt with
  | none => simp
  | some t =>
    simp only
    cases hg : g.userPostDeltaLRU.Get user with
    | none => exact Or.inr (Or.inr ⟨_, rfl⟩)
    | some val =>
      simp only
      split
      · exact Or.inr (Or.inr ⟨_, rfl⟩)
      · exact Or.inr (Or.inl rfl)

theorem checkPostRecentLRU_cases (g : Globals) (statusText : String) :
    checkPostRecentLRU g statusText = (false, g) ∨
      ∃ c, checkPostRecentLRU g statusText = (true, { g with postTextLRU := c }) := by
  unfold checkPostRecentLRU
  split
  · exact Or.inr ⟨_, rfl⟩
  · exact Or.inl rfl

theorem checkUserFollowing_cases (fs : FriendshipStatus) (g : Globals) (status : Tweet)
    (targetUser : String) :
    ∃ verdict c, checkUserFollowing fs g status targetUser =
      (verdict, { g with tweetOriginatorLRU := c }) := by
  unfold checkUserFollowing
  dsimp only
  repeat' split
  all_goals exact ⟨_, _, rfl⟩

theorem checkAccountAge_of_parse (w : World) (status : Tweet) (minAgeHours : Int) (t : Int)
    (h : w.parseRubyDate status.User.CreatedAt = some t) :
    ∃ old, checkAccountAge w status minAgeHours = some old := by
  unfold checkAccountAge
  rw [h]
  dsimp only
  repeat' split
  all_goals exact ⟨_, rfl⟩

/-- The ways the chain of `processTweet` can end, with the globals it leaves:
gates 0 to 5 reject without a write; gate 6 rejects after a write to
`userContentDeltaLRU`; gate 7 after writes to the two delta caches; gate 8 and
admission after writes to the four caches; the chain halts only on a
timestamp that does not parse. -/
theorem runChain_gateChain_cases (w : World) (fs : FriendshipStatus) (g : Globals)
    (status : Tweet) :
    (∃ i, i ≤ 5 ∧ runChain (gateChain w fs status) 0 g = .Rejected i g) ∨
    (∃ g1, runChain (gateChain w fs status) 0 g = .Halted g1 ∧
      (w.parseRubyDate status.User.CreatedAt = none ∨
        w.parseRubyDate status.CreatedAt = none)) ∨
    (∃ c, runChain (gateChain w fs status) 0 g =
      .Rejected 6 { g with userContentDeltaLRU := c }) ∨
    (∃ c p, runChain (gateChain w fs status) 0 g =
      .Rejected 7 { g with userContentDeltaLRU := c, userPostDeltaLRU := p }) ∨
    (∃ c p t o, runChain (gateChain w fs status) 0 g =
      .Rejected 8 { g with userContentDeltaLRU := c, userPostDeltaLRU := p, postTextLRU := t,
                           tweetOriginatorLRU := o }) ∨
    (∃ c p t o, runChain (gateChain w fs status) 0 g =
      .Admitted { g with userContentDeltaLRU := c, userPostDeltaLRU := p, postTextLRU := t,
                         tweetOriginatorLRU := o }) := by
  unfold gateChain
  cases h1 : (checkTweetContent g.config status).1
  · exact Or.inl ⟨0, by omega, by simp [runChain, h1]⟩
  cases h2 : checkForProhibitedMentions status g.prohibitedMentions
  · exact Or.inl ⟨1, by omega, by simp [runChain, h1, h2]⟩
  cases h3 : checkForProhibitedWords status g.prohibitedWords
  · exact Or.inl ⟨2, by omega, by simp [runChain, h1, h2, h3]⟩
  cases h4 : checkAccountAge w status g.config.Settings.MinAccountAgeHours with
  | none =>
    refine Or.inr (Or.inl ⟨g, by simp [runChain, h1, h2, h3, h4], Or.inl ?_⟩)
    cases hp : w.parseRubyDate status.User.CreatedAt with
    | none => rfl
    | some t =>
      obtain ⟨b, hb⟩ := checkAccountAge_of_parse w status g.config.Settings.MinAccountAgeHours t hp
      rw [hb] at h4
      cases h4
  | some old =>
  cases old
  · exact Or.inl ⟨3, by omega, by simp [runChain, h1, h2, h3, h4]⟩
  cases h5 : userIsMuted (.num status.User.Id) g.mutedIds
  swap
  · exact Or.inl ⟨4, by omega, by simp [runChain, h1, h2, h3, h4, h5]⟩
  rcases checkContentDelta_cases w g status.User.Id status.User.ScreenName
      (checkTweetContent g.config status).2.1 g.deltaGatedContent
      g.config.Settings.ContentTimeDelta status with ⟨hp, h6⟩ | h6 | ⟨c, h6⟩
  · exact Or.inr (Or.inl ⟨g, by simp [runChain, h1, h2, h3, h4, h5, h6], Or.inr hp⟩)
  · exact Or.inl ⟨5, by omega, by simp [runChain, h1, h2, h3, h4, h5, h6]⟩
  rcases checkUserPostDelta_cases w { g with userContentDeltaLRU := c } status.User.Id
      status.User.ScreenName g.config.Settings.PostTimeDelta status with ⟨hp, h7⟩ | h7 | ⟨p, h7⟩
  · exact Or.inr (Or.inl ⟨{ g with userContentDeltaLRU := c },
      by simp [runChain, h1, h2, h3, h4, h5, h6, h7], Or.inr hp⟩)
  · exact Or.inr (Or.inr (Or.inl ⟨c, by simp [runChain, h1, h2, h3, h4, h5, h6, h7]⟩))
  rcases checkPostRecentLRU_cases
      { g with userContentDeltaLRU := c, userPostDeltaLRU := p } status.Text with h8 | ⟨t, h8⟩
  · exact Or.inr (Or.inr (Or.inr (Or.inl
      ⟨c, p, by simp [runChain, h1, h2, h3, h4, h5, h6, h7, h8]⟩)))
  obtain ⟨verdict, o, h9⟩ := checkUserFollowing_cases fs
    { g with userContentDeltaLRU := c, userPostDeltaLRU := p, postTextLRU := t } status
    g.config.Settings.MustFollow
  cases verdict
  · exact Or.inr (Or.inr (Or.inr (Or.inr (Or.inl
      ⟨c, p, t, o, by simp [runChain, h1, h2, h3, h4, h5, h6, h7, h8, h9]⟩))))
  · exact Or.inr (Or.inr (Or.inr (Or.inr (Or.inr
      ⟨c, p, t, o, by simp [runChain, h1, h2, h3, h4, h5, h6, h7, h8, h9]⟩))))

theorem runChain_rejected_ge (gates : List Gate) (n : Nat) (g : Globals) (i : Nat)
    (g1 : Globals) (h : runChain gates n g = .Rejected i g1) : n ≤ i := by
  induction gates generalizing n g with
  | nil => simp [runChain] at h
  | cons gate rest ih =>
    unfold runChain at h
    cases hg : gate g with
    | fatal g2 => simp [hg] at h
    | ok verdict g2 =>
      rw [hg] at h
      cases verdict
      · simp at h
        omega
      · simp at h
        have := ih (n + 1) g2 h
        omega

/-- A rejection at gate `i` is decided by the gates up to `i`: whatever gates
follow them, the chain ends in the same state. -/
theorem runChain_rejected_take (gates later : List Gate) (n : Nat) (g : Globals) (i : Nat)
    (g1 : Globals) (h : runChain gates n g = .Rejected i g1) :
    runChain (gates.take (i - n + 1) ++ later) n g = .Rejected i g1 := by
  induction gates generalizing n g with
  | nil => simp [runChain] at h
  | cons gate rest ih =>
    unfold runChain at h
    cases hg : gate g with
    | fatal g2 => simp [hg] at h
    | ok verdict g2 =>
      rw [hg] at h
      cases verdict
      · simp at h
        simp [runChain, hg, h]
      · simp at h
        have hle := runChain_rejected_ge rest (n + 1) g2 i g1 h
        have := ih (n + 1) g2 h
        have e : i - n + 1 = (i - (n + 1) + 1) + 1 := by omega
        rw [e]
        simp [runChain, hg, this]

/-! ### C1 -/

/-- C1 (as amended): for every event whose timestamps parse and whose retweet
does not end the process (test mode, or `Retweet` succeeds or fails
recoverably), `processTweet` returns true when the chain of the nine gates, run
in the fixed order with each gate on the state left by the previous ones,
admits the event, and returns false when the chain rejects it, which it does
at the first gate that rejects; the globals left are those of the chain. -/
theorem processTweet_gate_chain (w : World) (a : ApiInterface) (fs : FriendshipStatus)
    (g : Globals) (status : Tweet)
    (hCreated : w.parseRubyDate status.CreatedAt ≠ none)
    (hUser : w.parseRubyDate status.User.CreatedAt ≠ none)
    (hRetweet : retweetSurvives a g status) :
    (∃ g1, runChain (gateChain w fs status) 0 g = .Admitted g1 ∧
        processTweet w a fs g status = .ok true g1) ∨
      (∃ i g1, runChain (gateChain w fs status) 0 g = .Rejected i g1 ∧
        processTweet w a fs g status = .ok false g1) := by
  rw [processTweet_eq_finishChain]
  rcases runChain_gateChain_cases w fs g status with
    ⟨i, _, h⟩ | ⟨g1, _, h | h⟩ | ⟨c, h⟩ | ⟨c, p, h⟩ | ⟨c, p, t, o, h⟩ | ⟨c, p, t, o, h⟩
  · exact Or.inr ⟨i, g, h, by rw [h]; rfl⟩
  · exact absurd h hUser
  · exact absurd h hCreated
  · exact Or.inr ⟨6, _, h, by rw [h]; rfl⟩
  · exact Or.inr ⟨7, _, h, by rw [h]; rfl⟩
  · exact Or.inr ⟨8, _, h, by rw [h]; rfl⟩
  · refine Or.inl ⟨_, h, ?_⟩
    rw [h]
    unfold retweetSurvives at hRetweet
    rcases hRetweet with ht | hr
    · simp [finishChain, ht]
    · cases hret : (checkRetweetErrors .ErrorsAreFatal "Could not retweet"
          (a.Retweet status.Id true)).ret with
      | none => exact absurd hret hr
      | some v => simp [finishChain, hret]

/-- Witness of C1: the sample video status in the sample world. -/
theorem processTweet_gate_chain_witness :
    sampleWorld.parseRubyDate sampleStatus.CreatedAt ≠ none ∧
      sampleWorld.parseRubyDate sampleStatus.User.CreatedAt ≠ none ∧
      retweetSurvives sampleApi sampleGlobals sampleStatus ∧
      ((∃ g1, runChain (gateChain sampleWorld sampleFriendship sampleStatus) 0 sampleGlobals =
            .Admitted g1 ∧
          processTweet sampleWorld sampleApi sampleFriendship sampleGlobals sampleStatus =
            .ok true g1) ∨
        (∃ i g1, runChain (gateChain sampleWorld sampleFriendship sampleStatus) 0 sampleGlobals =
            .Rejected i g1 ∧
          processTweet sampleWorld sampleApi sampleFriendship sampleGlobals sampleStatus =
            .ok false g1)) :=
  ⟨by decide, by decide, Or.inr (by decide),
    processTweet_gate_chain sampleWorld sampleApi sampleFriendship sampleGlobals sampleStatus
      (by decide) (by decide) (Or.inr (by decide))⟩

/-- Counterexample to C1 as stated: the sample status has timestamps that
parse and passes all nine gates, but `Retweet` fails with an error that is not
an `ApiError`, `checkRetweetErrors` ends the process, and `processTweet` does
not return true. -/
theorem processTweet_gate_chain_counterexample :
    sampleWorld.parseRubyDate sampleStatus.CreatedAt ≠ none ∧
      sampleWorld.parseRubyDate sampleStatus.User.CreatedAt ≠ none ∧
      (∃ g1, runChain (gateChain sampleWorld sampleFriendship sampleStatus) 0 sampleGlobals =
        .Admitted g1) ∧
      (∃ g1, processTweet sampleWorld failingApi sampleFriendship sampleGlobals sampleStatus =
        .fatal g1) ∧
      ∀ g1, processTweet sampleWorld failingApi sampleFriendship sampleGlobals sampleStatus ≠
        .ok true g1 := by
  refine ⟨by decide, by decide, ⟨_, rfl⟩, ⟨_, rfl⟩, ?_⟩
  intro g1 h
  have e : processTweet sampleWorld failingApi sampleFriendship sampleGlobals sampleStatus =
      .fatal (processTweet sampleWorld failingApi sampleFriendship sampleGlobals
        sampleStatus).globals := rfl
  rw [e] at h
  cases h

/-! ### C2 -/

/-- C2: when the chain of `processTweet` rejects an event at gate `i`,
`processTweet` returns false with the globals left by that gate; the result
does not depend on the gates after gate `i` (any other gates in their place
give the same end state); and the caches only later gates write are as before
the call: a rejection by one of the first five gates (content, prohibited
mentions, prohibited words, account age, mute; `i ≤ 4`) leaves
`userContentDeltaLRU`, `userPostDeltaLRU`, `postTextLRU` and
`tweetOriginatorLRU` unchanged, one by the content-delta gate leaves the last
three unchanged, one by the post-delta gate the last two, one by the
duplicate-text gate the last. -/
theorem processTweet_short_circuit (w : World) (a : ApiInterface) (fs : FriendshipStatus)
    (g : Globals) (status : Tweet) (i : Nat) (g1 : Globals) (later : List Gate)
    (h : runChain (gateChain w fs status) 0 g = .Rejected i g1) :
    processTweet w a fs g status = .ok false g1 ∧
      runChain ((gateChain w fs status).take (i + 1) ++ later) 0 g = .Rejected i g1 ∧
      (i ≤ 4 → g1.userContentDeltaLRU = g.userContentDeltaLRU ∧
        g1.userPostDeltaLRU = g.userPostDeltaLRU ∧ g1.postTextLRU = g.postTextLRU ∧
        g1.tweetOriginatorLRU = g.tweetOriginatorLRU) ∧
      (i ≤ 5 → g1.userPostDeltaLRU = g.userPostDeltaLRU ∧ g1.postTextLRU = g.postTextLRU ∧
        g1.tweetOriginatorLRU = g.tweetOriginatorLRU) ∧
      (i ≤ 6 → g1.postTextLRU = g.postTextLRU ∧
        g1.tweetOriginatorLRU = g.tweetOriginatorLRU) ∧
      (i ≤ 7 → g1.tweetOriginatorLRU = g.tweetOriginatorLRU) := by
  refine ⟨by rw [processTweet_eq_finishChain, h]; rfl,
    runChain_rejected_take _ later 0 g i g1 h, ?_⟩
  rcases runChain_gateChain_cases w fs g status with
    ⟨j, _, e⟩ | ⟨g2, e, _⟩ | ⟨c, e⟩ | ⟨c, p, e⟩ | ⟨c, p, t, o, e⟩ | ⟨c, p, t, o, e⟩
  all_goals rw [e] at h
  all_goals simp only [ChainState.Rejected.injEq, reduceCtorEq] at h
  · obtain ⟨_, rfl⟩ := h
    simp
  · obtain ⟨rfl, rfl⟩ := h
    simp
  · obtain ⟨rfl, rfl⟩ := h
    simp
  · obtain ⟨rfl, rfl⟩ := h
    simp

/-- Witness of C2: the sample status as a reply is rejected by the first
gate. -/
theorem processTweet_short_circuit_witness :
    runChain (gateChain sampleWorld sampleFriendship sampleReply) 0 sampleGlobals =
        .Rejected 0 sampleGlobals ∧
      processTweet sampleWorld sampleApi sampleFriendship sampleGlobals sampleReply =
        .ok false sampleGlobals :=
  ⟨by decide,
    (processTweet_short_circuit sampleWorld sampleApi sampleFriendship sampleGlobals sampleReply
      0 sampleGlobals [] (by decide)).1⟩

/-! ### C3 -/

theorem length_ne_zero_of_ne_empty (s : String) (h : s ≠ "") : s.length ≠ 0 := by
  intro h0
  apply h
  cases s with
  | mk data =>
    cases data with
    | nil => rfl
    | cons c cs => simp [String.length] at h0

/-- C3: an event that is a reply (non-empty `InReplyToScreenName`), or
carries a `RetweetedStatus`, or whose author handle equals the configured
`IgnoreFrom` ignoring case, gets `(false, "non-original", "")` from
`checkTweetContent` whatever its other fields, and `processTweet` returns
false (leaving the globals as they were). -/
theorem checkTweetContent_non_original (w : World) (a : ApiInterface) (fs : FriendshipStatus)
    (g : Globals) (status : Tweet)
    (h : status.InReplyToScreenName ≠ "" ∨ status.RetweetedStatus ≠ none ∨
      EqualFold status.User.ScreenName g.config.Settings.IgnoreFrom = true) :
    checkTweetContent g.config status = (false, "non-original", "") ∧
      processTweet w a fs g status = .ok false g := by
  have hc : checkTweetContent g.config status = (false, "non-original", "") := by
    unfold checkTweetContent
    rcases h with h | h | h
    · have := length_ne_zero_of_ne_empty _ h
      simp [this]
    · simp [h]
    · simp [h]
  refine ⟨hc, ?_⟩
  unfold processTweet
  simp [hc]

/-- Witness of C3: the sample status as a reply. -/
theorem checkTweetContent_non_original_witness :
    sampleReply.InReplyToScreenName ≠ "" ∧
      checkTweetContent sampleGlobals.config sampleReply = (false, "non-original", "") ∧
      processTweet sampleWorld sampleApi sampleFriendship sampleGlobals sampleReply =
        .ok false sampleGlobals :=
  ⟨by decide,
    checkTweetContent_non_original sampleWorld sampleApi sampleFriendship sampleGlobals
      sampleReply (Or.inl (by decide))⟩

/-! ### C4 -/

/-- C4 (the code at the failing input): the text of `sampleRT` begins with the
marker `RT`, the status is not a reply, not a repost and not from the ignored
identity, and `checkTweetContent` approves it as a video:
`strings.HasPrefix("RT", status.Text)` tests whether `"RT"` begins with the
text, not whether the text begins with `"RT"`. -/
theorem checkTweetContent_rt_marker_approved :
    HasPrefix sampleRT.Text "RT" = true ∧
      HasPrefix "RT" sampleRT.Text = false ∧
      checkTweetContent sampleConfig sampleRT = (true, "video", "https://example.com/v.mp4") := by
  decide

/-! ### C5 and C6 -/

theorem checkEntityMedia_eq_find (status : Tweet) (l : List EntityMedia) :
    checkEntityMedia status l =
      match l.find? recognised with
      | some media => (true, mediaLabel media, media.Media_url_https)
      | none => (false, "", "") := by
  induction l with
  | nil => rfl
  | cons m rest ih =>
    unfold checkEntityMedia
    by_cases h1 : EqualFold m.Type_ "animated_gif" = true
    · simp [h1, recognised, mediaLabel, List.find?]
    · by_cases h2 : EqualFold m.Type_ "video" = true
      · simp [h1, h2, recognised, mediaLabel, List.find?]
      · simp [h1, h2, recognised, List.find?, ih]

theorem checkEntityMedia_fst (status : Tweet) (l : List EntityMedia) :
    (checkEntityMedia status l).1 = (l.find? recognised).isSome := by
  rw [checkEntityMedia_eq_find]
  cases l.find? recognised <;> rfl

/-- Past its first two conditions `checkTweetContent` is the search for the
first recognised attachment in the concatenation of the four media lists. -/
theorem checkTweetContent_eq_find (config : AppConfiguration) (status : Tweet)
    (h : passesContentGuards config status) :
    checkTweetContent config status =
      match (allMedia status).find? recognised with
      | some media => (true, mediaLabel media, media.Media_url_https)
      | none => (false, "no_match", "") := by
  obtain ⟨h1, h2⟩ := h
  unfold checkTweetContent at h1 h2 ⊢
  by_cases hc : (status.InReplyToScreenName.length != 0 || status.RetweetedStatus != none ||
      HasPrefix "RT" status.Text ||
      EqualFold status.User.ScreenName config.Settings.IgnoreFrom) = true
  · rw [if_pos hc] at h1
    exact absurd rfl h1
  · rw [if_neg hc] at h2 ⊢
    by_cases hs : (config.Settings.DenySensitiveContent == true &&
        status.PossiblySensitive == true) = true
    · rw [if_pos hs] at h2
      exact absurd rfl h2
    · rw [if_neg hs]
      simp only [checkEntityMedia_fst, allMedia, List.find?_append]
      simp only [checkEntityMedia_eq_find]
      cases status.Entities.Media.find? recognised with
      | some m => simp
      | none =>
        cases status.ExtendedEntities.Media.find? recognised with
        | some m => simp
        | none =>
          cases status.ExtendedTweet.Entities.Media.find? recognised with
          | some m => simp
          | none =>
            cases status.ExtendedTweet.ExtendedEntities.Media.find? recognised with
            | some m => simp
            | none => simp

/-- C5: for every event that passes the original-content and sensitivity
gates, `checkTweetContent` returns `(true, label, Media_url_https)` for the
first attachment, in the order `Entities.Media`, `ExtendedEntities.Media`,
`ExtendedTweet.Entities.Media`, `ExtendedTweet.ExtendedEntities.Media`, whose
type is `animated_gif` (label `gif`) or `video` (label `video`) ignoring case;
in particular a match present only in the last location is returned. -/
theorem checkTweetContent_media_match (config : AppConfiguration) (status : Tweet)
    (h : passesContentGuards config status) :
    (checkTweetContent config status =
      match (allMedia status).find? recognised with
      | some media => (true, mediaLabel media, media.Media_url_https)
      | none => (false, "no_match", "")) ∧
    (∀ media, status.Entities.Media.find? recognised = none →
      status.ExtendedEntities.Media.find? recognised = none →
      status.ExtendedTweet.Entities.Media.find? recognised = none →
      status.ExtendedTweet.ExtendedEntities.Media.find? recognised = some media →
      checkTweetContent config status =
        (true, mediaLabel media, media.Media_url_https)) ∧
    (∀ media, recognised media = true →
      (EqualFold media.Type_ "animated_gif" = true ∧ mediaLabel media = "gif") ∨
      (EqualFold media.Type_ "video" = true ∧ mediaLabel media = "video")) := by
  refine ⟨checkTweetContent_eq_find config status h, ?_, ?_⟩
  · intro media e1 e2 e3 e4
    rw [checkTweetContent_eq_find config status h]
    simp [allMedia, List.find?_append, e1, e2, e3, e4]
  · intro media hr
    unfold recognised at hr
    unfold mediaLabel
    by_cases hg : EqualFold media.Type_ "animated_gif" = true
    · exact Or.inl ⟨hg, by simp [hg]⟩
    · simp only [hg, Bool.false_or, Bool.not_eq_true] at hr ⊢
      simp at hg
      exact Or.inr ⟨hr, by simp [hg]⟩

/-- Witness of C5: an animated GIF (type written `Animated_GIF`) present only
in `ExtendedTweet.ExtendedEntities` is found. -/
theorem checkTweetContent_media_match_witness :
    passesContentGuards sampleConfig sampleLastLocation ∧
      checkTweetContent sampleConfig sampleLastLocation =
        (true, "gif", "https://example.com/a.gif") :=
  ⟨⟨by decide, by decide⟩,
    (checkTweetContent_media_match sampleConfig sampleLastLocation
      ⟨by decide, by decide⟩).2.1 ⟨"Animated_GIF", "https://example.com/a.gif"⟩
      (by decide) (by decide) (by decide) (by decide)⟩

/-- C6: for every event that passes the original-content and sensitivity
gates, `checkTweetContent` returns `(false, "no_match", "")` exactly when none
of the four media lists contains an attachment of type `animated_gif` or
`video`; an event without media, whatever URLs it has, is rejected this
way. -/
theorem checkTweetContent_no_match (config : AppConfiguration) (status : Tweet)
    (h : passesContentGuards config status) :
    (checkTweetContent config status = (false, "no_match", "") ↔
      ∀ media ∈ allMedia status, recognised media = false) ∧
    (allMedia status = [] → checkTweetContent config status = (false, "no_match", "")) := by
  rw [checkTweetContent_eq_find config status h]
  constructor
  · cases hf : (allMedia status).find? recognised with
    | some m =>
      have hm := List.find?_some hf
      have hmem := List.mem_of_find?_eq_some hf
      simp only [Prod.mk.injEq, Bool.true_eq_false, false_and, false_iff, not_forall]
      exact ⟨m, hmem, by simp [hm]⟩
    | none =>
      simp only [true_iff]
      intro media hmem
      have := List.find?_eq_none.mp hf media hmem
      simpa using this
  · intro he
    rw [he]
    rfl

/-- Witness of C6: a status with a URL and no media gets `no_match`. -/
theorem checkTweetContent_no_match_witness :
    passesContentGuards sampleConfig sampleUrlOnly ∧
      checkTweetContent sampleConfig sampleUrlOnly = (false, "no_match", "") :=
  ⟨⟨by decide, by decide⟩,
    (checkTweetContent_no_match sampleConfig sampleUrlOnly ⟨by decide, by decide⟩).2
      (by decide)⟩

/-! ## The delta gates -/

theorem Cache.Get_Add_self {K V : Type} [DecidableEq K] (c : Cache K V) (key : K) (value : V)
    (hcap : 0 < c.MaxEntries) : (c.Add key value).Get key = some value := by
  unfold Cache.Get Cache.Add
  dsimp only
  split
  · rename_i hlt
    cases hf : c.entries.filter (fun e => e.1 ≠ key) with
    | nil =>
      rw [hf] at hlt
      simp at hlt
      omega
    | cons e es => simp [List.dropLast, List.lookup]
  · simp [List.lookup]

theorem wrap64_delta (d : Int) (hd : deltaFits d) : wrap64 (d * Second) = d * Second := by
  unfold deltaFits at hd
  unfold wrap64 Second
  omega

theorem wrap64_le (x : Int) : wrap64 x ≤ maxDuration := by
  unfold wrap64 maxDuration
  omega

/-- With a delta that fits, the comparison the delta gates make on saturated
and wrapped durations is the comparison of the exact values. -/
theorem sub_ge_delta_iff (t r : Int) (d : Int) (hd : deltaFits d) :
    Time.Sub t r ≥ wrap64 (d * Second) ↔ d * Second ≤ t - r := by
  rw [wrap64_delta d hd]
  unfold deltaFits at hd
  unfold Time.Sub minDuration maxDuration Second
  split
  · omega
  · split
    · omega
    · omega

theorem checkContentDelta_miss (w : World) (g : Globals) (user : Int) (username : String)
    (contentType : String) (gatedContent : MemberSet) (d : Int) (status : Tweet) (t0 : Int)
    (hparse : w.parseRubyDate status.CreatedAt = some t0)
    (hmiss : g.userContentDeltaLRU.Get ⟨user, contentType⟩ = none) :
    checkContentDelta w g user username contentType gatedContent d status =
      .ok true { g with userContentDeltaLRU :=
        g.userContentDeltaLRU.Add ⟨user, contentType⟩ (Time.Truncate t0 Second) } := by
  unfold checkContentDelta calculateTweetTime
  rw [hparse]
  dsimp only
  rw [hmiss]

theorem checkContentDelta_hit (w : World) (g : Globals) (user : Int) (username : String)
    (contentType : String) (gatedContent : MemberSet) (d : Int) (status : Tweet) (t0 r : Int)
    (hparse : w.parseRubyDate status.CreatedAt = some t0)
    (hhit : g.userContentDeltaLRU.Get ⟨user, contentType⟩ = some r) :
    checkContentDelta w g user username contentType gatedContent d status =
      if Time.Sub (Time.Truncate t0 Second) r ≥ wrap64 (d * Second) then
        .ok true { g with userContentDeltaLRU :=
          g.userContentDeltaLRU.Add ⟨user, contentType⟩ (Time.Truncate t0 Second) }
      else .ok false g := by
  unfold checkContentDelta calculateTweetTime
  rw [hparse]
  dsimp only
  rw [hhit]

theorem checkUserPostDelta_miss (w : World) (g : Globals) (user : Int) (username : String)
    (d : Int) (status : Tweet) (t0 : Int)
    (hparse : w.parseRubyDate status.CreatedAt = some t0)
    (hmiss : g.userPostDeltaLRU.Get user = none) :
    checkUserPostDelta w g user username d status =
      .ok true { g with userPostDeltaLRU :=
        g.userPostDeltaLRU.Add user (Time.Truncate t0 Second) } := by
  unfold checkUserPostDelta calculateTweetTime
  rw [hparse]
  dsimp only
  rw [hmiss]

theorem checkUserPostDelta_hit (w : World) (g : Globals) (user : Int) (username : String)
    (d : Int) (status : Tweet) (t0 r : Int)
    (hparse : w.parseRubyDate status.CreatedAt = some t0)
    (hhit : g.userPostDeltaLRU.Get user = some r) :
    checkUserPostDelta w g user username d status =
      if Time.Sub (Time.Truncate t0 Second) r ≥ wrap64 (d * Second) then
        .ok true { g with userPostDeltaLRU :=
          g.userPostDeltaLRU.Add user (Time.Truncate t0 Second) }
      else .ok false g := by
  unfold checkUserPostDelta calculateTweetTime
  rw [hparse]
  dsimp only
  rw [hhit]

/-! ### C7 -/

/-- C7 (as amended): for a delta of `d` seconds with `|d| ≤ 9223372036` (so
that `d` seconds fit in a 64-bit count of nanoseconds), `checkContentDelta` is
this transition on the cache keyed by (author id, content type), with `t` the
creation time of the event, to the second: on a miss it returns true and
records `t`; on a hit with recorded time `r` it returns true and replaces `r`
by `t` if `t - r ≥ d` seconds; otherwise it returns false and leaves the
globals, and so the recorded `r`, unchanged. The wall clock plays no part in
the result. (The cache has a positive capacity; the program creates it with
capacity 27.) -/
theorem checkContentDelta_transition (w : World) (g : Globals) (user : Int)
    (username : String) (contentType : String) (gatedContent : MemberSet) (d : Int)
    (status : Tweet) (t0 : Int)
    (hparse : w.parseRubyDate status.CreatedAt = some t0)
    (hcap : 0 < g.userContentDeltaLRU.MaxEntries)
    (hd : deltaFits d) :
    (g.userContentDeltaLRU.Get ⟨user, contentType⟩ = none →
      checkContentDelta w g user username contentType gatedContent d status =
        .ok true { g with userContentDeltaLRU :=
          g.userContentDeltaLRU.Add ⟨user, contentType⟩ (Time.Truncate t0 Second) }) ∧
    (∀ r, g.userContentDeltaLRU.Get ⟨user, contentType⟩ = some r →
      d * Second ≤ Time.Truncate t0 Second - r →
      checkContentDelta w g user username contentType gatedContent d status =
        .ok true { g with userContentDeltaLRU :=
          g.userContentDeltaLRU.Add ⟨user, contentType⟩ (Time.Truncate t0 Second) }) ∧
    (∀ r, g.userContentDeltaLRU.Get ⟨user, contentType⟩ = some r →
      Time.Truncate t0 Second - r < d * Second →
      checkContentDelta w g user username contentType gatedContent d status = .ok false g) ∧
    (g.userContentDeltaLRU.Add ⟨user, contentType⟩ (Time.Truncate t0 Second)).Get
      ⟨user, contentType⟩ = some (Time.Truncate t0 Second) ∧
    (∀ now, checkContentDelta { w with now := now } g user username contentType gatedContent d
        status =
      checkContentDelta w g user username contentType gatedContent d status) := by
  refine ⟨?_, ?_, ?_, Cache.Get_Add_self _ _ _ hcap, ?_⟩
  · intro hmiss
    exact checkContentDelta_miss w g user username contentType gatedContent d status t0 hparse
      hmiss
  · intro r hhit hge
    rw [checkContentDelta_hit w g user username contentType gatedContent d status t0 r hparse
      hhit]
    rw [if_pos ((sub_ge_delta_iff _ _ d hd).mpr hge)]
  · intro r hhit hlt
    rw [checkContentDelta_hit w g user username contentType gatedContent d status t0 r hparse
      hhit]
    rw [if_neg]
    intro hge
    have := (sub_ge_delta_iff _ _ d hd).mp hge
    omega
  · intro now
    rfl

/-- Witness of C7: the sample video status against an empty cache, delta 2. -/
theorem checkContentDelta_transition_witness :
    sampleWorld.parseRubyDate sampleStatus.CreatedAt = some 63355439325000000000 ∧
      0 < sampleGlobals.userContentDeltaLRU.MaxEntries ∧
      deltaFits 2 ∧
      sampleGlobals.userContentDeltaLRU.Get ⟨1337821, "video"⟩ = none ∧
      checkContentDelta sampleWorld sampleGlobals 1337821 "bothFollow" "video" MemberSet.New 2
          sampleStatus =
        .ok true { sampleGlobals with userContentDeltaLRU :=
          (sampleGlobals.userContentDeltaLRU.Add ⟨1337821, "video"⟩
            (Time.Truncate 63355439325000000000 Second)) } :=
  ⟨by decide, by decide, by unfold deltaFits; decide, by decide,
    (checkContentDelta_transition sampleWorld sampleGlobals 1337821 "bothFollow" "video"
      MemberSet.New 2 sampleStatus 63355439325000000000 (by decide) (by decide)
      (by unfold deltaFits; decide)).1 (by decide)⟩

/-- Counterexample to C7 as stated: with a delta of 9223372037 seconds the
duration `time.Duration(timeDeltaSeconds) * time.Second` wraps around to a
negative value; on a hit with `t - r = 0`, less than the delta, the event is
admitted and not rejected. -/
theorem checkContentDelta_transition_counterexample :
    sampleWorld.parseRubyDate sampleStatus.CreatedAt = some 63355439325000000000 ∧
      Time.Truncate 63355439325000000000 Second = 63355439325000000000 ∧
      warmGlobals.userContentDeltaLRU.Get ⟨1337821, "video"⟩ = some 63355439325000000000 ∧
      (63355439325000000000 : Int) - 63355439325000000000 < 9223372037 * Second ∧
      wrap64 (9223372037 * Second) = -9223372036709551616 ∧
      checkContentDelta sampleWorld warmGlobals 1337821 "bothFollow" "video" MemberSet.New
          9223372037 sampleStatus ≠ .ok false warmGlobals ∧
      ∃ g1, checkContentDelta sampleWorld warmGlobals 1337821 "bothFollow" "video"
          MemberSet.New 9223372037 sampleStatus = .ok true g1 :=
  ⟨by decide, by decide, by decide, by decide, by decide, by decide, ⟨_, rfl⟩⟩

/-! ### C8 -/

/-- C8 (as amended): for both `checkContentDelta` and `checkUserPostDelta`,
starting from a cache with no entry for the key, for all event times `t1`,
`t2`, `t3` (to the second) and every delta of `d` seconds with
`|d| ≤ 9223372036` and `t2 - t1 < d ≤ t3 - t1`: the first occurrence is
admitted and records `t1`, the second is rejected and leaves the globals, with
`t1` recorded, as they are, and the third is admitted (its elapsed time is
measured from `t1`, not from the rejected `t2`) and records `t3`. (Both caches
have a positive capacity.) -/
theorem delta_gates_three_events (w : World) (g : Globals) (user : Int) (username : String)
    (contentType : String) (gatedContent : MemberSet) (d : Int) (s1 s2 s3 : Tweet)
    (u1 u2 u3 : Int)
    (hp1 : w.parseRubyDate s1.CreatedAt = some u1)
    (hp2 : w.parseRubyDate s2.CreatedAt = some u2)
    (hp3 : w.parseRubyDate s3.CreatedAt = some u3)
    (hmissC : g.userContentDeltaLRU.Get ⟨user, contentType⟩ = none)
    (hmissP : g.userPostDeltaLRU.Get user = none)
    (hcapC : 0 < g.userContentDeltaLRU.MaxEntries)
    (hcapP : 0 < g.userPostDeltaLRU.MaxEntries)
    (hd : deltaFits d)
    (h2 : Time.Truncate u2 Second - Time.Truncate u1 Second < d * Second)
    (h3 : d * Second ≤ Time.Truncate u3 Second - Time.Truncate u1 Second) :
    (∃ g1 g3,
      checkContentDelta w g user username contentType gatedContent d s1 = .ok true g1 ∧
      g1.userContentDeltaLRU.Get ⟨user, contentType⟩ = some (Time.Truncate u1 Second) ∧
      checkContentDelta w g1 user username contentType gatedContent d s2 = .ok false g1 ∧
      checkContentDelta w g1 user username contentType gatedContent d s3 = .ok true g3 ∧
      g3.userContentDeltaLRU.Get ⟨user, contentType⟩ = some (Time.Truncate u3 Second)) ∧
    (∃ g1 g3,
      checkUserPostDelta w g user username d s1 = .ok true g1 ∧
      g1.userPostDeltaLRU.Get user = some (Time.Truncate u1 Second) ∧
      checkUserPostDelta w g1 user username d s2 = .ok false g1 ∧
      checkUserPostDelta w g1 user username d s3 = .ok true g3 ∧
      g3.userPostDeltaLRU.Get user = some (Time.Truncate u3 Second)) := by
  constructor
  · have hget : (g.userContentDeltaLRU.Add ⟨user, contentType⟩ (Time.Truncate u1 Second)).Get
        ⟨user, contentType⟩ = some (Time.Truncate u1 Second) := Cache.Get_Add_self _ _ _ hcapC
    refine ⟨{ g with userContentDeltaLRU :=
        g.userContentDeltaLRU.Add ⟨user, contentType⟩ (Time.Truncate u1 Second) },
      { g with userContentDeltaLRU :=
        ((g.userContentDeltaLRU.Add ⟨user, contentType⟩ (Time.Truncate u1 Second)).Add
          ⟨user, contentType⟩ (Time.Truncate u3 Second)) },
      checkContentDelta_miss w g user username contentType gatedContent d s1 u1 hp1 hmissC,
      hget, ?_, ?_, ?_⟩
    · rw [checkContentDelta_hit w _ user username contentType gatedContent d s2 u2 _ hp2 hget]
      rw [if_neg]
      intro hge
      have := (sub_ge_delta_iff _ _ d hd).mp hge
      omega
    · rw [checkContentDelta_hit w _ user username contentType gatedContent d s3 u3 _ hp3 hget]
      rw [if_pos ((sub_ge_delta_iff _ _ d hd).mpr h3)]
    · exact Cache.Get_Add_self _ _ _ hcapC
  · have hget : (g.userPostDeltaLRU.Add user (Time.Truncate u1 Second)).Get user =
        some (Time.Truncate u1 Second) := Cache.Get_Add_self _ _ _ hcapP
    refine ⟨{ g with userPostDeltaLRU := g.userPostDeltaLRU.Add user (Time.Truncate u1 Second) },
      { g with userPostDeltaLRU :=
        ((g.userPostDeltaLRU.Add user (Time.Truncate u1 Second)).Add user
          (Time.Truncate u3 Second)) },
      checkUserPostDelta_miss w g user username d s1 u1 hp1 hmissP, hget, ?_, ?_, ?_⟩
    · rw [checkUserPostDelta_hit w _ user username d s2 u2 _ hp2 hget]
      rw [if_neg]
      intro hge
      have := (sub_ge_delta_iff _ _ d hd).mp hge
      omega
    · rw [checkUserPostDelta_hit w _ user username d s3 u3 _ hp3 hget]
      rw [if_pos ((sub_ge_delta_iff _ _ d hd).mpr h3)]
    · exact Cache.Get_Add_self _ _ _ hcapP

/-- Witness of C8: the sample author posts at 13:08:45, 13:08:46 and 13:08:47
with a delta of 2 seconds. -/
theorem delta_gates_three_events_witness :
    (Time.Truncate 63355439326000000000 Second - Time.Truncate 63355439325000000000 Second <
        2 * Second ∧
      2 * Second ≤
        Time.Truncate 63355439327000000000 Second - Time.Truncate 63355439325000000000 Second) ∧
    ((∃ g1 g3,
      checkContentDelta sampleWorld sampleGlobals 1337821 "bothFollow" "video" MemberSet.New 2
        sampleStatus = .ok true g1 ∧
      g1.userContentDeltaLRU.Get ⟨1337821, "video"⟩ =
        some (Time.Truncate 63355439325000000000 Second) ∧
      checkContentDelta sampleWorld g1 1337821 "bothFollow" "video" MemberSet.New 2
        sampleStatus46 = .ok false g1 ∧
      checkContentDelta sampleWorld g1 1337821 "bothFollow" "video" MemberSet.New 2
        sampleStatus47 = .ok true g3 ∧
      g3.userContentDeltaLRU.Get ⟨1337821, "video"⟩ =
        some (Time.Truncate 63355439327000000000 Second)) ∧
    (∃ g1 g3,
      checkUserPostDelta sampleWorld sampleGlobals 1337821 "bothFollow" 2 sampleStatus =
        .ok true g1 ∧
      g1.userPostDeltaLRU.Get 1337821 = some (Time.Truncate 63355439325000000000 Second) ∧
      checkUserPostDelta sampleWorld g1 1337821 "bothFollow" 2 sampleStatus46 = .ok false g1 ∧
      checkUserPostDelta sampleWorld g1 1337821 "bothFollow" 2 sampleStatus47 = .ok true g3 ∧
      g3.userPostDeltaLRU.Get 1337821 = some (Time.Truncate 63355439327000000000 Second))) :=
  ⟨⟨by decide, by decide⟩,
    delta_gates_three_events sampleWorld sampleGlobals 1337821 "bothFollow" "video"
      MemberSet.New 2 sampleStatus sampleStatus46 sampleStatus47 63355439325000000000
      63355439326000000000 63355439327000000000 (by decide) (by decide) (by decide) (by decide)
      (by decide) (by decide) (by decide) (by unfold deltaFits; decide) (by decide)
      (by decide)⟩

/-- Counterexample to C8 as stated: with a delta of 9223372037 seconds and
event times `t1 = t2` and `t3 = t1 + 9223372037 s`, so that
`t2 - t1 < d ≤ t3 - t1`, the first occurrence is admitted against the empty
caches and leaves `warmGlobals`, and the second occurrence is admitted too by
both gates, not rejected: the delta wraps around to a negative duration. -/
theorem delta_gates_three_events_counterexample :
    sampleGlobals.userContentDeltaLRU.Get ⟨1337821, "video"⟩ = none ∧
      sampleGlobals.userPostDeltaLRU.Get 1337821 = none ∧
      sampleWorld.parseRubyDate sampleStatus.CreatedAt = some 63355439325000000000 ∧
      sampleWorld.parseRubyDate sampleStatus2300.CreatedAt = some 72578811362000000000 ∧
      Time.Truncate 63355439325000000000 Second - Time.Truncate 63355439325000000000 Second <
        9223372037 * Second ∧
      9223372037 * Second ≤
        Time.Truncate 72578811362000000000 Second - Time.Truncate 63355439325000000000 Second ∧
      (checkContentDelta sampleWorld sampleGlobals 1337821 "bothFollow" "video" MemberSet.New
        9223372037 sampleStatus).globals.userContentDeltaLRU = warmGlobals.userContentDeltaLRU ∧
      (checkUserPostDelta sampleWorld sampleGlobals 1337821 "bothFollow" 9223372037
        sampleStatus).globals.userPostDeltaLRU = warmGlobals.userPostDeltaLRU ∧
      (∃ g2, checkContentDelta sampleWorld warmGlobals 1337821 "bothFollow" "video"
        MemberSet.New 9223372037 sampleStatus = .ok true g2) ∧
      ∃ g2, checkUserPostDelta sampleWorld warmGlobals 1337821 "bothFollow" 9223372037
        sampleStatus = .ok true g2 :=
  ⟨by decide, by decide, by decide, by decide, by decide, by decide, by decide, by decide,
    ⟨_, rfl⟩, ⟨_, rfl⟩⟩

/-! ### C9 -/

theorem lookup_map_contentDelta (l : List (Int × Time)) (contentType : String) (user : Int) :
    (l.map (fun e => ((⟨e.1, contentType⟩ : ContentDelta), e.2))).lookup ⟨user, contentType⟩ =
      l.lookup user := by
  induction l with
  | nil => rfl
  | cons e es ih =>
    obtain ⟨a, b⟩ := e
    by_cases h : user = a
    · subst h
      simp [List.lookup_cons]
    · have h2 : ((⟨user, contentType⟩ : ContentDelta) == ⟨a, contentType⟩) = false := by
        simp [h]
      have h3 : (user == a) = false := by simp [h]
      simp only [List.map, List.lookup_cons, h2, h3]
      exact ih

theorem sameRecords_Get (p : Cache Int Time) (c : Cache ContentDelta Time)
    (contentType : String) (h : sameRecords p c contentType) (user : Int) :
    c.Get ⟨user, contentType⟩ = p.Get user := by
  unfold Cache.Get
  rw [h.2]
  exact lookup_map_contentDelta _ _ _

theorem sameRecords_Add (p : Cache Int Time) (c : Cache ContentDelta Time)
    (contentType : String) (h : sameRecords p c contentType) (user : Int) (t : Time) :
    sameRecords (p.Add user t) (c.Add ⟨user, contentType⟩ t) contentType := by
  obtain ⟨hcap, hent⟩ := h
  unfold sameRecords Cache.Add
  dsimp only
  refine ⟨hcap, ?_⟩
  have hf : List.filter (fun e : ContentDelta × Time => decide (e.1 ≠ ⟨user, contentType⟩))
      c.entries =
      (List.filter (fun e : Int × Time => decide (e.1 ≠ user)) p.entries).map
        (fun e => ((⟨e.1, contentType⟩ : ContentDelta), e.2)) := by
    rw [hent, List.filter_map]
    congr 1
    apply List.filter_congr
    intro e _
    simp
  rw [hf, hcap]
  simp only [List.length_cons, List.length_map]
  split
  · rw [List.map_dropLast]
    rfl
  · rfl

/-- One call of each gate from states that hold the same records: both end
the process, or both return the same verdict and leave the same records. -/
theorem delta_step (w : World) (contentType : String) (gatedContent : MemberSet)
    (gp gc : Globals) (user : Int) (username : String) (d : Int) (status : Tweet)
    (h : sameRecords gp.userPostDeltaLRU gc.userContentDeltaLRU contentType) :
    (checkUserPostDelta w gp user username d status = .fatal gp ∧
      checkContentDelta w gc user username contentType gatedContent d status = .fatal gc) ∨
    (∃ verdict gp1 gc1,
      checkUserPostDelta w gp user username d status = .ok verdict gp1 ∧
      checkContentDelta w gc user username contentType gatedContent d status =
        .ok verdict gc1 ∧
      sameRecords gp1.userPostDeltaLRU gc1.userContentDeltaLRU contentType) := by
  cases hp : w.parseRubyDate status.CreatedAt with
  | none =>
    left
    unfold checkUserPostDelta checkContentDelta calculateTweetTime
    simp [hp]
  | some t0 =>
    right
    have hget := sameRecords_Get _ _ contentType h user
    cases hg : gp.userPostDeltaLRU.Get user with
    | none =>
      rw [hg] at hget
      exact ⟨true, _, _, checkUserPostDelta_miss w gp user username d status t0 hp hg,
        checkContentDelta_miss w gc user username contentType gatedContent d status t0 hp hget,
        sameRecords_Add _ _ contentType h user _⟩
    | some r =>
      rw [hg] at hget
      rw [checkUserPostDelta_hit w gp user username d status t0 r hp hg,
        checkContentDelta_hit w gc user username contentType gatedContent d status t0 r hp hget]
      by_cases hc : Time.Sub (Time.Truncate t0 Second) r ≥ wrap64 (d * Second)
      · rw [if_pos hc, if_pos hc]
        exact ⟨true, _, _, rfl, rfl, sameRecords_Add _ _ contentType h user _⟩
      · rw [if_neg hc, if_neg hc]
        exact ⟨false, _, _, rfl, rfl, h⟩

theorem delta_runs_agree (w : World) (contentType : String) (gatedContent : MemberSet)
    (calls : List DeltaCall) (gp gc : Globals)
    (h : sameRecords gp.userPostDeltaLRU gc.userContentDeltaLRU contentType) :
    (runUserPostDelta w calls gp).1 = (runContentDelta w contentType gatedContent calls gc).1 ∧
      sameRecords (runUserPostDelta w calls gp).2.userPostDeltaLRU
        (runContentDelta w contentType gatedContent calls gc).2.userContentDeltaLRU
        contentType := by
  induction calls generalizing gp gc with
  | nil => exact ⟨rfl, h⟩
  | cons c cs ih =>
    unfold runUserPostDelta runContentDelta
    rcases delta_step w contentType gatedContent gp gc c.user c.username c.timeDeltaSeconds
      c.status h with ⟨e1, e2⟩ | ⟨verdict, gp1, gc1, e1, e2, h1⟩
    · rw [e1, e2]
      exact ⟨rfl, h⟩
    · rw [e1, e2]
      dsimp only
      obtain ⟨iv, ig⟩ := ih gp1 gc1 h1
      exact ⟨by rw [iv], ig⟩

/-- An elapsed time equal to the delta passes the comparison of the delta
gates, also when the delta in nanoseconds does not fit in 64 bits. -/
theorem sub_ge_of_elapsed_eq (t r d : Int) (hle : r ≤ t) (he : t - r = d * Second) :
    Time.Sub t r ≥ wrap64 (d * Second) := by
  unfold Time.Sub minDuration maxDuration wrap64
  unfold Second at he ⊢
  split
  · omega
  · split
    · omega
    · omega

/-- An elapsed time equal to the delta passes the comparison of the delta
gates for every delta of at least -9223372036 seconds: a negative delta in
that range fits in 64 bits, and a delta of zero or more has a non-negative
elapsed time. -/
theorem sub_ge_of_elapsed_eq_of_ge (t r d : Int) (hd : -9223372036 ≤ d)
    (he : t - r = d * Second) : Time.Sub t r ≥ wrap64 (d * Second) := by
  unfold Time.Sub minDuration maxDuration wrap64
  unfold Second at he ⊢
  split
  · omega
  · split
    · omega
    · omega

/-- C9 (as amended): `checkUserPostDelta` is the algorithm of
`checkContentDelta` keyed by author id alone: from a post-delta cache and a
content-delta cache of the same capacity that hold the same records (for
instance both empty), every sequence of (author, creation time, delta) calls
gives the same verdicts from `checkUserPostDelta` as from `checkContentDelta`
run with one fixed content type, and leaves the same recorded times in the
same recency order; and an elapsed time exactly equal to the delta is admitted
by both for every delta of at least -9223372036 seconds. -/
theorem checkUserPostDelta_refines_checkContentDelta (w : World) (contentType : String)
    (gatedContent : MemberSet) (calls : List DeltaCall) (gp gc : Globals)
    (h : sameRecords gp.userPostDeltaLRU gc.userContentDeltaLRU contentType) :
    (runUserPostDelta w calls gp).1 = (runContentDelta w contentType gatedContent calls gc).1 ∧
    sameRecords (runUserPostDelta w calls gp).2.userPostDeltaLRU
      (runContentDelta w contentType gatedContent calls gc).2.userContentDeltaLRU
      contentType ∧
    (∀ user,
      (runContentDelta w contentType gatedContent calls gc).2.userContentDeltaLRU.Get
          ⟨user, contentType⟩ =
        (runUserPostDelta w calls gp).2.userPostDeltaLRU.Get user) ∧
    (∀ (g : Globals) (user : Int) (username : String) (d : Int) (status : Tweet) (t0 r : Int),
      w.parseRubyDate status.CreatedAt = some t0 →
      -9223372036 ≤ d →
      Time.Truncate t0 Second - r = d * Second →
      (g.userPostDeltaLRU.Get user = some r →
        ∃ g1, checkUserPostDelta w g user username d status = .ok true g1) ∧
      (g.userContentDeltaLRU.Get ⟨user, contentType⟩ = some r →
        ∃ g1, checkContentDelta w g user username contentType gatedContent d status =
          .ok true g1)) := by
  obtain ⟨hv, hr⟩ := delta_runs_agree w contentType gatedContent calls gp gc h
  refine ⟨hv, hr, fun user => sameRecords_Get _ _ contentType hr user, ?_⟩
  intro g user username d status t0 r hp hd he
  have hc := sub_ge_of_elapsed_eq_of_ge _ _ d hd he
  constructor
  · intro hg
    rw [checkUserPostDelta_hit w g user username d status t0 r hp hg, if_pos hc]
    exact ⟨_, rfl⟩
  · intro hg
    rw [checkContentDelta_hit w g user username contentType gatedContent d status t0 r hp hg,
      if_pos hc]
    exact ⟨_, rfl⟩

/-- Witness of C9: three calls one second apart with a delta of 2 seconds,
from empty caches of capacity 128; the verdicts of both gates are admit,
reject, admit (the third call is exactly 2 seconds after the recorded one). -/
theorem checkUserPostDelta_refines_checkContentDelta_witness :
    sameRecords sampleGlobals128.userPostDeltaLRU sampleGlobals128.userContentDeltaLRU
        "video" ∧
      (runUserPostDelta sampleWorld sampleCalls sampleGlobals128).1 =
        [some true, some false, some true] ∧
      (runUserPostDelta sampleWorld sampleCalls sampleGlobals128).1 =
        (runContentDelta sampleWorld "video" MemberSet.New sampleCalls sampleGlobals128).1 :=
  ⟨⟨rfl, rfl⟩, by decide,
    (checkUserPostDelta_refines_checkContentDelta sampleWorld "video" MemberSet.New sampleCalls
      sampleGlobals128 sampleGlobals128 ⟨rfl, rfl⟩).1⟩

/-- Counterexample to C9 as stated: with a delta of -9223372037 seconds and a
recorded time of Fri Dec 07 12:56:02 2300, the sample status, created
Wed Aug 27 13:08:45 2008, has an elapsed time exactly equal to the delta; the
delta in nanoseconds wraps to a positive duration, the elapsed time saturates
at the most negative one, and both gates reject. -/
theorem checkUserPostDelta_refines_checkContentDelta_counterexample :
    sampleWorld.parseRubyDate sampleStatus.CreatedAt = some 63355439325000000000 ∧
      futureGlobals.userPostDeltaLRU.Get 1337821 = some 72578811362000000000 ∧
      futureGlobals.userContentDeltaLRU.Get ⟨1337821, "video"⟩ =
        some 72578811362000000000 ∧
      Time.Truncate 63355439325000000000 Second - 72578811362000000000 =
        (-9223372037) * Second ∧
      wrap64 ((-9223372037) * Second) = 9223372036709551616 ∧
      Time.Sub (Time.Truncate 63355439325000000000 Second) 72578811362000000000 =
        minDuration ∧
      checkUserPostDelta sampleWorld futureGlobals 1337821 "bothFollow" (-9223372037)
        sampleStatus = .ok false futureGlobals ∧
      checkContentDelta sampleWorld futureGlobals 1337821 "bothFollow" "video" MemberSet.New
        (-9223372037) sampleStatus = .ok false futureGlobals := by
  decide

/-! ### C10 -/

/-- C10 (the code at the failing input): with a minimum age of 0, and with a
negative one, `checkAccountAge` returns false for an account created at the
very moment of the check (both at Wed Aug 27 13:08:45 +0000 2008): the current
time is rounded down to the hour, 13:00:00, the elapsed time is minus 8 minutes
45 seconds, and the test `timeSinceUserCreated > minAgeDuration` fails. -/
theorem checkAccountAge_zero_minimum_rejects :
    sampleWorld2008.parseRubyDate sampleStatus.User.CreatedAt = some sampleWorld2008.now ∧
      checkAccountAge sampleWorld2008 sampleStatus 0 = some false ∧
      checkAccountAge sampleWorld2008 sampleStatus (-5) = some false := by
  decide

/-! ## The account-age gate -/

theorem truncate_nanosecond (t : Int) : Time.Truncate t Nanosecond = t := by
  unfold Time.Truncate Nanosecond
  simp

theorem minAgeDuration_eq (m : Int) (h0 : 0 ≤ m) (h : minAgeFits m) :
    wrap64 (wrap64 (m * 24) * Hour) = m * 24 * Hour := by
  unfold minAgeFits at h
  have e : wrap64 (m * 24) = m * 24 := by
    unfold wrap64
    omega
  rw [e]
  unfold wrap64 Hour
  omega

/-- The result of `checkAccountAge` on an account creation time that parses,
in the arithmetic of the source. -/
theorem checkAccountAge_eq (w : World) (status : Tweet) (m : Int) (c : Int)
    (hp : w.parseRubyDate status.User.CreatedAt = some c) :
    checkAccountAge w status m =
      some (decide (Time.Sub (Time.Truncate w.now Hour) c >
        wrap64 (wrap64 ((if m < 0 then 0 else m) * 24) * Hour))) := by
  unfold checkAccountAge
  rw [hp]
  dsimp only
  rw [truncate_nanosecond]
  by_cases hc : Time.Sub (Time.Truncate w.now Hour) c >
      wrap64 (wrap64 ((if m < 0 then 0 else m) * 24) * Hour)
  · rw [if_pos hc, decide_eq_true hc]
  · rw [if_neg hc, decide_eq_false hc]

/-- Without wrap-around the saturated difference compares with the threshold
as the exact difference does. -/
theorem sub_gt_minAge_iff (t c m : Int) (h0 : 0 ≤ m) (h : minAgeFits m) :
    Time.Sub t c > m * 24 * Hour ↔ t - c > m * 24 * Hour := by
  unfold minAgeFits at h
  unfold Time.Sub minDuration maxDuration Hour
  split
  · omega
  · split
    · omega
    · omega

/-- A non-negative minimum age that fits: `checkAccountAge` compares the exact
elapsed time with `m × 24` hours. -/
theorem checkAccountAge_exact (w : World) (status : Tweet) (m : Int) (c : Int)
    (h0 : 0 ≤ m) (h : minAgeFits m)
    (hp : w.parseRubyDate status.User.CreatedAt = some c) :
    checkAccountAge w status m =
      some (decide (Time.Truncate w.now Hour - c > m * 24 * Hour)) := by
  rw [checkAccountAge_eq w status m c hp]
  have hm : (if m < 0 then 0 else m) = m := by
    split
    · omega
    · rfl
  rw [hm, minAgeDuration_eq m h0 h]
  congr 1
  exact decide_eq_decide.mpr (sub_gt_minAge_iff _ _ m h0 h)

/-! ### C11 -/

/-- C11 (as amended): the account-age threshold is counted in days, the
setting times 24 hours: for every non-negative `minAgeHours` up to 106751 (so
that the threshold does not wrap around) and every account creation time,
`checkAccountAge` returns true exactly when the time elapsed from account
creation to now (now rounded down to the hour) is greater than
`minAgeHours × 24` hours, and false otherwise. -/
theorem checkAccountAge_threshold_days (w : World) (status : Tweet) (m : Int) (c : Int)
    (h0 : 0 ≤ m) (h : minAgeFits m)
    (hp : w.parseRubyDate status.User.CreatedAt = some c) :
    (checkAccountAge w status m = some true ↔
      Time.Truncate w.now Hour - c > m * 24 * Hour) ∧
    (checkAccountAge w status m = some false ↔
      Time.Truncate w.now Hour - c ≤ m * 24 * Hour) := by
  rw [checkAccountAge_exact w status m c h0 h hp]
  constructor
  · simp
  · simp

/-- Witness of C11: an account created at 13:08:45, checked at 18:30:00 of
the same day with a minimum of 1, is refused: less than 24 hours elapsed. -/
theorem checkAccountAge_threshold_days_witness :
    (0 : Int) ≤ 1 ∧ minAgeFits 1 ∧
      sampleWorldEvening.parseRubyDate sampleStatus.User.CreatedAt =
        some 63355439325000000000 ∧
      (checkAccountAge sampleWorldEvening sampleStatus 1 = some false ↔
        Time.Truncate sampleWorldEvening.now Hour - 63355439325000000000 ≤ 1 * 24 * Hour) :=
  ⟨by decide, by unfold minAgeFits; decide, by decide,
    (checkAccountAge_threshold_days sampleWorldEvening sampleStatus 1 63355439325000000000
      (by decide) (by unfold minAgeFits; decide) (by decide)).2⟩

/-- Counterexample to C11 as stated: with `minAgeHours = 1`, an account
created at 13:08:45 and checked at 18:30:00 of the same day has an elapsed
time, from creation to 18:00:00, greater than 1 hour, and `checkAccountAge`
returns false. -/
theorem checkAccountAge_threshold_days_counterexample :
    sampleWorldEvening.parseRubyDate sampleStatus.User.CreatedAt =
        some 63355439325000000000 ∧
      Time.Truncate sampleWorldEvening.now Hour - 63355439325000000000 > 1 * Hour ∧
      checkAccountAge sampleWorldEvening sampleStatus 1 = some false := by
  decide

/-! ### C12 -/

/-- C12: for every now, account creation time and minimum age `m ≥ 0` small
enough not to overflow (`m ≤ 106751`), `checkAccountAge` returns false
whenever the elapsed time, from account creation to now rounded down to the
hour, is at most `m × 24` hours; in particular an account created exactly
`m × 24` hours ago and an account whose creation time lies in the future are
rejected. -/
theorem checkAccountAge_rejects_young (w : World) (status : Tweet) (m : Int) (c : Int)
    (h0 : 0 ≤ m) (h : minAgeFits m)
    (hp : w.parseRubyDate status.User.CreatedAt = some c) :
    (Time.Truncate w.now Hour - c ≤ m * 24 * Hour →
      checkAccountAge w status m = some false) ∧
    (c = w.now - m * 24 * Hour → checkAccountAge w status m = some false) ∧
    (w.now < c → checkAccountAge w status m = some false) := by
  rw [checkAccountAge_exact w status m c h0 h hp]
  have htr : Time.Truncate w.now Hour ≤ w.now := by
    unfold Time.Truncate Hour
    simp only [show ¬ ((3600000000000 : Int) ≤ 0) by decide, if_false]
    omega
  refine ⟨?_, ?_, ?_⟩
  · intro hle
    rw [decide_eq_false (by omega)]
  · intro he
    rw [decide_eq_false (by omega)]
  · intro hlt
    have : (0 : Int) ≤ m * 24 * Hour := by
      unfold Hour
      omega
    rw [decide_eq_false (by omega)]

/-- Witness of C12: an account created exactly 24 hours before the check is
refused with a minimum of 1. -/
theorem checkAccountAge_rejects_young_witness :
    (0 : Int) ≤ 1 ∧ minAgeFits 1 ∧
      sampleWorldNextDay.parseRubyDate sampleStatus.User.CreatedAt =
        some 63355439325000000000 ∧
      (63355439325000000000 : Int) = sampleWorldNextDay.now - 1 * 24 * Hour ∧
      checkAccountAge sampleWorldNextDay sampleStatus 1 = some false :=
  ⟨by decide, by unfold minAgeFits; decide, by decide, by decide,
    (checkAccountAge_rejects_young sampleWorldNextDay sampleStatus 1 63355439325000000000
      (by decide) (by unfold minAgeFits; decide) (by decide)).2.1 (by decide)⟩

/-! ### C13 -/

/-- Against a current time on the hour and a threshold of whole hours, a
creation time and its truncation to the hour compare alike. -/
theorem truncate_hour_compare (now c m : Int) :
    Time.Truncate now Hour - c > m * 24 * Hour ↔
      Time.Truncate now Hour - Time.Truncate c Hour > m * 24 * Hour := by
  unfold Time.Truncate Hour
  simp only [show ¬ ((3600000000000 : Int) ≤ 0) by decide, if_false]
  omega

/-- C13: `checkAccountAge` compares as if both the current time and the
account creation time were rounded down to the hour: for every now, creation
time and minimum age without overflow (`minAgeHours ≤ 106751`, negative
values included), the result for an account creation time equals the result
for that creation time truncated to the hour. -/
theorem checkAccountAge_creation_hour (w : World) (status status1 : Tweet) (m : Int) (c : Int)
    (h : minAgeFits m)
    (hp : w.parseRubyDate status.User.CreatedAt = some c)
    (hp1 : w.parseRubyDate status1.User.CreatedAt = some (Time.Truncate c Hour)) :
    checkAccountAge w status m = checkAccountAge w status1 m := by
  rw [checkAccountAge_eq w status m c hp, checkAccountAge_eq w status1 m _ hp1]
  have h0 : (0 : Int) ≤ (if m < 0 then 0 else m) := by
    split <;> omega
  have hf : minAgeFits (if m < 0 then 0 else m) := by
    unfold minAgeFits at h ⊢
    split <;> omega
  rw [minAgeDuration_eq _ h0 hf]
  congr 1
  apply decide_eq_decide.mpr
  rw [sub_gt_minAge_iff _ _ _ h0 hf, sub_gt_minAge_iff _ _ _ h0 hf]
  exact truncate_hour_compare _ _ _

/-- Witness of C13: an account created at 13:08:45 and one created at
13:00:00, checked at 18:30:00 with a minimum of 0. -/
theorem checkAccountAge_creation_hour_witness :
    minAgeFits 0 ∧
      sampleWorldEvening.parseRubyDate sampleStatus.User.CreatedAt =
        some 63355439325000000000 ∧
      sampleWorldEvening.parseRubyDate sampleStatusOnTheHour.User.CreatedAt =
        some (Time.Truncate 63355439325000000000 Hour) ∧
      checkAccountAge sampleWorldEvening sampleStatus 0 =
        checkAccountAge sampleWorldEvening sampleStatusOnTheHour 0 :=
  ⟨by unfold minAgeFits; decide, by decide, by decide,
    checkAccountAge_creation_hour sampleWorldEvening sampleStatus sampleStatusOnTheHour 0
      63355439325000000000 (by unfold minAgeFits; decide) (by decide) (by decide)⟩

/-! ## The mute gate and the duplicate-text gate -/

/-! ### C14 -/

/-- C14: `userIsMuted(uid, set)` returns true exactly when `uid` is a member
of the set, and a true result fails the gate: for every event whose author id
is in `mutedIds` and whose account creation time parses, `processTweet`
returns false. -/
theorem userIsMuted_polarity (w : World) (a : ApiInterface) (fs : FriendshipStatus)
    (g : Globals) (status : Tweet)
    (hmuted : MemberKey.num status.User.Id ∈ g.mutedIds.keys)
    (hUser : w.parseRubyDate status.User.CreatedAt ≠ none) :
    (∀ uid set, userIsMuted uid set = set.Get uid ∧
      (userIsMuted uid set = true ↔ uid ∈ set.keys)) ∧
    processTweet w a fs g status = .ok false g := by
  constructor
  · intro uid set
    unfold userIsMuted MemberSet.Get
    by_cases h : uid ∈ set.keys <;> simp [h]
  · have hm : userIsMuted (.num status.User.Id) g.mutedIds = true := by
      unfold userIsMuted MemberSet.Get
      simp [hmuted]
    unfold processTweet
    cases h1 : (checkTweetContent g.config status).1
    · simp
    cases h2 : checkForProhibitedMentions status g.prohibitedMentions
    · simp
    cases h3 : checkForProhibitedWords status g.prohibitedWords
    · simp
    cases hp : w.parseRubyDate status.User.CreatedAt with
    | none => exact absurd hp hUser
    | some t =>
      obtain ⟨old, ho⟩ := checkAccountAge_of_parse w status
        g.config.Settings.MinAccountAgeHours t hp
      cases old
      · simp [ho]
      · simp [ho, hm]

/-- Witness of C14: the sample status with its author muted. -/
theorem userIsMuted_polarity_witness :
    MemberKey.num sampleStatus.User.Id ∈ mutedGlobals.mutedIds.keys ∧
      sampleWorld.parseRubyDate sampleStatus.User.CreatedAt ≠ none ∧
      processTweet sampleWorld sampleApi sampleFriendship mutedGlobals sampleStatus =
        .ok false mutedGlobals :=
  ⟨by decide, by decide,
    (userIsMuted_polarity sampleWorld sampleApi sampleFriendship mutedGlobals sampleStatus
      (by decide) (by decide)).2⟩

/-! ### C15 -/

/-- C15: `checkPostRecentLRU`: if the text is absent from `postTextLRU` it
returns true and inserts the text; if the text is present it returns false and
leaves the globals, and so the cached texts, unchanged; hence the second of
two consecutive calls with the same text returns false. (The cache has a
positive capacity; the program creates it with capacity 25.) -/
theorem checkPostRecentLRU_transition (g : Globals) (statusText : String)
    (hcap : 0 < g.postTextLRU.MaxEntries) :
    (g.postTextLRU.Get statusText = none →
      checkPostRecentLRU g statusText =
        (true, { g with postTextLRU := g.postTextLRU.Add statusText 1 }) ∧
      (g.postTextLRU.Add statusText 1).Get statusText = some 1) ∧
    (g.postTextLRU.Get statusText ≠ none → checkPostRecentLRU g statusText = (false, g)) ∧
    (checkPostRecentLRU (checkPostRecentLRU g statusText).2 statusText).1 = false := by
  have hget := Cache.Get_Add_self g.postTextLRU statusText 1 hcap
  refine ⟨?_, ?_, ?_⟩
  · intro hmiss
    unfold checkPostRecentLRU
    rw [if_pos hmiss]
    exact ⟨rfl, hget⟩
  · intro hhit
    unfold checkPostRecentLRU
    rw [if_neg hhit]
  · by_cases hmiss : g.postTextLRU.Get statusText = none
    · have e : checkPostRecentLRU g statusText =
          (true, { g with postTextLRU := g.postTextLRU.Add statusText 1 }) := by
        unfold checkPostRecentLRU
        rw [if_pos hmiss]
      rw [e]
      unfold checkPostRecentLRU
      rw [if_neg]
      dsimp only
      rw [hget]
      simp
    · have e : checkPostRecentLRU g statusText = (false, g) := by
        unfold checkPostRecentLRU
        rw [if_neg hmiss]
      rw [e]
      dsimp only
      rw [e]

/-- Witness of C15: the text of the test, twice. -/
theorem checkPostRecentLRU_transition_witness :
    0 < sampleGlobals.postTextLRU.MaxEntries ∧
      (checkPostRecentLRU sampleGlobals "So cool that they cant touch this").1 = true ∧
      (checkPostRecentLRU
        (checkPostRecentLRU sampleGlobals "So cool that they cant touch this").2
        "So cool that they cant touch this").1 = false :=
  ⟨by decide, by decide,
    (checkPostRecentLRU_transition sampleGlobals "So cool that they cant touch this"
      (by decide)).2.2⟩

/-! ## The follow requirement -/

/-- The result of `checkUserFollowing` past its two bypasses, on a cache miss:
the live lookup decides and the outcome is stored under the source handle. -/
theorem checkUserFollowing_miss (fs : FriendshipStatus) (g : Globals) (status : Tweet)
    (targetUser : String)
    (hne : EqualFold status.User.ScreenName targetUser = false) (ht : targetUser ≠ "")
    (hmiss : g.tweetOriginatorLRU.Get status.User.ScreenName = none) :
    checkUserFollowing fs g status targetUser =
      if g.config.Settings.MutualFollow = true then
        if ((fs.GetFriendshipStatus
              (friendshipQuery status.User.ScreenName targetUser)).1.Relationship.Source.Following
            && (fs.GetFriendshipStatus
              (friendshipQuery status.User.ScreenName targetUser)).1.Relationship.Target.Following)
            = true then
          (true, { g with
            tweetOriginatorLRU := g.tweetOriginatorLRU.Add status.User.ScreenName 1 })
        else
          (false, { g with
            tweetOriginatorLRU := g.tweetOriginatorLRU.Add status.User.ScreenName 0 })
      else
        if (fs.GetFriendshipStatus
            (friendshipQuery status.User.ScreenName targetUser)).1.Relationship.Source.Following
            = true then
          (true, { g with
            tweetOriginatorLRU := g.tweetOriginatorLRU.Add status.User.ScreenName 1 })
        else
          (false, { g with
            tweetOriginatorLRU := g.tweetOriginatorLRU.Add status.User.ScreenName 0 }) := by
  unfold checkUserFollowing friendshipQuery
  rw [if_neg (by simp [hne]), if_neg ht]
  dsimp only
  rw [hmiss]
  rw [if_neg (by simp), if_neg (by simp)]
  cases hm : g.config.Settings.MutualFollow <;>
    cases hs : (fs.GetFriendshipStatus
      ((Values.Set [] "source_screen_name" status.User.ScreenName).Set "target_screen_name"
        targetUser)).1.Relationship.Source.Following <;>
    cases htf : (fs.GetFriendshipStatus
      ((Values.Set [] "source_screen_name" status.User.ScreenName).Set "target_screen_name"
        targetUser)).1.Relationship.Target.Following <;>
    simp

/-- The result of `checkUserFollowing` past its two bypasses, on a cached 1 or
0. -/
theorem checkUserFollowing_hit (fs : FriendshipStatus) (g : Globals) (status : Tweet)
    (targetUser : String) (verdict : Bool)
    (hne : EqualFold status.User.ScreenName targetUser = false) (ht : targetUser ≠ "")
    (hhit : g.tweetOriginatorLRU.Get status.User.ScreenName =
      some (if verdict then 1 else 0)) :
    checkUserFollowing fs g status targetUser = (verdict, g) := by
  unfold checkUserFollowing
  rw [if_neg (by simp [hne]), if_neg ht]
  dsimp only
  rw [hhit]
  cases verdict
  · rw [if_neg (by simp), if_pos (by simp)]
  · rw [if_pos (by simp)]

/-! ### C16 -/

/-- C16: `checkUserFollowing` returns true whenever the source handle equals
the target handle ignoring case, or the target is empty; the globals are left
as they are, and the result is the same whatever `tweetOriginatorLRU` holds
(a cached 0 for the source included) and whatever the live lookup would
answer: the cache is neither read nor written and the lookup is not used. -/
theorem checkUserFollowing_bypass (fs : FriendshipStatus) (g : Globals) (status : Tweet)
    (targetUser : String)
    (h : EqualFold status.User.ScreenName targetUser = true ∨ targetUser = "") :
    checkUserFollowing fs g status targetUser = (true, g) ∧
    (∀ (fs1 : FriendshipStatus) (c : Cache String Int),
      checkUserFollowing fs1 { g with tweetOriginatorLRU := c } status targetUser =
        (true, { g with tweetOriginatorLRU := c })) ∧
    (∀ fs1 : FriendshipStatus,
      checkUserFollowing fs1
          { g with tweetOriginatorLRU := g.tweetOriginatorLRU.Add status.User.ScreenName 0 }
          status targetUser =
        (true, { g with
          tweetOriginatorLRU := g.tweetOriginatorLRU.Add status.User.ScreenName 0 })) := by
  have key : ∀ (fs1 : FriendshipStatus) (g1 : Globals),
      checkUserFollowing fs1 g1 status targetUser = (true, g1) := by
    intro fs1 g1
    unfold checkUserFollowing
    rcases h with h | h
    · rw [if_pos h]
    · by_cases he : EqualFold status.User.ScreenName targetUser = true
      · rw [if_pos he]
      · rw [if_neg he, if_pos h]
  exact ⟨key fs g, fun fs1 c => key fs1 _, fun fs1 => key fs1 _⟩

/-- Witness of C16: the sample author against the target `BOTHFOLLOW`, with a
cached 0 for the author and a lookup that answers that nobody follows. -/
theorem checkUserFollowing_bypass_witness :
    EqualFold sampleStatus.User.ScreenName "BOTHFOLLOW" = true ∧
      notFollowingGlobals.tweetOriginatorLRU.Get sampleStatus.User.ScreenName = some 0 ∧
      checkUserFollowing sampleFriendship notFollowingGlobals sampleStatus "BOTHFOLLOW" =
        (true, notFollowingGlobals) :=
  ⟨by decide, by decide,
    (checkUserFollowing_bypass sampleFriendship notFollowingGlobals sampleStatus "BOTHFOLLOW"
      (Or.inl (by decide))).1⟩

/-! ### C17 -/

/-- C17: for a source handle different from the target ignoring case and a
non-empty target: if `tweetOriginatorLRU` holds 1 for the source handle
`checkUserFollowing` returns true, and if it holds 0 it returns false; in both
cases the globals are left as they are, and the result is the same whatever
the live lookup would answer and whatever the `MutualFollow` mode is, so a
mode change after the decision was cached is not reflected. -/
theorem checkUserFollowing_cached (fs : FriendshipStatus) (g : Globals) (status : Tweet)
    (targetUser : String)
    (hne : EqualFold status.User.ScreenName targetUser = false) (ht : targetUser ≠ "") :
    (g.tweetOriginatorLRU.Get status.User.ScreenName = some 1 →
      checkUserFollowing fs g status targetUser = (true, g) ∧
      ∀ (fs1 : FriendshipStatus) (mode : Bool),
        checkUserFollowing fs1 (withMutualFollow g mode) status targetUser =
          (true, withMutualFollow g mode)) ∧
    (g.tweetOriginatorLRU.Get status.User.ScreenName = some 0 →
      checkUserFollowing fs g status targetUser = (false, g) ∧
      ∀ (fs1 : FriendshipStatus) (mode : Bool),
        checkUserFollowing fs1 (withMutualFollow g mode) status targetUser =
          (false, withMutualFollow g mode)) := by
  constructor
  · intro h1
    exact ⟨checkUserFollowing_hit fs g status targetUser true hne ht h1,
      fun fs1 mode =>
        checkUserFollowing_hit fs1 (withMutualFollow g mode) status targetUser true hne ht h1⟩
  · intro h0
    exact ⟨checkUserFollowing_hit fs g status targetUser false hne ht h0,
      fun fs1 mode =>
        checkUserFollowing_hit fs1 (withMutualFollow g mode) status targetUser false hne ht h0⟩

/-- Witness of C17: a cached 0 for the sample author rejects, although the
lookup would answer that the author follows the target. -/
theorem checkUserFollowing_cached_witness :
    EqualFold sampleStatus.User.ScreenName "target" = false ∧ "target" ≠ "" ∧
      notFollowingGlobals.tweetOriginatorLRU.Get sampleStatus.User.ScreenName = some 0 ∧
      checkUserFollowing sourceFollowsFriendship notFollowingGlobals sampleStatus "target" =
        (false, notFollowingGlobals) :=
  ⟨by decide, by decide, by decide,
    ((checkUserFollowing_cached sourceFollowsFriendship notFollowingGlobals sampleStatus
      "target" (by decide) (by decide)).2 (by decide)).1⟩

/-! ### C18 -/

/-- C18: on a cache miss, for a source different from the target ignoring
case and a non-empty target, with the lookup answer
`(sourceFollows, targetFollows)`: in one-way mode `checkUserFollowing` returns
`sourceFollows`; in mutual mode it returns `sourceFollows && targetFollows`;
in either mode it stores the outcome under the source handle, 1 when the
result is true and 0 when it is false. (The cache has a positive capacity; the
program creates it with capacity 128.) -/
theorem checkUserFollowing_live (fs : FriendshipStatus) (g : Globals) (status : Tweet)
    (targetUser : String) (sourceFollows targetFollows : Bool)
    (hne : EqualFold status.User.ScreenName targetUser = false) (ht : targetUser ≠ "")
    (hmiss : g.tweetOriginatorLRU.Get status.User.ScreenName = none)
    (hcap : 0 < g.tweetOriginatorLRU.MaxEntries)
    (hs : (fs.GetFriendshipStatus
      (friendshipQuery status.User.ScreenName targetUser)).1.Relationship.Source.Following =
        sourceFollows)
    (htf : (fs.GetFriendshipStatus
      (friendshipQuery status.User.ScreenName targetUser)).1.Relationship.Target.Following =
        targetFollows) :
    (g.config.Settings.MutualFollow = false →
      checkUserFollowing fs g status targetUser =
        (sourceFollows, { g with tweetOriginatorLRU :=
          g.tweetOriginatorLRU.Add status.User.ScreenName (if sourceFollows then 1 else 0) })) ∧
    (g.config.Settings.MutualFollow = true →
      checkUserFollowing fs g status targetUser =
        (sourceFollows && targetFollows, { g with tweetOriginatorLRU :=
          (g.tweetOriginatorLRU.Add status.User.ScreenName
            (if sourceFollows && targetFollows then 1 else 0)) })) ∧
    (∀ value : Int,
      (g.tweetOriginatorLRU.Add status.User.ScreenName value).Get status.User.ScreenName =
        some value) := by
  refine ⟨?_, ?_, fun value => Cache.Get_Add_self _ _ _ hcap⟩
  · intro hm
    rw [checkUserFollowing_miss fs g status targetUser hne ht hmiss, hs, hm]
    cases sourceFollows <;> simp
  · intro hm
    rw [checkUserFollowing_miss fs g status targetUser hne ht hmiss, hs, htf, hm]
    cases sourceFollows <;> cases targetFollows <;> simp

/-- Witness of C18: in one-way mode the sample author, who follows the target
`target` without being followed back, is admitted and 1 is stored. -/
theorem checkUserFollowing_live_witness :
    EqualFold sampleStatus.User.ScreenName "target" = false ∧ "target" ≠ "" ∧
      sampleGlobals.tweetOriginatorLRU.Get sampleStatus.User.ScreenName = none ∧
      0 < sampleGlobals.tweetOriginatorLRU.MaxEntries ∧
      sampleGlobals.config.Settings.MutualFollow = false ∧
      checkUserFollowing sourceFollowsFriendship sampleGlobals sampleStatus "target" =
        (true, { sampleGlobals with tweetOriginatorLRU :=
          (sampleGlobals.tweetOriginatorLRU.Add sampleStatus.User.ScreenName
            (if true then 1 else 0)) }) :=
  ⟨by decide, by decide, by decide, by decide, by decide,
    (checkUserFollowing_live sourceFollowsFriendship sampleGlobals sampleStatus "target" true
      false (by decide) (by decide) (by decide) (by decide) rfl rfl).1 (by decide)⟩

/-! ### C19 -/

/-- C19: a failure of the live lookup does not end the process:
`checkUserFollowing` returns its verdict from the response alone, the same as
for a lookup that gives that response without an error; with the zero-valued
response that accompanies an error, on a cache miss (source different from
the target ignoring case, target non-empty), the verdict is false in either
mode and 0 is stored for the source handle, so that a later event of that
source is rejected from the cache, whatever the lookup would answer then.
(The cache has a positive capacity.) -/
theorem checkUserFollowing_lookup_error (fs : FriendshipStatus) (g : Globals)
    (status : Tweet) (targetUser : String) (err : Error)
    (hne : EqualFold status.User.ScreenName targetUser = false) (ht : targetUser ≠ "")
    (hmiss : g.tweetOriginatorLRU.Get status.User.ScreenName = none)
    (hcap : 0 < g.tweetOriginatorLRU.MaxEntries)
    (herr : fs.GetFriendshipStatus (friendshipQuery status.User.ScreenName targetUser) =
      (zeroResponse, some err)) :
    checkUserFollowing fs g status targetUser =
      (false, { g with
        tweetOriginatorLRU := g.tweetOriginatorLRU.Add status.User.ScreenName 0 }) ∧
    (∀ (fs1 : FriendshipStatus) (status1 : Tweet),
      status1.User.ScreenName = status.User.ScreenName →
      checkUserFollowing fs1
          { g with tweetOriginatorLRU := g.tweetOriginatorLRU.Add status.User.ScreenName 0 }
          status1 targetUser =
        (false, { g with
          tweetOriginatorLRU := g.tweetOriginatorLRU.Add status.User.ScreenName 0 })) ∧
    (∀ (fs1 fs2 : FriendshipStatus) (g1 : Globals) (status1 : Tweet) (target1 : String),
      (∀ v, (fs1.GetFriendshipStatus v).1 = (fs2.GetFriendshipStatus v).1) →
      checkUserFollowing fs1 g1 status1 target1 = checkUserFollowing fs2 g1 status1 target1) := by
  refine ⟨?_, ?_, ?_⟩
  · rw [checkUserFollowing_miss fs g status targetUser hne ht hmiss, herr]
    cases g.config.Settings.MutualFollow <;> simp [zeroResponse]
  · intro fs1 status1 hname
    apply checkUserFollowing_hit fs1 _ status1 targetUser false
    · rw [hname]
      exact hne
    · exact ht
    · rw [hname]
      exact Cache.Get_Add_self _ _ _ hcap
  · intro fs1 fs2 g1 status1 target1 hsame
    unfold checkUserFollowing
    dsimp only
    rw [hsame]

/-- Witness of C19: the lookup for the sample author fails; the author is
rejected and 0 is stored. -/
theorem checkUserFollowing_lookup_error_witness :
    EqualFold sampleStatus.User.ScreenName "target" = false ∧ "target" ≠ "" ∧
      sampleGlobals.tweetOriginatorLRU.Get sampleStatus.User.ScreenName = none ∧
      0 < sampleGlobals.tweetOriginatorLRU.MaxEntries ∧
      checkUserFollowing failingFriendship sampleGlobals sampleStatus "target" =
        (false, notFollowingGlobals) :=
  ⟨by decide, by decide, by decide, by decide,
    (checkUserFollowing_lookup_error failingFriendship sampleGlobals sampleStatus "target"
      (.other "timeout") (by decide) (by decide) (by decide) (by decide) rfl).1⟩

/-! ## The prohibited-mention gate -/

/-! ### C20 -/

/-- C20: `checkForProhibitedMentions` returns false exactly when some handle
in `ExtendedTweet.ExtendedEntities.User_mentions` or in
`Entities.User_mentions`, once lower-cased, is a member of the set, and true
otherwise; the display names play no part: a status whose only mention has a
handle that, lower-cased, is not in the set passes whatever the display name
of the mention. -/
theorem checkForProhibitedMentions_iff (status : Tweet) (filteredMentions : MemberSet) :
    (checkForProhibitedMentions status filteredMentions = false ↔
      ∃ mention ∈ allMentions status,
        filteredMentions.Get (.str (ToLower mention.Screen_name)) = true) ∧
    (checkForProhibitedMentions status filteredMentions = true ↔
      ∀ mention ∈ allMentions status,
        filteredMentions.Get (.str (ToLower mention.Screen_name)) = false) ∧
    (∀ name handle : String,
      filteredMentions.Get (.str (ToLower handle)) = false →
      checkForProhibitedMentions
        { status with
          Entities := ⟨status.Entities.Urls, [⟨name, handle⟩], status.Entities.Media⟩
          ExtendedTweet := ⟨status.ExtendedTweet.FullText, status.ExtendedTweet.Entities,
            noEntities⟩ }
        filteredMentions = true) := by
  have hfalse : ∀ st : Tweet, checkForProhibitedMentions st filteredMentions = false ↔
      ∃ mention ∈ allMentions st,
        filteredMentions.Get (.str (ToLower mention.Screen_name)) = true := by
    intro st
    unfold checkForProhibitedMentions allMentions
    by_cases he : st.ExtendedTweet.ExtendedEntities.User_mentions.any
        (fun mention => filteredMentions.Get (.str (ToLower mention.Screen_name))) = true
    · rw [if_pos he]
      simp only [true_iff]
      obtain ⟨m, hm, hg⟩ := List.any_eq_true.mp he
      exact ⟨m, List.mem_append_left _ hm, hg⟩
    · rw [if_neg he]
      by_cases hl : st.Entities.User_mentions.any
          (fun mention => filteredMentions.Get (.str (ToLower mention.Screen_name))) = true
      · rw [if_pos hl]
        simp only [true_iff]
        obtain ⟨m, hm, hg⟩ := List.any_eq_true.mp hl
        exact ⟨m, List.mem_append_right _ hm, hg⟩
      · rw [if_neg hl]
        simp only [Bool.true_eq_false, false_iff]
        rintro ⟨m, hm, hg⟩
        rcases List.mem_append.mp hm with hm | hm
        · exact he (List.any_eq_true.mpr ⟨m, hm, hg⟩)
        · exact hl (List.any_eq_true.mpr ⟨m, hm, hg⟩)
  have htrue : ∀ st : Tweet, checkForProhibitedMentions st filteredMentions = true ↔
      ∀ mention ∈ allMentions st,
        filteredMentions.Get (.str (ToLower mention.Screen_name)) = false := by
    intro st
    constructor
    · intro h m hm
      cases hg : filteredMentions.Get (.str (ToLower m.Screen_name))
      · rfl
      · have := (hfalse st).mpr ⟨m, hm, hg⟩
        rw [h] at this
        cases this
    · intro h
      cases hc : checkForProhibitedMentions st filteredMentions
      · obtain ⟨m, hm, hg⟩ := (hfalse st).mp hc
        rw [h m hm] at hg
        cases hg
      · rfl
  refine ⟨hfalse status, htrue status, ?_⟩
  intro name handle hg
  rw [htrue]
  intro m hm
  simp only [allMentions, noEntities, List.nil_append, List.mem_singleton] at hm
  rw [hm]
  exact hg

/-- The cases of the mention test: a prohibited display name with an allowed
handle passes; a handle that is prohibited once lower-cased is rejected. -/
theorem checkForProhibitedMentions_samples :
    checkForProhibitedMentions sampleMentionName sampleMentionSet = true ∧
      checkForProhibitedMentions sampleMentionHandle sampleMentionSet = false := by
  decide

/-! ## The prohibited-word gate -/

theorem splitSpaces_ne_nil (l : List Char) : splitSpaces l ≠ [] := by
  cases l with
  | nil => simp [splitSpaces]
  | cons c cs =>
    unfold splitSpaces
    split
    · simp
    · split <;> simp

theorem joinSpaces_cons_cons (c : Char) (w : List Char) (ws : List (List Char)) :
    joinSpaces ((c :: w) :: ws) = c :: joinSpaces (w :: ws) := by
  cases ws with
  | nil => rfl
  | cons q rest => rfl

/-- The pieces of `splitSpaces`, joined with single spaces, are the text. -/
theorem joinSpaces_splitSpaces (l : List Char) : joinSpaces (splitSpaces l) = l := by
  induction l with
  | nil => rfl
  | cons c cs ih =>
    unfold splitSpaces
    by_cases hc : c = ' '
    · rw [if_pos hc]
      cases hs : splitSpaces cs with
      | nil => exact absurd hs (splitSpaces_ne_nil cs)
      | cons q rest =>
        rw [hs] at ih
        simp only [joinSpaces, List.nil_append, ih, hc]
    · rw [if_neg hc]
      cases hs : splitSpaces cs with
      | nil => exact absurd hs (splitSpaces_ne_nil cs)
      | cons q rest =>
        rw [hs] at ih
        simp only [joinSpaces_cons_cons, ih]

/-- No piece of `splitSpaces` contains a space. -/
theorem splitSpaces_no_space (l : List Char) : ∀ p ∈ splitSpaces l, ' ' ∉ p := by
  induction l with
  | nil =>
    intro p hp
    simp [splitSpaces] at hp
    simp [hp]
  | cons c cs ih =>
    intro p hp
    unfold splitSpaces at hp
    by_cases hc : c = ' '
    · rw [if_pos hc] at hp
      rcases List.mem_cons.mp hp with h | h
      · simp [h]
      · exact ih p h
    · rw [if_neg hc] at hp
      cases hs : splitSpaces cs with
      | nil => exact absurd hs (splitSpaces_ne_nil cs)
      | cons q rest =>
        rw [hs] at hp ih
        rcases List.mem_cons.mp hp with h | h
        · rw [h]
          intro hmem
          rcases List.mem_cons.mp hmem with h1 | h1
          · exact hc h1.symm
          · exact ih q (List.mem_cons_self _ _) h1
        · exact ih p (List.mem_cons_of_mem _ h)

theorem Split_no_space (text : String) : ∀ word ∈ Split text, ' ' ∉ word.toList := by
  intro word hw
  unfold Split at hw
  obtain ⟨p, hp, rfl⟩ := List.mem_map.mp hw
  exact splitSpaces_no_space _ p hp

/-- The gate rejects exactly when some non-empty piece of the text is in the
set. -/
theorem checkForProhibitedWords_iff (status : Tweet) (filteredWords : MemberSet) :
    checkForProhibitedWords status filteredWords = false ↔
      ∃ word ∈ Split status.Text, word ≠ "" ∧ filteredWords.Get (.str word) = true := by
  unfold checkForProhibitedWords
  by_cases h : (Split status.Text).any
      (fun word => word != "" && filteredWords.Get (.str word)) = true
  · rw [if_pos h]
    simp only [true_iff]
    obtain ⟨word, hw, hc⟩ := List.any_eq_true.mp h
    simp only [Bool.and_eq_true, bne_iff_ne, ne_eq] at hc
    exact ⟨word, hw, hc.1, hc.2⟩
  · rw [if_neg h]
    simp only [Bool.true_eq_false, false_iff]
    rintro ⟨word, hw, hne, hg⟩
    apply h
    apply List.any_eq_true.mpr
    exact ⟨word, hw, by simp [hne, hg]⟩

theorem checkForProhibitedWords_true_iff (status : Tweet) (filteredWords : MemberSet) :
    checkForProhibitedWords status filteredWords = true ↔
      ∀ word ∈ Split status.Text, word ≠ "" → filteredWords.Get (.str word) = false := by
  constructor
  · intro h word hw hne
    cases hg : filteredWords.Get (.str word)
    · rfl
    · have := (checkForProhibitedWords_iff status filteredWords).mpr ⟨word, hw, hne, hg⟩
      rw [h] at this
      cases this
  · intro h
    cases hc : checkForProhibitedWords status filteredWords
    · obtain ⟨word, hw, hne, hg⟩ := (checkForProhibitedWords_iff status filteredWords).mp hc
      rw [h word hw hne] at hg
      cases hg
    · rfl

theorem MemberSet.Get_Delete (m : MemberSet) (key k : MemberKey) :
    (m.Delete key).Get k = (m.Get k && decide (k ≠ key)) := by
  unfold MemberSet.Get MemberSet.Delete
  by_cases h1 : k ∈ m.keys <;> by_cases h2 : k = key <;> simp [List.mem_filter, h1, h2]

/-- Removing an entry that no piece of the text can equal does not change the
result. -/
theorem checkForProhibitedWords_Delete (status : Tweet) (filteredWords : MemberSet)
    (entry : String)
    (h : ∀ word ∈ Split status.Text, word ≠ "" → word ≠ entry) :
    checkForProhibitedWords status filteredWords =
      checkForProhibitedWords status (filteredWords.Delete (.str entry)) := by
  have key : ∀ word ∈ Split status.Text, word ≠ "" →
      (filteredWords.Delete (.str entry)).Get (.str word) = filteredWords.Get (.str word) := by
    intro word hw hne
    rw [MemberSet.Get_Delete]
    have : word ≠ entry := h word hw hne
    simp [this]
  cases hc : checkForProhibitedWords status filteredWords
  · obtain ⟨word, hw, hne, hg⟩ := (checkForProhibitedWords_iff status filteredWords).mp hc
    symm
    apply (checkForProhibitedWords_iff status _).mpr
    exact ⟨word, hw, hne, by rw [key word hw hne]; exact hg⟩
  · symm
    apply (checkForProhibitedWords_true_iff status _).mpr
    intro word hw hne
    rw [key word hw hne]
    exact (checkForProhibitedWords_true_iff status filteredWords).mp hc word hw hne

/-! ### C21 -/

/-- C21 (the code at the failing input): `ConfigureApp` stores the configured
prohibited mention `Cake` as it is written, `checkForProhibitedMentions` looks
up the lower-cased handle `cake`, and the event mentioning the handle `cake`,
equal to `Cake` ignoring case, passes the gate. -/
theorem checkForProhibitedMentions_configured_case :
    EqualFold "cake" "Cake" = true ∧
      (ConfigureApp cakeConfig).prohibitedMentions.Get (.str "Cake") = true ∧
      (ConfigureApp cakeConfig).prohibitedMentions.Get (.str "cake") = false ∧
      checkForProhibitedMentions sampleMentionCake (ConfigureApp cakeConfig).prohibitedMentions =
        true := by
  decide

/-! ### C22 -/

/-- C22 (as amended): `checkForProhibitedWords` splits the text at every
single space character: the pieces contain no space and, joined with one space
between neighbours, are the text; for every non-empty prohibited word `w`, if
`w` is one of the pieces the gate rejects; if no non-empty prohibited word is
one of the pieces the gate passes. -/
theorem checkForProhibitedWords_space_tokens (status : Tweet) (filteredWords : MemberSet) :
    (∀ w : String, w ≠ "" → filteredWords.Get (.str w) = true → w ∈ Split status.Text →
      checkForProhibitedWords status filteredWords = false) ∧
    ((∀ w : String, w ≠ "" → filteredWords.Get (.str w) = true → w ∉ Split status.Text) →
      checkForProhibitedWords status filteredWords = true) ∧
    joinSpaces ((Split status.Text).map String.toList) = status.Text.toList ∧
    (∀ word ∈ Split status.Text, ' ' ∉ word.toList) := by
  refine ⟨?_, ?_, ?_, Split_no_space status.Text⟩
  · intro w hne hg hw
    exact (checkForProhibitedWords_iff status filteredWords).mpr ⟨w, hw, hne, hg⟩
  · intro h
    apply (checkForProhibitedWords_true_iff status filteredWords).mpr
    intro word hw hne
    cases hg : filteredWords.Get (.str word)
    · rfl
    · exact absurd hw (h word hne hg)
  · unfold Split
    rw [List.map_map]
    have e : (String.toList ∘ String.mk) = id := by
      funext p
      rfl
    rw [e, List.map_id]
    exact joinSpaces_splitSpaces _

/-- Counterexample to C22 as stated: in the text `dog<TAB>cat` the prohibited
word `cat` is delimited by a tab and the end of the text, and the gate
passes: the text has no space and is one piece. -/
theorem checkForProhibitedWords_space_tokens_counterexample :
    sampleWordSet.Get (.str "cat") = true ∧
      "dog\tcat".toList = "dog".toList ++ '\t' :: "cat".toList ∧
      Split "dog\tcat" = ["dog\tcat"] ∧
      checkForProhibitedWords (textStatus "dog\tcat") sampleWordSet = true := by
  decide

/-! ### C23 -/

/-- C23 (as amended): the prohibited-word gate compares the pieces of the text
with the entries as they are, without lower-casing: for every non-empty entry
`w` of the set and every text of which `w` is a piece,
`checkForProhibitedWords` rejects; a text none of whose pieces is an entry
passes. -/
theorem checkForProhibitedWords_exact_match (status : Tweet) (filteredWords : MemberSet)
    (w : String) (hne : w ≠ "") (hentry : filteredWords.Get (.str w) = true)
    (htoken : w ∈ Split status.Text) :
    checkForProhibitedWords status filteredWords = false ∧
    ∀ status1 : Tweet,
      (∀ word ∈ Split status1.Text, filteredWords.Get (.str word) = false) →
      checkForProhibitedWords status1 filteredWords = true := by
  refine ⟨(checkForProhibitedWords_iff status filteredWords).mpr ⟨w, htoken, hne, hentry⟩, ?_⟩
  intro status1 h
  apply (checkForProhibitedWords_true_iff status1 filteredWords).mpr
  intro word hw _
  exact h word hw

/-- Witness of C23: the text `cat` against the set of the word test. -/
theorem checkForProhibitedWords_exact_match_witness :
    "cat" ≠ "" ∧ sampleWordSet.Get (.str "cat") = true ∧
      "cat" ∈ Split (textStatus "cat").Text ∧
      checkForProhibitedWords (textStatus "cat") sampleWordSet = false :=
  ⟨by decide, by decide, by decide,
    (checkForProhibitedWords_exact_match (textStatus "cat") sampleWordSet "cat" (by decide)
      (by decide) (by decide)).1⟩

/-- Counterexample to C23 as stated: the text `CAT` has a piece equal to the
lower-case entry `cat` ignoring case, and the gate passes. -/
theorem checkForProhibitedWords_exact_match_counterexample :
    sampleWordSet.Get (.str "cat") = true ∧ ToLower "cat" = "cat" ∧
      "CAT" ∈ Split (textStatus "CAT").Text ∧ EqualFold "CAT" "cat" = true ∧
      checkForProhibitedWords (textStatus "CAT") sampleWordSet = true := by
  decide

/-! ### C24 -/

theorem splitSpaces_replicate (n : Nat) :
    ∀ p ∈ splitSpaces (List.replicate n ' '), p = [] := by
  induction n with
  | zero =>
    intro p hp
    simpa [splitSpaces] using hp
  | succ k ih =>
    intro p hp
    rw [List.replicate_succ] at hp
    unfold splitSpaces at hp
    rw [if_pos rfl] at hp
    rcases List.mem_cons.mp hp with h | h
    · exact h
    · exact ih p h

/-- C24: empty pieces never match: for every prohibited-words set, one that
contains the empty string included, and every text,
`checkForProhibitedWords` gives the same result as with the empty-string entry
removed from the set; the empty text and every text made only of spaces
pass. -/
theorem checkForProhibitedWords_empty_tokens (status : Tweet) (filteredWords : MemberSet) :
    checkForProhibitedWords status filteredWords =
      checkForProhibitedWords status (filteredWords.Delete (.str "")) ∧
    (∀ n : Nat,
      checkForProhibitedWords { status with Text := String.mk (List.replicate n ' ') }
        filteredWords = true) ∧
    checkForProhibitedWords { status with Text := "" } filteredWords = true := by
  have hspaces : ∀ n : Nat,
      checkForProhibitedWords { status with Text := String.mk (List.replicate n ' ') }
        filteredWords = true := by
    intro n
    apply (checkForProhibitedWords_true_iff _ filteredWords).mpr
    intro word hw hne
    exfalso
    apply hne
    unfold Split at hw
    obtain ⟨p, hp, rfl⟩ := List.mem_map.mp hw
    have := splitSpaces_replicate n p hp
    rw [this]
  refine ⟨?_, hspaces, hspaces 0⟩
  apply checkForProhibitedWords_Delete
  intro word _ hne
  exact hne

/-! ### C25 -/

/-- C25 (as amended): an explicitly configured empty-string entry is not
honoured: when the prohibited-words set contains the empty string,
`checkForProhibitedWords` still passes every text none of whose non-empty
pieces is in the set, a text with several consecutive spaces included (the
empty pieces produced by splitting are in the set, and are skipped by the test
`word != ""`). -/
theorem checkForProhibitedWords_empty_entry_skipped (status : Tweet)
    (filteredWords : MemberSet)
    (hentry : filteredWords.Get (.str "") = true)
    (hclean : ∀ word ∈ Split status.Text, word ≠ "" →
      filteredWords.Get (.str word) = false) :
    checkForProhibitedWords status filteredWords = true ∧
    ∀ word ∈ Split status.Text, word = "" → filteredWords.Get (.str word) = true := by
  refine ⟨(checkForProhibitedWords_true_iff status filteredWords).mpr hclean, ?_⟩
  intro word _ he
  rw [he]
  exact hentry

/-- Witness of C25: the text `a  b`, with two consecutive spaces, against the
set of the word test, which contains the empty string. -/
theorem checkForProhibitedWords_empty_entry_skipped_witness :
    sampleWordSet.Get (.str "") = true ∧
      Split (textStatus "a  b").Text = ["a", "", "b"] ∧
      checkForProhibitedWords (textStatus "a  b") sampleWordSet = true :=
  ⟨by decide, by decide,
    (checkForProhibitedWords_empty_entry_skipped (textStatus "a  b") sampleWordSet (by decide)
      (by decide)).1⟩

/-- Counterexample to C25 as stated: the set contains the empty string, the
text `a  b` contains two consecutive spaces, whose split has an empty piece,
and the gate does not reject. -/
theorem checkForProhibitedWords_empty_entry_skipped_counterexample :
    sampleWordSet.Get (.str "") = true ∧
      "a  b".toList = "a".toList ++ ' ' :: ' ' :: "b".toList ∧
      "" ∈ Split (textStatus "a  b").Text ∧
      checkForProhibitedWords (textStatus "a  b") sampleWordSet ≠ false := by
  decide

/-! ### C26 -/

/-- C26: `checkForProhibitedWords` filters on single words: a set entry that
contains a space never causes a rejection, for every text the result equals
the result with that entry removed; the text `dog in the iron` passes when
none of its four words is in the set. -/
theorem checkForProhibitedWords_phrase_entry (status : Tweet) (filteredWords : MemberSet)
    (entry : String) (hspace : ' ' ∈ entry.toList) :
    checkForProhibitedWords status filteredWords =
      checkForProhibitedWords status (filteredWords.Delete (.str entry)) ∧
    ∀ words : MemberSet,
      words.Get (.str "dog") = false → words.Get (.str "in") = false →
      words.Get (.str "the") = false → words.Get (.str "iron") = false →
      checkForProhibitedWords { status with Text := "dog in the iron" } words = true := by
  constructor
  · apply checkForProhibitedWords_Delete
    intro word hw _ he
    rw [he] at hw
    exact Split_no_space status.Text entry hw hspace
  · intro words h1 h2 h3 h4
    apply (checkForProhibitedWords_true_iff _ words).mpr
    intro word hw _
    have hs : Split "dog in the iron" = ["dog", "in", "the", "iron"] := by decide
    change word ∈ Split "dog in the iron" at hw
    rw [hs] at hw
    simp only [List.mem_cons, List.mem_singleton, List.not_mem_nil, or_false] at hw
    rcases hw with h | h | h | h <;> rw [h] <;> assumption

/-- Witness of C26: the entry `dog in the iron` of the word test and the text
`dog in the iron`. -/
theorem checkForProhibitedWords_phrase_entry_witness :
    ' ' ∈ "dog in the iron".toList ∧
      sampleWordSet.Get (.str "dog in the iron") = true ∧
      checkForProhibitedWords (textStatus "dog in the iron") sampleWordSet =
        checkForProhibitedWords (textStatus "dog in the iron")
          (sampleWordSet.Delete (.str "dog in the iron")) ∧
      checkForProhibitedWords (textStatus "dog in the iron") sampleWordSet = true :=
  ⟨by decide, by decide,
    (checkForProhibitedWords_phrase_entry (textStatus "dog in the iron") sampleWordSet
      "dog in the iron" (by decide)).1, by decide⟩

/-! ## The sensitivity gate -/

/-! ### C27 -/

/-- C27: `checkTweetContent` returns `(false, "sensitive", "")` exactly when
the event passes the original-content gate, `DenySensitiveContent` is set and
the event is flagged `PossiblySensitive`; when `DenySensitiveContent` is off,
the `PossiblySensitive` flag does not change the result. -/
theorem checkTweetContent_sensitive (config : AppConfiguration) (status : Tweet) :
    (checkTweetContent config status = (false, "sensitive", "") ↔
      passesOriginalGate config status = true ∧
        config.Settings.DenySensitiveContent = true ∧ status.PossiblySensitive = true) ∧
    (config.Settings.DenySensitiveContent = false →
      ∀ flag : Bool,
        checkTweetContent config { status with PossiblySensitive := flag } =
          checkTweetContent config status) := by
  constructor
  · unfold checkTweetContent passesOriginalGate
    by_cases hc : (status.InReplyToScreenName.length != 0 || status.RetweetedStatus != none ||
        HasPrefix "RT" status.Text ||
        EqualFold status.User.ScreenName config.Settings.IgnoreFrom) = true
    · rw [if_pos hc]
      simp [hc]
    · rw [if_neg hc]
      have hc1 : (status.InReplyToScreenName.length != 0 || status.RetweetedStatus != none ||
          HasPrefix "RT" status.Text ||
          EqualFold status.User.ScreenName config.Settings.IgnoreFrom) = false := by
        simpa using hc
      rw [hc1]
      by_cases hs : (config.Settings.DenySensitiveContent == true &&
          status.PossiblySensitive == true) = true
      · rw [if_pos hs]
        simp only [Bool.and_eq_true, beq_iff_eq] at hs
        simp [hs.1, hs.2]
      · rw [if_neg hs]
        have hs1 : ¬ (config.Settings.DenySensitiveContent = true ∧
            status.PossiblySensitive = true) := by
          simpa using hs
        simp only [Bool.not_false, true_and]
        constructor
        · intro h
          exfalso
          simp only [checkEntityMedia_fst] at h
          repeat' split at h
          all_goals first
            | (rename_i hm
               rw [checkEntityMedia_eq_find] at h
               cases hf : List.find? recognised _ with
               | none => rw [hf] at hm; simp at hm
               | some m => rw [hf] at h; simp at h)
            | simp at h
        · intro h
          exact absurd h hs1
  · intro hd flag
    unfold checkTweetContent
    simp only [hd, checkEntityMedia_eq_find]
    rfl

/-! ## Timestamps that do not parse -/

/-! ### C28 -/

/-- C28: a timestamp that does not parse is a fatal error, not a reject: for
every event whose account creation timestamp does not parse `checkAccountAge`
ends the process instead of returning false, and for every event whose
creation timestamp does not parse `checkContentDelta` and
`checkUserPostDelta` end the process instead of returning a verdict, with the
globals, their caches included, as they were; `check` with the fatal
`ErrorsAreFatal` invokes `Fatal` once on an error and does not return. -/
theorem parse_failure_is_fatal (w : World) (g : Globals) (status1 status2 : Tweet)
    (minAgeHours : Int) (user : Int) (username contentType : String)
    (gatedContent : MemberSet) (timeDeltaSeconds : Int)
    (hUser : w.parseRubyDate status1.User.CreatedAt = none)
    (hCreated : w.parseRubyDate status2.CreatedAt = none) :
    checkAccountAge w status1 minAgeHours = none ∧
    checkContentDelta w g user username contentType gatedContent timeDeltaSeconds status2 =
      .fatal g ∧
    checkUserPostDelta w g user username timeDeltaSeconds status2 = .fatal g ∧
    (∀ (explain : String) (err : Error),
      check .ErrorsAreFatal explain (some err) = ⟨1, none⟩) := by
  refine ⟨?_, ?_, ?_, fun _ _ => rfl⟩
  · unfold checkAccountAge
    rw [hUser]
  · unfold checkContentDelta calculateTweetTime
    rw [hCreated]
  · unfold checkUserPostDelta calculateTweetTime
    rw [hCreated]

/-- Witness of C28: timestamps written in another format. -/
theorem parse_failure_is_fatal_witness :
    sampleWorld.parseRubyDate sampleMalformed.User.CreatedAt = none ∧
      sampleWorld.parseRubyDate sampleMalformed.CreatedAt = none ∧
      checkAccountAge sampleWorld sampleMalformed 0 = none ∧
      checkContentDelta sampleWorld sampleGlobals 1337821 "bothFollow" "video" MemberSet.New 2
        sampleMalformed = .fatal sampleGlobals :=
  ⟨by decide, by decide,
    (parse_failure_is_fatal sampleWorld sampleGlobals sampleMalformed sampleMalformed 0 1337821
      "bothFollow" "video" MemberSet.New 2 (by decide) (by decide)).1,
    (parse_failure_is_fatal sampleWorld sampleGlobals sampleMalformed sampleMalformed 0 1337821
      "bothFollow" "video" MemberSet.New 2 (by decide) (by decide)).2.1⟩

/-- The sample status flagged as possibly sensitive is refused as sensitive
under the sample configuration, which denies sensitive content. -/
theorem checkTweetContent_sensitive_sample :
    checkTweetContent sampleConfig sampleSensitive = (false, "sensitive", "") := by
  decide

/-! ## End to end -/

/-- The text is no beginning of `RT`: it is not empty, not `R` and does not
begin with `RT`. -/
theorem hasPrefix_RT_false (text : String) (hempty : text ≠ "") (hR : text ≠ "R")
    (hRT : HasPrefix text "RT" = false) : HasPrefix "RT" text = false := by
  cases text with
  | mk data =>
    unfold HasPrefix at hRT ⊢
    simp only [String.toList] at hRT ⊢
    cases data with
    | nil => exact absurd rfl hempty
    | cons c rest =>
      cases rest with
      | nil =>
        by_cases hc : c = 'R'
        · subst hc
          exact absurd rfl hR
        · simp [List.isPrefixOf, hc]
      | cons c2 rest2 =>
        cases rest2 with
        | nil =>
          by_cases h1 : c = 'R'
          · by_cases h2 : c2 = 'T'
            · subst h1
              subst h2
              simp [List.isPrefixOf] at hRT
            · simp [List.isPrefixOf, h2]
          · simp [List.isPrefixOf, h1]
        | cons c3 rest3 => simp [List.isPrefixOf]

theorem checkUserFollowing_empty_target (fs : FriendshipStatus) (g : Globals)
    (status : Tweet) : checkUserFollowing fs g status "" = (true, g) := by
  unfold checkUserFollowing
  by_cases he : EqualFold status.User.ScreenName "" = true
  · rw [if_pos he]
  · rw [if_neg he, if_pos rfl]

/-- Past its first two conditions, given as such, `checkTweetContent` is the
search for the first recognised attachment. -/
theorem checkTweetContent_eq_find_of (config : AppConfiguration) (status : Tweet)
    (hc : (status.InReplyToScreenName.length != 0 || status.RetweetedStatus != none ||
      HasPrefix "RT" status.Text ||
      EqualFold status.User.ScreenName config.Settings.IgnoreFrom) = false)
    (hs : (config.Settings.DenySensitiveContent == true &&
      status.PossiblySensitive == true) = false) :
    checkTweetContent config status =
      match (allMedia status).find? recognised with
      | some media => (true, mediaLabel media, media.Media_url_https)
      | none => (false, "no_match", "") := by
  unfold checkTweetContent
  rw [hc, hs]
  simp only [Bool.false_eq_true, if_false]
  simp only [checkEntityMedia_fst, allMedia, List.find?_append]
  simp only [checkEntityMedia_eq_find]
  cases status.Entities.Media.find? recognised with
  | some m => simp
  | none =>
    cases status.ExtendedEntities.Media.find? recognised with
    | some m => simp
    | none =>
      cases status.ExtendedTweet.Entities.Media.find? recognised with
      | some m => simp
      | none =>
        cases status.ExtendedTweet.ExtendedEntities.Media.find? recognised with
        | some m => simp
        | none => simp

/-! ### C29 -/

theorem checkForProhibitedMentions_true_of (status : Tweet) (filteredMentions : MemberSet)
    (h : ∀ mention ∈ allMentions status,
      filteredMentions.Get (.str (ToLower mention.Screen_name)) = false) :
    checkForProhibitedMentions status filteredMentions = true := by
  unfold checkForProhibitedMentions
  have he : ¬ status.ExtendedTweet.ExtendedEntities.User_mentions.any
      (fun mention => filteredMentions.Get (.str (ToLower mention.Screen_name))) = true := by
    intro hany
    obtain ⟨m, hm, hg⟩ := List.any_eq_true.mp hany
    have hf := h m (List.mem_append_left _ hm)
    rw [hf] at hg
    cases hg
  have hl : ¬ status.Entities.User_mentions.any
      (fun mention => filteredMentions.Get (.str (ToLower mention.Screen_name))) = true := by
    intro hany
    obtain ⟨m, hm, hg⟩ := List.any_eq_true.mp hany
    have hf := h m (List.mem_append_right _ hm)
    rw [hf] at hg
    cases hg
  rw [if_neg he, if_neg hl]

/-- An account created more than the clamped minimum age times 24 hours before
the start of the current clock hour passes `checkAccountAge`, when the minimum
age does not wrap around. -/
theorem checkAccountAge_true_of (w : World) (status : Tweet) (m : Int) (c0 : Int)
    (hp : w.parseRubyDate status.User.CreatedAt = some c0) (hf : minAgeFits m)
    (hAge : Time.Truncate w.now Hour - c0 > clampMinAge m * 24 * Hour) :
    checkAccountAge w status m = some true := by
  have h0 : 0 ≤ clampMinAge m := by
    unfold clampMinAge
    split <;> omega
  have hf1 : minAgeFits (clampMinAge m) := by
    unfold minAgeFits at hf ⊢
    unfold clampMinAge
    split <;> omega
  rw [checkAccountAge_eq w status m c0 hp]
  show some (decide (Time.Sub (Time.Truncate w.now Hour) c0 >
    wrap64 (wrap64 (clampMinAge m * 24) * Hour))) = some true
  rw [minAgeDuration_eq _ h0 hf1,
    decide_eq_true ((sub_gt_minAge_iff _ _ _ h0 hf1).mpr hAge)]

/-- C29 (as amended): for every event that is not a reply, not a repost, not
from the ignored author, whose text is not empty, not `R` and does not begin
with `RT`, that is not flagged sensitive, has one attachment, of type `video`,
mentions no handle that, lower-cased, is in the prohibited set, has no
non-empty space-separated word of its text in the prohibited set, whose author
account was created more than the minimum age (negative counted as 0, at most
106751) times 24 hours before the start of the current clock hour, whose
author is not in the muted set, whose timestamps parse, that is seen for the
first time for its author, content class and text, with the follow requirement
disabled (`MustFollow` empty) and a retweet that does not end the process:
`checkTweetContent` reports the type `video` and the URL of the attachment,
and `processTweet` returns true. -/
theorem processTweet_end_to_end (w : World) (a : ApiInterface) (fs : FriendshipStatus)
    (g : Globals) (status : Tweet) (media : EntityMedia) (t0 c0 : Int)
    (hReply : status.InReplyToScreenName = "")
    (hRepost : status.RetweetedStatus = none)
    (hAuthor : EqualFold status.User.ScreenName g.config.Settings.IgnoreFrom = false)
    (hTextEmpty : status.Text ≠ "") (hTextR : status.Text ≠ "R")
    (hTextRT : HasPrefix status.Text "RT" = false)
    (hSensitive : status.PossiblySensitive = false)
    (hMedia : allMedia status = [media]) (hType : media.Type_ = "video")
    (hNoMention : ∀ mention ∈ allMentions status,
      g.prohibitedMentions.Get (.str (ToLower mention.Screen_name)) = false)
    (hNoWord : ∀ word ∈ Split status.Text, word ≠ "" →
      g.prohibitedWords.Get (.str word) = false)
    (hAccount : w.parseRubyDate status.User.CreatedAt = some c0)
    (hAgeFits : minAgeFits g.config.Settings.MinAccountAgeHours)
    (hOlder : Time.Truncate w.now Hour - c0 >
      clampMinAge g.config.Settings.MinAccountAgeHours * 24 * Hour)
    (hNotMuted : g.mutedIds.Get (.num status.User.Id) = false)
    (hCreated : w.parseRubyDate status.CreatedAt = some t0)
    (hFirstContent : g.userContentDeltaLRU.Get ⟨status.User.Id, "video"⟩ = none)
    (hFirstPost : g.userPostDeltaLRU.Get status.User.Id = none)
    (hFirstText : g.postTextLRU.Get status.Text = none)
    (hFollow : g.config.Settings.MustFollow = "")
    (hRetweet : retweetSurvives a g status) :
    checkTweetContent g.config status = (true, "video", media.Media_url_https) ∧
    ∃ g1, processTweet w a fs g status = .ok true g1 := by
  have hMentions : checkForProhibitedMentions status g.prohibitedMentions = true :=
    checkForProhibitedMentions_true_of status g.prohibitedMentions hNoMention
  have hWords : checkForProhibitedWords status g.prohibitedWords = true :=
    (checkForProhibitedWords_true_iff status g.prohibitedWords).mpr hNoWord
  have hAge : checkAccountAge w status g.config.Settings.MinAccountAgeHours = some true :=
    checkAccountAge_true_of w status _ c0 hAccount hAgeFits hOlder
  have hMuted : userIsMuted (.num status.User.Id) g.mutedIds = false := by
    unfold userIsMuted
    rw [hNotMuted]
    rfl
  have hc : checkTweetContent g.config status = (true, "video", media.Media_url_https) := by
    rw [checkTweetContent_eq_find_of g.config status
      (by simp [hReply, hRepost, hAuthor, hasPrefix_RT_false _ hTextEmpty hTextR hTextRT])
      (by simp [hSensitive])]
    rw [hMedia]
    have hr : recognised media = true := by
      unfold recognised
      rw [hType]
      decide
    have hl : mediaLabel media = "video" := by
      unfold mediaLabel
      rw [hType]
      decide
    simp [List.find?, hr, hl]
  refine ⟨hc, ?_⟩
  obtain ⟨g1, e6, c1, p1, t1⟩ : ∃ g1,
      checkContentDelta w g status.User.Id status.User.ScreenName "video"
        g.deltaGatedContent g.config.Settings.ContentTimeDelta status = .ok true g1 ∧
      g1.config = g.config ∧ g1.userPostDeltaLRU = g.userPostDeltaLRU ∧
      g1.postTextLRU = g.postTextLRU :=
    ⟨_, checkContentDelta_miss w g status.User.Id status.User.ScreenName "video"
      g.deltaGatedContent g.config.Settings.ContentTimeDelta status t0 hCreated hFirstContent,
      rfl, rfl, rfl⟩
  obtain ⟨g2, e7, c2, t2⟩ : ∃ g2,
      checkUserPostDelta w g1 status.User.Id status.User.ScreenName
        g1.config.Settings.PostTimeDelta status = .ok true g2 ∧
      g2.config = g1.config ∧ g2.postTextLRU = g1.postTextLRU :=
    ⟨_, checkUserPostDelta_miss w g1 status.User.Id status.User.ScreenName
      g1.config.Settings.PostTimeDelta status t0 hCreated (by rw [p1]; exact hFirstPost),
      rfl, rfl⟩
  obtain ⟨g3, e8, c3⟩ : ∃ g3,
      checkPostRecentLRU g2 status.Text = (true, g3) ∧ g3.config = g2.config := by
    refine ⟨{ g2 with postTextLRU := g2.postTextLRU.Add status.Text 1 }, ?_, rfl⟩
    unfold checkPostRecentLRU
    rw [if_pos (by rw [t2, t1]; exact hFirstText)]
  have hcfg : g3.config = g.config := by rw [c3, c2, c1]
  have e9 : checkUserFollowing fs g3 status g3.config.Settings.MustFollow = (true, g3) := by
    rw [hcfg, hFollow]
    exact checkUserFollowing_empty_target fs g3 status
  unfold processTweet
  simp only [hc, hMentions, hWords, hAge, hMuted, e6, e7, e8, e9, Bool.not_true,
    Bool.false_eq_true, if_false, beq_self_eq_true, Bool.true_eq_false, beq_iff_eq]
  unfold retweetSurvives at hRetweet
  rw [hcfg]
  rcases hRetweet with ht | hr
  · exact ⟨g3, by simp [ht]⟩
  · cases hret : (checkRetweetErrors .ErrorsAreFatal "Could not retweet"
        (a.Retweet status.Id true)).ret with
    | none => exact absurd hret hr
    | some v =>
      by_cases ht : g.config.TestMode = false
      · exact ⟨g3, by simp [ht]⟩
      · exact ⟨g3, by simp [ht]⟩

/-- Witness of C29: the sample video status in the sample world. -/
theorem processTweet_end_to_end_witness :
    checkTweetContent sampleGlobals.config sampleStatus =
        (true, "video", "https://example.com/v.mp4") ∧
      ∃ g1, processTweet sampleWorld sampleApi sampleFriendship sampleGlobals sampleStatus =
        .ok true g1 :=
  processTweet_end_to_end sampleWorld sampleApi sampleFriendship sampleGlobals sampleStatus
    ⟨"video", "https://example.com/v.mp4"⟩ 63355439325000000000 63355439325000000000
    (by decide) (by decide) (by decide) (by decide) (by decide) (by decide) (by decide)
    (by decide) (by decide) (by decide) (by decide) (by decide)
    (by unfold minAgeFits; decide) (by decide) (by decide) (by decide)
    (by decide) (by decide) (by decide) (by decide) (Or.inr (by decide))

/-- Counterexample to C29 as stated: the sample status is not a reply, not a
repost, not from the ignored author, not sensitive, has one attachment of type
`video`, its author account is older than the threshold and not muted, it is
seen for the first time for its author, content class and text, and
`MustFollow` is empty; its text contains the prohibited word `pie!`, and
`processTweet` returns false. Also without a prohibited word: with a minimum
age of 1 and the clock at 13:13:45 the next day, the account is 24 hours and 5
minutes old, older than the threshold of 24 hours, but only 23 hours 51
minutes 15 seconds lie between its creation and the start of the current clock
hour, and `processTweet` returns false. -/
theorem processTweet_end_to_end_counterexample :
    sampleStatus.InReplyToScreenName = "" ∧ sampleStatus.RetweetedStatus = none ∧
      EqualFold sampleStatus.User.ScreenName pieGlobals.config.Settings.IgnoreFrom = false ∧
      sampleStatus.PossiblySensitive = false ∧
      allMedia sampleStatus = [⟨"video", "https://example.com/v.mp4"⟩] ∧
      checkTweetContent pieGlobals.config sampleStatus =
        (true, "video", "https://example.com/v.mp4") ∧
      checkAccountAge sampleWorld sampleStatus pieGlobals.config.Settings.MinAccountAgeHours =
        some true ∧
      userIsMuted (.num sampleStatus.User.Id) pieGlobals.mutedIds = false ∧
      pieGlobals.userContentDeltaLRU.Get ⟨sampleStatus.User.Id, "video"⟩ = none ∧
      pieGlobals.userPostDeltaLRU.Get sampleStatus.User.Id = none ∧
      pieGlobals.postTextLRU.Get sampleStatus.Text = none ∧
      pieGlobals.config.Settings.MustFollow = "" ∧
      pieGlobals.config.TestMode = true ∧
      processTweet sampleWorld sampleApi sampleFriendship pieGlobals sampleStatus =
        .ok false pieGlobals ∧
      sampleWorldDayAndFive.parseRubyDate sampleStatus.User.CreatedAt =
        some 63355439325000000000 ∧
      sampleWorldDayAndFive.now - 63355439325000000000 = 24 * Hour + 300 * Second ∧
      dayGlobals.config.Settings.MinAccountAgeHours = 1 ∧
      Time.Truncate sampleWorldDayAndFive.now Hour - 63355439325000000000 =
        23 * Hour + 3075 * Second ∧
      checkTweetContent dayGlobals.config sampleStatus =
        (true, "video", "https://example.com/v.mp4") ∧
      checkForProhibitedMentions sampleStatus dayGlobals.prohibitedMentions = true ∧
      checkForProhibitedWords sampleStatus dayGlobals.prohibitedWords = true ∧
      userIsMuted (.num sampleStatus.User.Id) dayGlobals.mutedIds = false ∧
      dayGlobals.userContentDeltaLRU.Get ⟨sampleStatus.User.Id, "video"⟩ = none ∧
      dayGlobals.userPostDeltaLRU.Get sampleStatus.User.Id = none ∧
      dayGlobals.postTextLRU.Get sampleStatus.Text = none ∧
      dayGlobals.config.Settings.MustFollow = "" ∧
      processTweet sampleWorldDayAndFive sampleApi sampleFriendship dayGlobals sampleStatus =
        .ok false dayGlobals := by
  decide

/-! ### C30 -/

theorem runChain_urlLRU (gates : List Gate) (n : Nat) (g : Globals)
    (h : ∀ gate ∈ gates, ∀ g0 : Globals, (gate g0).globals.urlLRU = g0.urlLRU) :
    (runChain gates n g).globals.urlLRU = g.urlLRU := by
  induction gates generalizing n g with
  | nil => rfl
  | cons gate rest ih =>
    have hgate := h gate (List.mem_cons_self _ _) g
    unfold runChain
    cases hg : gate g with
    | fatal g1 =>
      rw [hg] at hgate
      exact hgate
    | ok verdict g1 =>
      rw [hg] at hgate
      cases verdict
      · exact hgate
      · simp only [if_true]
        rw [ih (n + 1) g1 (fun gate1 hm => h gate1 (List.mem_cons_of_mem _ hm))]
        exact hgate

theorem gateChain_urlLRU (w : World) (fs : FriendshipStatus) (status : Tweet) :
    ∀ gate ∈ gateChain w fs status, ∀ g0 : Globals, (gate g0).globals.urlLRU = g0.urlLRU := by
  intro gate hm g0
  unfold gateChain at hm
  simp only [List.mem_cons, List.mem_singleton, List.not_mem_nil, or_false] at hm
  rcases hm with h | h | h | h | h | h | h | h | h
  · rw [h]
    rfl
  · rw [h]
    rfl
  · rw [h]
    rfl
  · rw [h]
    dsimp only
    split <;> rfl
  · rw [h]
    rfl
  · rw [h]
    dsimp only
    rcases checkContentDelta_cases w g0 status.User.Id status.User.ScreenName
      (checkTweetContent g0.config status).2.1 g0.deltaGatedContent
      g0.config.Settings.ContentTimeDelta status with ⟨_, e⟩ | e | ⟨c, e⟩
    all_goals rw [e]
    all_goals rfl
  · rw [h]
    dsimp only
    rcases checkUserPostDelta_cases w g0 status.User.Id status.User.ScreenName
      g0.config.Settings.PostTimeDelta status with ⟨_, e⟩ | e | ⟨c, e⟩
    all_goals rw [e]
    all_goals rfl
  · rw [h]
    dsimp only
    rcases checkPostRecentLRU_cases g0 status.Text with e | ⟨c, e⟩
    all_goals rw [e]
    all_goals rfl
  · rw [h]
    dsimp only
    obtain ⟨verdict, c, e⟩ := checkUserFollowing_cases fs g0 status g0.config.Settings.MustFollow
    rw [e]
    rfl

theorem finishChain_globals (a : ApiInterface) (status : Tweet) (st : ChainState) :
    (finishChain a status st).globals = st.globals := by
  cases st with
  | Admitted g =>
    unfold finishChain
    dsimp only
    repeat' split
    all_goals rfl
  | Rejected i g => rfl
  | Halted g => rfl

/-- Whatever it returns, `processTweet` leaves `urlLRU` as it was. -/
theorem processTweet_urlLRU (w : World) (a : ApiInterface) (fs : FriendshipStatus)
    (g : Globals) (status : Tweet) :
    (processTweet w a fs g status).globals.urlLRU = g.urlLRU := by
  rw [processTweet_eq_finishChain, finishChain_globals]
  exact runChain_urlLRU _ 0 g (gateChain_urlLRU w fs status)

/-- C30 (the code at the failing input): the sample status and its repost two
seconds later have different texts and the same content URL, which `urlLRU`
holds before the first call and after it; `processTweet` admits the first and,
from the globals the first call leaves, admits the second as well:
`processTweet` never calls `checkDuplicateContent`. From globals whose
`urlLRU` is empty the URL is not even recorded by the first call. -/
theorem processTweet_same_url_admitted :
    sampleStatus.Text ≠ sampleRepost.Text ∧
      checkTweetContent sampleConfig sampleStatus =
        (true, "video", "https://example.com/v.mp4") ∧
      checkTweetContent sampleConfig sampleRepost =
        (true, "video", "https://example.com/v.mp4") ∧
      urlHeldGlobals.urlLRU.Get "https://example.com/v.mp4" = some 1 ∧
      processTweet sampleWorld sampleApi sampleFriendship urlHeldGlobals sampleStatus =
        .ok true afterFirstGlobals ∧
      afterFirstGlobals.urlLRU.Get "https://example.com/v.mp4" = some 1 ∧
      (checkDuplicateContent afterFirstGlobals "https://example.com/v.mp4").1 = false ∧
      processTweet sampleWorld sampleApi sampleFriendship afterFirstGlobals sampleRepost =
        .ok true
          (processTweet sampleWorld sampleApi sampleFriendship afterFirstGlobals
            sampleRepost).globals ∧
      (processTweet sampleWorld sampleApi sampleFriendship sampleGlobals
        sampleStatus).globals.urlLRU.Get "https://example.com/v.mp4" = none := by
  decide

/-! ## The member set -/

theorem MemberSet.Get_Add (m : MemberSet) (key k : MemberKey) :
    (m.Add key).Get k = (m.Get k || decide (k = key)) := by
  unfold MemberSet.Get MemberSet.Add
  by_cases h1 : key ∈ m.keys
  · rw [if_pos h1]
    by_cases h2 : k = key
    · subst h2
      simp [h1]
    · simp [h2]
  · rw [if_neg h1]
    by_cases h2 : k = key
    · subst h2
      simp
    · by_cases h3 : k ∈ m.keys <;> simp [h2, h3]

/-! ### C33 -/

/-- C33: the membership set of the mute gate: for every key `k`, after
`Add(k)` a `Get(k)`, and `userIsMuted(k, set)`, is true, and after `Delete(k)`
a `Get(k)` is false; a key that was never added is not a member (the new set
has no member, and adding or deleting another key does not change the
membership of `k`); a string key is not matched by a numeric key. -/
theorem memberSet_laws (m : MemberSet) (k : MemberKey) :
    (m.Add k).Get k = true ∧
    userIsMuted k (m.Add k) = true ∧
    (m.Delete k).Get k = false ∧
    userIsMuted k (m.Delete k) = false ∧
    MemberSet.New.Get k = false ∧
    (∀ other : MemberKey, other ≠ k →
      (m.Add other).Get k = m.Get k ∧ (m.Delete other).Get k = m.Get k) ∧
    (∀ (s : String) (n : Int),
      (MemberSet.New.Add (.str s)).Get (.num n) = false ∧
      userIsMuted (.num n) (MemberSet.New.Add (.str s)) = false) := by
  have hadd : (m.Add k).Get k = true := by
    rw [MemberSet.Get_Add]
    simp
  have hdel : (m.Delete k).Get k = false := by
    rw [MemberSet.Get_Delete]
    simp
  refine ⟨hadd, ?_, hdel, ?_, rfl, ?_, ?_⟩
  · unfold userIsMuted
    rw [hadd]
    rfl
  · unfold userIsMuted
    rw [hdel]
    rfl
  · intro other hne
    constructor
    · rw [MemberSet.Get_Add]
      have : k ≠ other := fun h => hne h.symm
      simp [this]
    · rw [MemberSet.Get_Delete]
      have : k ≠ other := fun h => hne h.symm
      simp [this]
  · intro s n
    have h : (MemberSet.New.Add (.str s)).Get (.num n) = false := by
      rw [MemberSet.Get_Add]
      simp [MemberSet.New, MemberSet.Get]
    refine ⟨h, ?_⟩
    unfold userIsMuted
    rw [h]
    rfl

/-! ## Retweet errors -/

theorem checkRetweetErrorsLoop_spec (fs : ErrorInterface) (codes : List Int) (n : Nat) :
    n ≤ (checkRetweetErrorsLoop fs codes n).fatalCalls ∧
      ∀ b, (checkRetweetErrorsLoop fs codes n).ret = some b → b = true := by
  induction codes generalizing n with
  | nil =>
    unfold checkRetweetErrorsLoop
    exact ⟨Nat.le_refl _, fun b h => by cases h; rfl⟩
  | cons code rest ih =>
    unfold checkRetweetErrorsLoop
    split
    · exact ⟨Nat.le_refl _, fun b h => by cases h; rfl⟩
    · split
      · exact ⟨Nat.le_refl _, fun b h => by cases h; rfl⟩
      · cases fs with
        | ErrorsAreFatal => exact ⟨Nat.le_succ _, fun b h => by cases h⟩
        | FakeFatal =>
          obtain ⟨h1, h2⟩ := ih (n + 1)
          exact ⟨Nat.le_trans (Nat.le_succ n) h1, h2⟩

/-! ### C34 -/

/-- C34: `checkRetweetErrors` returns true whenever it returns; it returns
true without invoking `Fatal` when the error is nil, or is an `ApiError` whose
decoded error list is empty or starts with the code of 'status is a duplicate'
or of 'does not exist'; it invokes `Fatal` when the error is not an
`ApiError`, and when the decoded error list starts with any other code (for
example 'could not authenticate'), that is when an error with another code
comes before the first recoverable one. -/
theorem checkRetweetErrors_spec (fs : ErrorInterface) (explain : String) :
    (∀ err b, (checkRetweetErrors fs explain err).ret = some b → b = true) ∧
    checkRetweetErrors fs explain none = ⟨0, some true⟩ ∧
    checkRetweetErrors fs explain (some (.apiError [])) = ⟨0, some true⟩ ∧
    (∀ rest, checkRetweetErrors fs explain
      (some (.apiError (TwitterErrorStatusIsADuplicate :: rest))) = ⟨0, some true⟩) ∧
    (∀ rest, checkRetweetErrors fs explain
      (some (.apiError (TwitterErrorDoesNotExist :: rest))) = ⟨0, some true⟩) ∧
    (∀ msg, (checkRetweetErrors fs explain (some (.other msg))).fatalCalls = 1) ∧
    (∀ code rest, code ≠ TwitterErrorStatusIsADuplicate → code ≠ TwitterErrorDoesNotExist →
      1 ≤ (checkRetweetErrors fs explain (some (.apiError (code :: rest)))).fatalCalls) ∧
    1 ≤ (checkRetweetErrors fs explain
      (some (.apiError [TwitterErrorCouldNotAuthenticate,
        TwitterErrorStatusIsADuplicate]))).fatalCalls := by
  have hother : ∀ code rest, code ≠ TwitterErrorStatusIsADuplicate →
      code ≠ TwitterErrorDoesNotExist →
      1 ≤ (checkRetweetErrors fs explain (some (.apiError (code :: rest)))).fatalCalls := by
    intro code rest h1 h2
    unfold checkRetweetErrors
    dsimp only
    unfold checkRetweetErrorsLoop
    rw [if_neg h1, if_neg h2]
    cases fs with
    | ErrorsAreFatal => exact Nat.le_refl _
    | FakeFatal => exact (checkRetweetErrorsLoop_spec _ rest 1).1
  refine ⟨?_, rfl, rfl, ?_, ?_, ?_, hother, ?_⟩
  · intro err b h
    unfold checkRetweetErrors at h
    cases err with
    | none =>
      cases h
      rfl
    | some e =>
      cases e with
      | other msg =>
        cases fs with
        | ErrorsAreFatal => cases h
        | FakeFatal =>
          cases h
          rfl
      | apiError codes => exact (checkRetweetErrorsLoop_spec fs codes 0).2 b h
  · intro rest
    unfold checkRetweetErrors
    dsimp only
    unfold checkRetweetErrorsLoop
    rw [if_pos rfl]
  · intro rest
    unfold checkRetweetErrors
    dsimp only
    unfold checkRetweetErrorsLoop
    rw [if_neg (by decide), if_pos rfl]
  · intro msg
    unfold checkRetweetErrors
    cases fs <;> rfl
  · exact hother _ _ (by decide) (by decide)

/-! ### C35 -/

/-- C35: every event whose text is empty, or is exactly `R` or `RT`, is
rejected by `checkTweetContent` with the reason `non-original`, whatever its
other fields: also when it is not a reply, not a repost, not from the ignored
author and carries a recognised attachment. -/
theorem checkTweetContent_short_text (config : AppConfiguration) (status : Tweet)
    (h : status.Text = "" ∨ status.Text = "R" ∨ status.Text = "RT") :
    checkTweetContent config status = (false, "non-original", "") := by
  have hp : HasPrefix "RT" status.Text = true := by
    rcases h with h | h | h <;> rw [h] <;> decide
  unfold checkTweetContent
  rw [if_pos (by simp [hp])]

/-- Witness of C35: the sample video status with an empty text. -/
theorem checkTweetContent_short_text_witness :
    sampleEmptyText.Text = "" ∧ sampleEmptyText.InReplyToScreenName = "" ∧
      sampleEmptyText.RetweetedStatus = none ∧
      EqualFold sampleEmptyText.User.ScreenName sampleConfig.Settings.IgnoreFrom = false ∧
      (allMedia sampleEmptyText).find? recognised =
        some ⟨"video", "https://example.com/v.mp4"⟩ ∧
      checkTweetContent sampleConfig sampleEmptyText = (false, "non-original", "") :=
  ⟨by decide, by decide, by decide, by decide, by decide,
    checkTweetContent_short_text sampleConfig sampleEmptyText (Or.inl (by decide))⟩

/-! ## More on the delta gates -/

/-! ### C37 -/

/-- C37: `checkContentDelta` does not depend on its `gatedContent` argument:
for every two member sets passed as `gatedContent`, for instance one that
lists the content type and one that does not, the verdict and the globals
left, the cache included, are the same; the content delta applies to a content
type whether or not `DeltaGatedContent` lists it. -/
theorem checkContentDelta_ignores_gatedContent (w : World) (g : Globals) (user : Int)
    (username contentType : String) (timeDeltaSeconds : Int) (status : Tweet) :
    (∀ gated1 gated2 : MemberSet,
      checkContentDelta w g user username contentType gated1 timeDeltaSeconds status =
        checkContentDelta w g user username contentType gated2 timeDeltaSeconds status) ∧
    checkContentDelta w g user username contentType (MemberSet.New.Add (.str contentType))
        timeDeltaSeconds status =
      checkContentDelta w g user username contentType MemberSet.New timeDeltaSeconds status ∧
    (∀ gated : MemberSet,
      (checkContentDelta w { g with deltaGatedContent := gated } user username contentType
          gated timeDeltaSeconds status).globals.userContentDeltaLRU =
        (checkContentDelta w g user username contentType g.deltaGatedContent timeDeltaSeconds
          status).globals.userContentDeltaLRU) := by
  refine ⟨fun _ _ => rfl, rfl, ?_⟩
  intro gated
  unfold checkContentDelta
  cases calculateTweetTime w status timeDeltaSeconds with
  | none => rfl
  | some p =>
    dsimp only
    cases g.userContentDeltaLRU.Get ⟨user, contentType⟩ with
    | none => rfl
    | some val =>
      dsimp only
      split <;> rfl

/-! ### C38 -/

/-- C38: with a delta of 0 seconds the delta gates are not disabled: on a
cache hit with recorded time `r`, `checkContentDelta` and
`checkUserPostDelta` reject an event whose creation time is earlier than `r`,
leaving the globals as they are, and admit one whose creation time is equal to
or later than `r`, recording it. The gates compare the creation time truncated
to the second; against a recorded time of whole seconds, as the gates record
it, that is the comparison of the creation time itself. -/
theorem delta_gates_zero_delta (w : World) (g : Globals) (user : Int)
    (username contentType : String) (gatedContent : MemberSet) (status : Tweet) (t0 : Int)
    (hparse : w.parseRubyDate status.CreatedAt = some t0) :
    (∀ r : Int, g.userContentDeltaLRU.Get ⟨user, contentType⟩ = some r →
      (Time.Truncate t0 Second < r →
        checkContentDelta w g user username contentType gatedContent 0 status =
          .ok false g) ∧
      (r ≤ Time.Truncate t0 Second →
        checkContentDelta w g user username contentType gatedContent 0 status =
          .ok true { g with userContentDeltaLRU :=
            g.userContentDeltaLRU.Add ⟨user, contentType⟩ (Time.Truncate t0 Second) })) ∧
    (∀ r : Int, g.userPostDeltaLRU.Get user = some r →
      (Time.Truncate t0 Second < r →
        checkUserPostDelta w g user username 0 status = .ok false g) ∧
      (r ≤ Time.Truncate t0 Second →
        checkUserPostDelta w g user username 0 status =
          .ok true { g with userPostDeltaLRU :=
            g.userPostDeltaLRU.Add user (Time.Truncate t0 Second) })) ∧
    (∀ r : Int, r % Second = 0 →
      (Time.Truncate t0 Second < r ↔ t0 < r) ∧ (r ≤ Time.Truncate t0 Second ↔ r ≤ t0)) := by
  have hfit : deltaFits 0 := by
    unfold deltaFits
    omega
  refine ⟨?_, ?_, ?_⟩
  rotate_left 2
  · intro r hr
    unfold Time.Truncate
    unfold Second at hr ⊢
    rw [if_neg (by decide)]
    omega
  · intro r hhit
    rw [checkContentDelta_hit w g user username contentType gatedContent 0 status t0 r hparse
      hhit]
    constructor
    · intro hlt
      rw [if_neg]
      intro hge
      have := (sub_ge_delta_iff _ _ 0 hfit).mp hge
      omega
    · intro hle
      rw [if_pos ((sub_ge_delta_iff _ _ 0 hfit).mpr (by omega))]
  · intro r hhit
    rw [checkUserPostDelta_hit w g user username 0 status t0 r hparse hhit]
    constructor
    · intro hlt
      rw [if_neg]
      intro hge
      have := (sub_ge_delta_iff _ _ 0 hfit).mp hge
      omega
    · intro hle
      rw [if_pos ((sub_ge_delta_iff _ _ 0 hfit).mpr (by omega))]

/-- Witness of C38: with a delta of 0 the sample status, created at the
recorded time, is admitted by the post-delta gate. -/
theorem delta_gates_zero_delta_witness :
    sampleWorld.parseRubyDate sampleStatus.CreatedAt = some 63355439325000000000 ∧
      warmGlobals.userPostDeltaLRU.Get 1337821 = some 63355439325000000000 ∧
      checkUserPostDelta sampleWorld warmGlobals 1337821 "bothFollow" 0 sampleStatus =
        .ok true { warmGlobals with userPostDeltaLRU :=
          (warmGlobals.userPostDeltaLRU.Add 1337821
            (Time.Truncate 63355439325000000000 Second)) } :=
  ⟨by decide, by decide,
    ((delta_gates_zero_delta sampleWorld warmGlobals 1337821 "bothFollow" "video"
      MemberSet.New sampleStatus 63355439325000000000 (by decide)).2.1
      63355439325000000000 (by decide)).2 (by decide)⟩

/-! ## Wrap-around of the account-age threshold -/

/-! ### C40 -/

/-- C40: the account-age threshold `time.Duration(minAgeHours*24) * time.Hour`
is computed without 64-bit wrap-around exactly when the clamped `minAgeHours`
is at most 106751; at `minAgeHours = 106752` the product wraps to a negative
duration, and `checkAccountAge` then admits an account of zero age, one
created at the moment of the check. -/
theorem checkAccountAge_wrap_around (w : World) (status : Tweet)
    (hp : w.parseRubyDate status.User.CreatedAt = some w.now) :
    (∀ m : Int,
      wrap64 (wrap64 (clampMinAge m * 24) * Hour) = clampMinAge m * 24 * Hour ↔
        clampMinAge m ≤ 106751) ∧
    wrap64 (wrap64 (clampMinAge 106752 * 24) * Hour) = -9223371273709551616 ∧
    checkAccountAge w status 106752 = some true := by
  refine ⟨?_, by decide, ?_⟩
  · intro m
    have h0 : 0 ≤ clampMinAge m := by
      unfold clampMinAge
      split <;> omega
    constructor
    · intro h
      have hle := wrap64_le (wrap64 (clampMinAge m * 24) * Hour)
      rw [h] at hle
      unfold maxDuration Hour at hle
      omega
    · intro h
      exact minAgeDuration_eq _ h0 h
  · rw [checkAccountAge_eq w status 106752 w.now hp]
    have hw : wrap64 (wrap64 ((if (106752 : Int) < 0 then 0 else 106752) * 24) * Hour) =
        -9223371273709551616 := by decide
    rw [hw]
    have hs : Time.Sub (Time.Truncate w.now Hour) w.now > -9223371273709551616 := by
      unfold Time.Sub Time.Truncate minDuration maxDuration Hour
      simp only [show ¬ ((3600000000000 : Int) ≤ 0) by decide, if_false]
      split
      · omega
      · split
        · omega
        · omega
    rw [decide_eq_true hs]

/-- Witness of C40: an account created at 13:08:45 and checked at that very
moment with a minimum of 106752. -/
theorem checkAccountAge_wrap_around_witness :
    sampleWorld2008.parseRubyDate sampleStatus.User.CreatedAt = some sampleWorld2008.now ∧
      checkAccountAge sampleWorld2008 sampleStatus 106752 = some true :=
  ⟨by decide, (checkAccountAge_wrap_around sampleWorld2008 sampleStatus (by decide)).2.2⟩

/-! ## The key of the follow-status cache -/

/-- Adding an entry for one key leaves a missing other key missing. -/
theorem Cache.Get_Add_none {K V : Type} [DecidableEq K] (c : Cache K V) (key k : K) (value : V)
    (hne : k ≠ key) (hmiss : c.Get k = none) : (c.Add key value).Get k = none := by
  unfold Cache.Get at hmiss ⊢
  unfold Cache.Add
  dsimp only
  rw [List.lookup_eq_none_iff] at hmiss ⊢
  have hall : ∀ p ∈ (key, value) :: c.entries.filter (fun e => e.1 ≠ key), (k != p.1) = true := by
    intro p hp
    rcases List.mem_cons.mp hp with h | h
    · subst h
      simpa using hne
    · exact hmiss p (List.mem_of_mem_filter h)
  intro p hp
  split at hp
  · exact hall p (List.mem_of_mem_dropLast hp)
  · exact hall p hp

/-! ### C39 -/

/-- C39: the follow-status cache is keyed by the source handle alone. Once the
cache holds an entry for the handle of the author, `checkUserFollowing` gives
the cached answer and leaves the globals as they are for every non-empty
target other than the author and every live lookup: the target is not part of
the key. Handles that differ only in letter case are distinct keys: an entry
added under another handle, equal up to case or not, leaves the author's
handle a miss, and the entry of `Alice` does not answer for `alice`. -/
theorem checkUserFollowing_keyed_by_source (g : Globals) (status : Tweet) (verdict : Bool)
    (hhit : g.tweetOriginatorLRU.Get status.User.ScreenName =
      some (if verdict then 1 else 0)) :
    (∀ (fs1 fs2 : FriendshipStatus) (target1 target2 : String),
      target1 ≠ "" → target2 ≠ "" →
      EqualFold status.User.ScreenName target1 = false →
      EqualFold status.User.ScreenName target2 = false →
      checkUserFollowing fs1 g status target1 = (verdict, g) ∧
        checkUserFollowing fs2 g status target2 = (verdict, g)) ∧
    (∀ (c : Cache String Int) (other : String) (v : Int),
      other ≠ status.User.ScreenName → c.Get status.User.ScreenName = none →
      (c.Add other v).Get status.User.ScreenName = none) ∧
    (EqualFold "Alice" "alice" = true ∧
      aliceGlobals.tweetOriginatorLRU.Get "Alice" = some 0 ∧
      aliceGlobals.tweetOriginatorLRU.Get "alice" = none ∧
      checkUserFollowing sourceFollowsFriendship aliceGlobals
          { aliceStatus with User := { aliceStatus.User with ScreenName := "Alice" } } "chim" =
        (false, aliceGlobals) ∧
      checkUserFollowing sourceFollowsFriendship aliceGlobals aliceStatus "chim" =
        (true, { aliceGlobals with
          tweetOriginatorLRU := aliceGlobals.tweetOriginatorLRU.Add "alice" 1 })) := by
  refine ⟨?_, ?_, by decide, by decide, by decide, by decide, by decide⟩
  · intro fs1 fs2 target1 target2 h1 h2 e1 e2
    exact ⟨checkUserFollowing_hit fs1 g status target1 verdict e1 h1 hhit,
      checkUserFollowing_hit fs2 g status target2 verdict e2 h2 hhit⟩
  · intro c other v hne hmiss
    exact Cache.Get_Add_none c other status.User.ScreenName v (fun h => hne h.symm) hmiss

/-- Witness of C39: the cached answer 0 of `bothFollow` is given for the
targets `chim` and `someoneElse` alike. -/
theorem checkUserFollowing_keyed_by_source_witness :
    notFollowingGlobals.tweetOriginatorLRU.Get sampleStatus.User.ScreenName = some 0 ∧
      checkUserFollowing sourceFollowsFriendship notFollowingGlobals sampleStatus "chim" =
        (false, notFollowingGlobals) ∧
      checkUserFollowing sampleFriendship notFollowingGlobals sampleStatus "someoneElse" =
        (false, notFollowingGlobals) :=
  ⟨by decide,
    (checkUserFollowing_keyed_by_source notFollowingGlobals sampleStatus false (by decide)).1
      sourceFollowsFriendship sampleFriendship "chim" "someoneElse" (by decide) (by decide)
      (by decide) (by decide)⟩

/-! ## The muted list -/

/-- Membership after the users of one page have been added. -/
theorem foldl_Add_Get (users : List User) (s : MemberSet) (k : MemberKey) :
    (users.foldl (fun s user => s.Add (.num user.Id)) s).Get k = true ↔
      s.Get k = true ∨ ∃ user ∈ users, k = .num user.Id := by
  induction users generalizing s with
  | nil => simp
  | cons u us ih =>
    rw [List.foldl_cons, ih, MemberSet.Get_Add]
    simp only [Bool.or_eq_true, decide_eq_true_eq, List.mem_cons, exists_eq_or_imp]
    tauto

/-! ### C32 -/

/-- C32: `populateMutedList` follows the cursors to the page whose next cursor
is `"0"`: when the source answers the caller's values and then each next
cursor with the pages `pages`, the call ends with a muted set for every
recursion budget of at least the number of pages, and a key is in that set
exactly when it was in the set before the call or is the id of a user on one
of the pages. -/
theorem populateMutedList_pages (m : GetMutedList) (pages : List UserCursor) (v : Values)
    (s : MemberSet) (h : pagesFrom m v pages = true) :
    ∃ s1 : MemberSet,
      (∀ fuel, pages.length ≤ fuel → populateMutedList m fuel v s = .done s1) ∧
      ∀ k, s1.Get k = true ↔
        s.Get k = true ∨ ∃ page ∈ pages, ∃ user ∈ page.Users, k = .num user.Id := by
  induction pages generalizing v s with
  | nil => simp [pagesFrom] at h
  | cons page rest ih =>
    unfold pagesFrom at h
    rw [Bool.and_eq_true, decide_eq_true_eq] at h
    obtain ⟨hreq, hrest⟩ := h
    cases rest with
    | nil =>
      dsimp only at hrest
      rw [decide_eq_true_eq] at hrest
      refine ⟨page.Users.foldl (fun s user => s.Add (.num user.Id)) s, ?_, ?_⟩
      · intro fuel hfuel
        cases fuel with
        | zero => simp at hfuel
        | succ n =>
          unfold populateMutedList
          rw [hreq]
          dsimp only
          rw [if_neg (by simp [hrest])]
      · intro k
        rw [foldl_Add_Get]
        simp
    | cons next more =>
      dsimp only at hrest
      rw [Bool.and_eq_true, decide_eq_true_eq] at hrest
      obtain ⟨hnext, hmore⟩ := hrest
      obtain ⟨s1, hrun, hmem⟩ := ih (Values.Set [] "cursor" page.Next_cursor_str)
        (page.Users.foldl (fun s user => s.Add (.num user.Id)) s) hmore
      refine ⟨s1, ?_, ?_⟩
      · intro fuel hfuel
        cases fuel with
        | zero => simp at hfuel
        | succ n =>
          unfold populateMutedList
          rw [hreq]
          dsimp only
          rw [if_pos hnext]
          exact hrun n (by simpa using hfuel)
      · intro k
        rw [hmem, foldl_Add_Get]
        constructor
        · rintro ((h1 | ⟨user, hu, hk⟩) | ⟨p, hp, hk⟩)
          · exact Or.inl h1
          · exact Or.inr ⟨page, List.mem_cons_self _ _, user, hu, hk⟩
          · exact Or.inr ⟨p, List.mem_cons_of_mem _ hp, hk⟩
        · rintro (h1 | ⟨p, hp, hk⟩)
          · exact Or.inl (Or.inl h1)
          · rcases List.mem_cons.mp hp with e | hp1
            · subst e
              exact Or.inl (Or.inr hk)
            · exact Or.inr ⟨p, hp1, hk⟩

/-- Witness of C32: the three pages of the test source; with an empty set
before the call the muted set holds 1234, 4567 and 8910 and not 1111. -/
theorem populateMutedList_pages_witness :
    pagesFrom (fakeMuteInfo none) [] fakePages = true ∧
      populateMutedList (fakeMuteInfo none) 3 [] MemberSet.New =
        .done ⟨[.num 8910, .num 4567, .num 1234]⟩ ∧
      ∃ s1 : MemberSet,
        (∀ fuel, fakePages.length ≤ fuel →
          populateMutedList (fakeMuteInfo none) fuel [] MemberSet.New = .done s1) ∧
        ∀ k, s1.Get k = true ↔
          MemberSet.New.Get k = true ∨
            ∃ page ∈ fakePages, ∃ user ∈ page.Users, k = .num user.Id :=
  ⟨by decide, by decide,
    populateMutedList_pages (fakeMuteInfo none) fakePages [] MemberSet.New (by decide)⟩

/-! ## The URL cache -/

theorem lookup_map_one (l : List String) (k : String) :
    (l.map (fun u => (u, (1 : Int)))).lookup k = if k ∈ l then some 1 else none := by
  induction l with
  | nil => simp
  | cons a l ih =>
    rw [List.map_cons, List.lookup_cons]
    by_cases h : k = a
    · subst h
      simp
    · have hb : (k == a) = false := by simpa using h
      rw [hb]
      dsimp only
      rw [ih]
      simp [h]

theorem take_cons_take (u : String) (pre : List String) (N : Nat) :
    (u :: pre.take N).take N = (u :: pre).take N := by
  cases N with
  | zero => rfl
  | succ n =>
    rw [List.take_succ_cons, List.take_succ_cons, List.take_take]
    congr 2
    omega

/-- One accepted URL: a cache that holds the `N` most recent URLs of `pre`
holds, after the `Add` of a URL it missed, the `N` most recent ones of the
list with that URL in front. -/
theorem urlLRU_Add_miss (c : Cache String Int) (pre : List String) (u : String)
    (he : c.entries = (pre.take c.MaxEntries).map (fun u => (u, (1 : Int))))
    (hmiss : c.Get u = none) :
    (c.Add u 1).MaxEntries = c.MaxEntries ∧
      (c.Add u 1).entries = ((u :: pre).take c.MaxEntries).map (fun u => (u, (1 : Int))) := by
  refine ⟨rfl, ?_⟩
  have hf : c.entries.filter (fun e => e.1 ≠ u) = c.entries := by
    rw [List.filter_eq_self]
    intro a ha
    unfold Cache.Get at hmiss
    rw [List.lookup_eq_none_iff] at hmiss
    have := hmiss a ha
    simp only [bne_iff_ne, ne_eq] at this
    simpa using fun h => this h.symm
  unfold Cache.Add
  dsimp only
  rw [hf, he]
  have hes : (u, (1 : Int)) :: (pre.take c.MaxEntries).map (fun u => (u, (1 : Int))) =
      (u :: pre.take c.MaxEntries).map (fun u => (u, (1 : Int))) := rfl
  rw [hes]
  by_cases hlt : c.MaxEntries < ((u :: pre.take c.MaxEntries).map (fun u => (u, (1 : Int)))).length
  · rw [if_pos hlt, ← List.map_dropLast, List.dropLast_eq_take]
    rw [List.length_map, List.length_cons, List.length_take] at hlt
    have hlen : (u :: pre.take c.MaxEntries).length - 1 = c.MaxEntries := by
      rw [List.length_cons, List.length_take]
      omega
    rw [hlen, take_cons_take]
  · rw [if_neg hlt]
    rw [List.length_map, List.length_cons, List.length_take] at hlt
    have hpre : pre.take c.MaxEntries = pre := List.take_of_length_le (by omega)
    rw [hpre]
    have hall : (u :: pre).take c.MaxEntries = u :: pre :=
      List.take_of_length_le (by rw [List.length_cons]; omega)
    rw [hall]

/-- The cache after a run of `checkDuplicateContent` holds the most recently
accepted URLs, up to its capacity. -/
theorem runDuplicateContent_entries (urls : List String) (g : Globals) (pre : List String)
    (he : g.urlLRU.entries = (pre.take g.urlLRU.MaxEntries).map (fun u => (u, (1 : Int)))) :
    (runDuplicateContent urls g).2.urlLRU.MaxEntries = g.urlLRU.MaxEntries ∧
      (runDuplicateContent urls g).2.urlLRU.entries =
        (((acceptedUrls urls g).reverse ++ pre).take g.urlLRU.MaxEntries).map
          (fun u => (u, (1 : Int))) := by
  induction urls generalizing g pre with
  | nil => exact ⟨rfl, by simpa [runDuplicateContent, acceptedUrls] using he⟩
  | cons u us ih =>
    unfold runDuplicateContent acceptedUrls
    dsimp only
    by_cases hmiss : g.urlLRU.Get u = none
    · have hc : checkDuplicateContent g u = (true, { g with urlLRU := g.urlLRU.Add u 1 }) := by
        unfold checkDuplicateContent
        rw [if_pos hmiss]
      rw [hc]
      obtain ⟨hcap, hent⟩ := urlLRU_Add_miss g.urlLRU pre u he hmiss
      have := ih { g with urlLRU := g.urlLRU.Add u 1 } (u :: pre) (by
        dsimp only
        rw [hcap]
        exact hent)
      dsimp only at this ⊢
      rw [hcap] at this
      rw [if_pos rfl, List.reverse_cons, List.append_assoc]
      exact this
    · have hc : checkDuplicateContent g u = (false, g) := by
        unfold checkDuplicateContent
        rw [if_neg hmiss]
      rw [hc]
      dsimp only
      rw [if_neg (by simp)]
      exact ih g pre he

/-- URLs that are pairwise distinct and not among the earlier ones are all
accepted. -/
theorem acceptedUrls_nodup (urls : List String) (g : Globals) (pre : List String)
    (he : g.urlLRU.entries = (pre.take g.urlLRU.MaxEntries).map (fun u => (u, (1 : Int))))
    (hnd : (urls.reverse ++ pre).Nodup) :
    acceptedUrls urls g = urls ∧
      (runDuplicateContent urls g).1 = urls.map (fun _ => true) := by
  induction urls generalizing g pre with
  | nil => exact ⟨rfl, rfl⟩
  | cons u us ih =>
    rw [List.reverse_cons, List.append_assoc] at hnd
    have hnd1 : (us.reverse ++ u :: pre).Nodup := hnd
    have hu : u ∉ pre := by
      have h2 := (List.nodup_append.mp hnd).2.1
      exact (List.nodup_cons.mp h2).1
    have hmiss : g.urlLRU.Get u = none := by
      unfold Cache.Get
      rw [he, lookup_map_one, if_neg (fun h => hu (List.mem_of_mem_take h))]
    have hc : checkDuplicateContent g u = (true, { g with urlLRU := g.urlLRU.Add u 1 }) := by
      unfold checkDuplicateContent
      rw [if_pos hmiss]
    obtain ⟨hcap, hent⟩ := urlLRU_Add_miss g.urlLRU pre u he hmiss
    have := ih { g with urlLRU := g.urlLRU.Add u 1 } (u :: pre) (by
      dsimp only
      rw [hcap]
      exact hent) hnd1
    unfold acceptedUrls runDuplicateContent
    rw [hc]
    dsimp only
    rw [if_pos rfl, this.1, this.2]
    exact ⟨rfl, rfl⟩

/-! ### C31 -/

/-- C31: `checkDuplicateContent` accepts a URL that `urlLRU` misses and
inserts it, and rejects a URL that `urlLRU` holds, leaving the globals as they
are. Over a `urlLRU` of capacity `N`, empty at first, the cache after any
sequence of calls holds exactly the `N` most recently accepted URLs; pairwise
distinct URLs are all accepted; and after `N + 1` pairwise distinct URLs the
first has been evicted and is accepted again, while each of the other `N` is
rejected as a duplicate. -/
theorem checkDuplicateContent_lru (N : Nat) (g : Globals) (hg : g.urlLRU = Cache.New N) :
    (∀ (g0 : Globals) (url : String),
      (g0.urlLRU.Get url = none →
        checkDuplicateContent g0 url = (true, { g0 with urlLRU := g0.urlLRU.Add url 1 })) ∧
      (g0.urlLRU.Get url ≠ none → checkDuplicateContent g0 url = (false, g0))) ∧
    (∀ urls : List String,
      (runDuplicateContent urls g).2.urlLRU.MaxEntries = N ∧
      (runDuplicateContent urls g).2.urlLRU.entries =
        (((acceptedUrls urls g).reverse).take N).map (fun u => (u, (1 : Int))) ∧
      ∀ u, (runDuplicateContent urls g).2.urlLRU.Get u ≠ none ↔
        u ∈ ((acceptedUrls urls g).reverse).take N) ∧
    (∀ urls : List String, urls.Nodup →
      acceptedUrls urls g = urls ∧
        (runDuplicateContent urls g).1 = urls.map (fun _ => true)) ∧
    (∀ (first : String) (rest : List String), (first :: rest).Nodup → rest.length = N →
      checkDuplicateContent (runDuplicateContent (first :: rest) g).2 first =
        (true, { (runDuplicateContent (first :: rest) g).2 with
          urlLRU := (runDuplicateContent (first :: rest) g).2.urlLRU.Add first 1 }) ∧
      ∀ u ∈ rest, checkDuplicateContent (runDuplicateContent (first :: rest) g).2 u =
        (false, (runDuplicateContent (first :: rest) g).2)) := by
  have hcap : g.urlLRU.MaxEntries = N := by rw [hg]; rfl
  have he : g.urlLRU.entries =
      (([] : List String).take g.urlLRU.MaxEntries).map (fun u => (u, (1 : Int))) := by
    rw [hg]
    simp [Cache.New]
  have hinv : ∀ urls : List String,
      (runDuplicateContent urls g).2.urlLRU.MaxEntries = N ∧
      (runDuplicateContent urls g).2.urlLRU.entries =
        (((acceptedUrls urls g).reverse).take N).map (fun u => (u, (1 : Int))) := by
    intro urls
    have h := runDuplicateContent_entries urls g [] he
    rw [List.append_nil, hcap] at h
    exact h
  have hget : ∀ (urls : List String) (u : String),
      (runDuplicateContent urls g).2.urlLRU.Get u =
        if u ∈ ((acceptedUrls urls g).reverse).take N then some 1 else none := by
    intro urls u
    unfold Cache.Get
    rw [(hinv urls).2, lookup_map_one]
  have hacc : ∀ urls : List String, urls.Nodup →
      acceptedUrls urls g = urls ∧
        (runDuplicateContent urls g).1 = urls.map (fun _ => true) := by
    intro urls hnd
    exact acceptedUrls_nodup urls g [] he (by
      rw [List.append_nil]
      exact List.nodup_reverse.mpr hnd)
  refine ⟨?_, ?_, hacc, ?_⟩
  · intro g0 url
    constructor
    · intro h
      unfold checkDuplicateContent
      rw [if_pos h]
    · intro h
      unfold checkDuplicateContent
      rw [if_neg h]
  · intro urls
    refine ⟨(hinv urls).1, (hinv urls).2, ?_⟩
    intro u
    rw [hget]
    split <;> simp_all
  · intro first rest hnd hlen
    have htake : ((acceptedUrls (first :: rest) g).reverse).take N = rest.reverse := by
      rw [(hacc _ hnd).1, List.reverse_cons,
        List.take_append_of_le_length (by rw [List.length_reverse, hlen])]
      exact List.take_of_length_le (by rw [List.length_reverse, hlen])
    have hfirst : first ∉ rest := (List.nodup_cons.mp hnd).1
    constructor
    · unfold checkDuplicateContent
      rw [if_pos]
      rw [hget, htake, if_neg (by simpa using hfirst)]
    · intro u hu
      unfold checkDuplicateContent
      rw [if_neg]
      rw [hget, htake, if_pos (by simpa using hu)]
      simp

/-- Witness of C31: a URL cache of capacity 2 and the three URLs of the test;
after them the first is accepted again and the other two are rejected. -/
theorem checkDuplicateContent_lru_witness :
    smallUrlGlobals.urlLRU = Cache.New 2 ∧
      runDuplicateContent
          ["https://google.com", "https://google.com", "https://altavista.com",
            "https://periscope.tv/w/", "https://google.com"] sampleGlobals =
        ([true, false, true, true, false],
          { sampleGlobals with urlLRU :=
            ⟨10, [("https://periscope.tv/w/", 1), ("https://altavista.com", 1),
              ("https://google.com", 1)]⟩ }) ∧
      (checkDuplicateContent
          (runDuplicateContent
            ["https://google.com", "https://altavista.com", "https://periscope.tv/w/"]
            smallUrlGlobals).2 "https://google.com").1 = true ∧
      ∀ u ∈ ["https://altavista.com", "https://periscope.tv/w/"],
        checkDuplicateContent
            (runDuplicateContent
              ["https://google.com", "https://altavista.com", "https://periscope.tv/w/"]
              smallUrlGlobals).2 u =
          (false, (runDuplicateContent
            ["https://google.com", "https://altavista.com", "https://periscope.tv/w/"]
            smallUrlGlobals).2) :=
  ⟨rfl, by decide,
    by
      rw [((checkDuplicateContent_lru 2 smallUrlGlobals rfl).2.2.2 "https://google.com"
        ["https://altavista.com", "https://periscope.tv/w/"] (by decide) rfl).1],
    ((checkDuplicateContent_lru 2 smallUrlGlobals rfl).2.2.2 "https://google.com"
      ["https://altavista.com", "https://periscope.tv/w/"] (by decide) rfl).2⟩

/-! ## The state a rejected event leaves behind -/

theorem checkContentDelta_pass (w : World) (g : Globals) (user : Int) (username : String)
    (contentType : String) (gatedContent : MemberSet) (d : Int) (status : Tweet) (g1 : Globals)
    (h : checkContentDelta w g user username contentType gatedContent d status = .ok true g1) :
    ∃ t0, w.parseRubyDate status.CreatedAt = some t0 ∧
      g1 = { g with userContentDeltaLRU :=
        g.userContentDeltaLRU.Add ⟨user, contentType⟩ (Time.Truncate t0 Second) } := by
  cases hp : w.parseRubyDate status.CreatedAt with
  | none =>
    unfold checkContentDelta calculateTweetTime at h
    rw [hp] at h
    cases h
  | some t0 =>
    refine ⟨t0, rfl, ?_⟩
    cases hg : g.userContentDeltaLRU.Get ⟨user, contentType⟩ with
    | none =>
      rw [checkContentDelta_miss w g user username contentType gatedContent d status t0 hp hg] at h
      injection h with _ h2
      exact h2.symm
    | some r =>
      rw [checkContentDelta_hit w g user username contentType gatedContent d status t0 r hp hg] at h
      split at h
      · injection h with _ h2
        exact h2.symm
      · injection h with h1 _
        cases h1

theorem checkUserPostDelta_pass (w : World) (g : Globals) (user : Int) (username : String)
    (d : Int) (status : Tweet) (g1 : Globals)
    (h : checkUserPostDelta w g user username d status = .ok true g1) :
    ∃ t0, w.parseRubyDate status.CreatedAt = some t0 ∧
      g1 = { g with userPostDeltaLRU :=
        g.userPostDeltaLRU.Add user (Time.Truncate t0 Second) } := by
  cases hp : w.parseRubyDate status.CreatedAt with
  | none =>
    unfold checkUserPostDelta calculateTweetTime at h
    rw [hp] at h
    cases h
  | some t0 =>
    refine ⟨t0, rfl, ?_⟩
    cases hg : g.userPostDeltaLRU.Get user with
    | none =>
      rw [checkUserPostDelta_miss w g user username d status t0 hp hg] at h
      injection h with _ h2
      exact h2.symm
    | some r =>
      rw [checkUserPostDelta_hit w g user username d status t0 r hp hg] at h
      split at h
      · injection h with _ h2
        exact h2.symm
      · injection h with h1 _
        cases h1

/-- A rejection by one of the last two gates: the timestamps parsed, the two
delta gates recorded the creation time, and the text gate either found the
text (gate 7 rejects) or recorded it (gate 8 rejects). -/
theorem runChain_rejected_late (w : World) (fs : FriendshipStatus) (g : Globals)
    (status : Tweet) (i : Nat) (gf : Globals)
    (h : runChain (gateChain w fs status) 0 g = .Rejected i gf) (hi : 7 ≤ i) :
    ∃ t0 c0, w.parseRubyDate status.CreatedAt = some t0 ∧
      w.parseRubyDate status.User.CreatedAt = some c0 ∧
      gf.config = g.config ∧
      gf.userContentDeltaLRU = g.userContentDeltaLRU.Add
        ⟨status.User.Id, (checkTweetContent g.config status).2.1⟩ (Time.Truncate t0 Second) ∧
      gf.userPostDeltaLRU = g.userPostDeltaLRU.Add status.User.Id (Time.Truncate t0 Second) ∧
      ((i = 7 ∧ gf.postTextLRU = g.postTextLRU ∧ g.postTextLRU.Get status.Text ≠ none) ∨
        (i = 8 ∧ gf.postTextLRU = g.postTextLRU.Add status.Text 1 ∧
          g.postTextLRU.Get status.Text = none)) := by
  cases h1 : (checkTweetContent g.config status).1
  · have hr : runChain (gateChain w fs status) 0 g = .Rejected 0 g := by
      unfold gateChain
      simp [runChain, h1]
    rw [hr] at h
    injection h with e _
    omega
  cases h2 : checkForProhibitedMentions status g.prohibitedMentions
  · have hr : runChain (gateChain w fs status) 0 g = .Rejected 1 g := by
      unfold gateChain
      simp [runChain, h1, h2]
    rw [hr] at h
    injection h with e _
    omega
  cases h3 : checkForProhibitedWords status g.prohibitedWords
  · have hr : runChain (gateChain w fs status) 0 g = .Rejected 2 g := by
      unfold gateChain
      simp [runChain, h1, h2, h3]
    rw [hr] at h
    injection h with e _
    omega
  cases h4 : checkAccountAge w status g.config.Settings.MinAccountAgeHours with
  | none =>
    have hr : runChain (gateChain w fs status) 0 g = .Halted g := by
      unfold gateChain
      simp [runChain, h1, h2, h3, h4]
    rw [hr] at h
    cases h
  | some old =>
  cases old
  · have hr : runChain (gateChain w fs status) 0 g = .Rejected 3 g := by
      unfold gateChain
      simp [runChain, h1, h2, h3, h4]
    rw [hr] at h
    injection h with e _
    omega
  have hc0 : ∃ c0, w.parseRubyDate status.User.CreatedAt = some c0 := by
    cases hp : w.parseRubyDate status.User.CreatedAt with
    | none =>
      unfold checkAccountAge at h4
      rw [hp] at h4
      cases h4
    | some c0 => exact ⟨c0, rfl⟩
  obtain ⟨c0, hc0⟩ := hc0
  cases h5 : userIsMuted (.num status.User.Id) g.mutedIds
  swap
  · have hr : runChain (gateChain w fs status) 0 g = .Rejected 4 g := by
      unfold gateChain
      simp [runChain, h1, h2, h3, h4, h5]
    rw [hr] at h
    injection h with e _
    omega
  cases h6 : checkContentDelta w g status.User.Id status.User.ScreenName
      (checkTweetContent g.config status).2.1 g.deltaGatedContent
      g.config.Settings.ContentTimeDelta status with
  | fatal g1 =>
    have hr : runChain (gateChain w fs status) 0 g = .Halted g1 := by
      unfold gateChain
      simp [runChain, h1, h2, h3, h4, h5, h6]
    rw [hr] at h
    cases h
  | ok r1 g1 =>
  cases r1
  · have hr : runChain (gateChain w fs status) 0 g = .Rejected 5 g1 := by
      unfold gateChain
      simp [runChain, h1, h2, h3, h4, h5, h6]
    rw [hr] at h
    injection h with e _
    omega
  obtain ⟨t0, hp, e1⟩ := checkContentDelta_pass w g status.User.Id status.User.ScreenName
    (checkTweetContent g.config status).2.1 g.deltaGatedContent
    g.config.Settings.ContentTimeDelta status g1 h6
  have hg1c : g1.config = g.config := by rw [e1]
  have hg1p : g1.userPostDeltaLRU = g.userPostDeltaLRU := by rw [e1]
  have hg1t : g1.postTextLRU = g.postTextLRU := by rw [e1]
  have hg1d : g1.userContentDeltaLRU = g.userContentDeltaLRU.Add
      ⟨status.User.Id, (checkTweetContent g.config status).2.1⟩ (Time.Truncate t0 Second) := by
    rw [e1]
  cases h7 : checkUserPostDelta w g1 status.User.Id status.User.ScreenName
      g1.config.Settings.PostTimeDelta status with
  | fatal g2 =>
    have hr : runChain (gateChain w fs status) 0 g = .Halted g2 := by
      unfold gateChain
      simp [runChain, h1, h2, h3, h4, h5, h6, h7]
    rw [hr] at h
    cases h
  | ok r2 g2 =>
  cases r2
  · have hr : runChain (gateChain w fs status) 0 g = .Rejected 6 g2 := by
      unfold gateChain
      simp [runChain, h1, h2, h3, h4, h5, h6, h7]
    rw [hr] at h
    injection h with e _
    omega
  obtain ⟨t1, hp1, e2⟩ := checkUserPostDelta_pass w g1 status.User.Id status.User.ScreenName
    g1.config.Settings.PostTimeDelta status g2 h7
  have ht : t1 = t0 := by
    rw [hp] at hp1
    injection hp1 with e
    exact e.symm
  subst ht
  have hg2c : g2.config = g.config := by rw [e2]; exact hg1c
  have hg2t : g2.postTextLRU = g.postTextLRU := by rw [e2]; exact hg1t
  have hg2d : g2.userContentDeltaLRU = g.userContentDeltaLRU.Add
      ⟨status.User.Id, (checkTweetContent g.config status).2.1⟩ (Time.Truncate t1 Second) := by
    rw [e2]
    exact hg1d
  have hg2p : g2.userPostDeltaLRU =
      g.userPostDeltaLRU.Add status.User.Id (Time.Truncate t1 Second) := by
    rw [e2, ← hg1p]
  by_cases hmiss : g2.postTextLRU.Get status.Text = none
  · have h8 : checkPostRecentLRU g2 status.Text =
        (true, { g2 with postTextLRU := g2.postTextLRU.Add status.Text 1 }) := by
      unfold checkPostRecentLRU
      rw [if_pos hmiss]
    obtain ⟨verdict, o, h9⟩ := checkUserFollowing_cases fs
      { g2 with postTextLRU := g2.postTextLRU.Add status.Text 1 } status
      g2.config.Settings.MustFollow
    cases verdict
    · have hr : runChain (gateChain w fs status) 0 g = .Rejected 8
          { g2 with postTextLRU := g2.postTextLRU.Add status.Text 1, tweetOriginatorLRU := o } := by
        unfold gateChain
        simp [runChain, h1, h2, h3, h4, h5, h6, h7, h8, h9]
      rw [hr] at h
      injection h with e eg
      subst eg
      refine ⟨t1, c0, hp, hc0, hg2c, hg2d, hg2p, Or.inr ⟨e.symm, ?_, ?_⟩⟩
      · dsimp only
        rw [hg2t]
      · rw [← hg2t]
        exact hmiss
    · have hr : runChain (gateChain w fs status) 0 g = .Admitted
          { g2 with postTextLRU := g2.postTextLRU.Add status.Text 1, tweetOriginatorLRU := o } := by
        unfold gateChain
        simp [runChain, h1, h2, h3, h4, h5, h6, h7, h8, h9]
      rw [hr] at h
      cases h
  · have h8 : checkPostRecentLRU g2 status.Text = (false, g2) := by
      unfold checkPostRecentLRU
      rw [if_neg hmiss]
    have hr : runChain (gateChain w fs status) 0 g = .Rejected 7 g2 := by
      unfold gateChain
      simp [runChain, h1, h2, h3, h4, h5, h6, h7, h8]
    rw [hr] at h
    injection h with e eg
    subst eg
    refine ⟨t1, c0, hp, hc0, hg2c, hg2d, hg2p, Or.inl ⟨e.symm, hg2t, ?_⟩⟩
    rw [← hg2t]
    exact hmiss

/-- An event whose author has a recorded time less than the delta before its
creation time is rejected by `processTweet`, at one of the delta gates if not
earlier. -/
theorem processTweet_delta_rejects (w : World) (a : ApiInterface) (fs : FriendshipStatus)
    (g : Globals) (status : Tweet) (c0 t2 r : Int)
    (hpu : w.parseRubyDate status.User.CreatedAt = some c0)
    (hpt : w.parseRubyDate status.CreatedAt = some t2)
    (h : (deltaFits g.config.Settings.PostTimeDelta ∧
          g.userPostDeltaLRU.Get status.User.Id = some r ∧
          Time.Truncate t2 Second - r < g.config.Settings.PostTimeDelta * Second) ∨
        (deltaFits g.config.Settings.ContentTimeDelta ∧
          g.userContentDeltaLRU.Get
            ⟨status.User.Id, (checkTweetContent g.config status).2.1⟩ = some r ∧
          Time.Truncate t2 Second - r < g.config.Settings.ContentTimeDelta * Second)) :
    ∃ g2, processTweet w a fs g status = .ok false g2 := by
  unfold processTweet
  cases h1 : (checkTweetContent g.config status).1
  · exact ⟨g, by simp⟩
  cases h2 : checkForProhibitedMentions status g.prohibitedMentions
  · exact ⟨g, by simp⟩
  cases h3 : checkForProhibitedWords status g.prohibitedWords
  · exact ⟨g, by simp⟩
  obtain ⟨old, h4⟩ := checkAccountAge_of_parse w status g.config.Settings.MinAccountAgeHours c0 hpu
  rw [h4]
  cases old
  · exact ⟨g, by simp⟩
  cases h5 : userIsMuted (.num status.User.Id) g.mutedIds
  swap
  · exact ⟨g, by simp⟩
  rcases h with ⟨hfit, hhit, hlt⟩ | ⟨hfit, hhit, hlt⟩
  · rcases checkContentDelta_cases w g status.User.Id status.User.ScreenName
        (checkTweetContent g.config status).2.1 g.deltaGatedContent
        g.config.Settings.ContentTimeDelta status with ⟨hp, _⟩ | h6 | ⟨c, h6⟩
    · rw [hpt] at hp
      cases hp
    · exact ⟨g, by simp [h6]⟩
    · have h7 : checkUserPostDelta w { g with userContentDeltaLRU := c } status.User.Id
          status.User.ScreenName g.config.Settings.PostTimeDelta status =
            .ok false { g with userContentDeltaLRU := c } := by
        rw [checkUserPostDelta_hit w { g with userContentDeltaLRU := c } status.User.Id
          status.User.ScreenName g.config.Settings.PostTimeDelta status t2 r hpt hhit, if_neg]
        intro hge
        exact absurd ((sub_ge_delta_iff _ _ _ hfit).mp hge) (not_le.mpr hlt)
      exact ⟨{ g with userContentDeltaLRU := c }, by simp [h6, h7]⟩
  · have h6 : checkContentDelta w g status.User.Id status.User.ScreenName
        (checkTweetContent g.config status).2.1 g.deltaGatedContent
        g.config.Settings.ContentTimeDelta status = .ok false g := by
      rw [checkContentDelta_hit w g status.User.Id status.User.ScreenName
        (checkTweetContent g.config status).2.1 g.deltaGatedContent
        g.config.Settings.ContentTimeDelta status t2 r hpt hhit, if_neg]
      intro hge
      exact absurd ((sub_ge_delta_iff _ _ _ hfit).mp hge) (not_le.mpr hlt)
    exact ⟨g, by simp [h6]⟩

/-! ### C36 -/

/-- C36 (as amended): state written by earlier gates persists when a later
gate rejects. For an event that passes `checkContentDelta` and
`checkUserPostDelta` and is then rejected by `checkPostRecentLRU` (gate 7) or
`checkUserFollowing` (gate 8), with caches of positive capacity,
`processTweet` returns false and leaves globals in which both delta caches
hold the creation time of the event, truncated to the second, as the recorded
time of its author, and in which `postTextLRU` holds the text when the follow
gate is the one that rejects. A following event of the same author is then
rejected too when its creation time is less than `PostTimeDelta` seconds after
the recorded one, or less than `ContentTimeDelta` seconds after it with the
same content type, provided that delta is within 9223372036 seconds, so that
its duration in nanoseconds fits in 64 bits. -/
theorem processTweet_rejected_state_persists (w : World) (a : ApiInterface)
    (fs : FriendshipStatus) (g : Globals) (status : Tweet) (i : Nat) (gf : Globals)
    (hcapC : 0 < g.userContentDeltaLRU.MaxEntries) (hcapP : 0 < g.userPostDeltaLRU.MaxEntries)
    (hcapT : 0 < g.postTextLRU.MaxEntries)
    (hrej : runChain (gateChain w fs status) 0 g = .Rejected i gf) (hi : i = 7 ∨ i = 8) :
    processTweet w a fs g status = .ok false gf ∧
    ∃ t0, w.parseRubyDate status.CreatedAt = some t0 ∧
      gf.userContentDeltaLRU.Get ⟨status.User.Id, (checkTweetContent g.config status).2.1⟩ =
        some (Time.Truncate t0 Second) ∧
      gf.userPostDeltaLRU.Get status.User.Id = some (Time.Truncate t0 Second) ∧
      (i = 8 → gf.postTextLRU.Get status.Text = some 1) ∧
      ∀ (w2 : World) (a2 : ApiInterface) (fs2 : FriendshipStatus) (next : Tweet) (t2 : Int),
        w2.parseRubyDate = w.parseRubyDate → next.User = status.User →
        w.parseRubyDate next.CreatedAt = some t2 →
        ((deltaFits g.config.Settings.PostTimeDelta ∧
            Time.Truncate t2 Second - Time.Truncate t0 Second <
              g.config.Settings.PostTimeDelta * Second) ∨
          (deltaFits g.config.Settings.ContentTimeDelta ∧
            (checkTweetContent g.config next).2.1 = (checkTweetContent g.config status).2.1 ∧
            Time.Truncate t2 Second - Time.Truncate t0 Second <
              g.config.Settings.ContentTimeDelta * Second)) →
        ∃ g2, processTweet w2 a2 fs2 gf next = .ok false g2 := by
  have hi7 : 7 ≤ i := by omega
  obtain ⟨t0, c0, hp, hc0, hcfg, hcd, hpd, htext⟩ :=
    runChain_rejected_late w fs g status i gf hrej hi7
  have hgetC : gf.userContentDeltaLRU.Get
      ⟨status.User.Id, (checkTweetContent g.config status).2.1⟩ =
        some (Time.Truncate t0 Second) := by
    rw [hcd]
    exact Cache.Get_Add_self _ _ _ hcapC
  have hgetP : gf.userPostDeltaLRU.Get status.User.Id = some (Time.Truncate t0 Second) := by
    rw [hpd]
    exact Cache.Get_Add_self _ _ _ hcapP
  refine ⟨?_, t0, hp, hgetC, hgetP, ?_, ?_⟩
  · rw [processTweet_eq_finishChain, hrej]
    rfl
  · intro h8
    rcases htext with ⟨h7, _⟩ | ⟨_, ht, _⟩
    · omega
    · rw [ht]
      exact Cache.Get_Add_self _ _ _ hcapT
  · intro w2 a2 fs2 next t2 hw2 huser hp2 hwithin
    apply processTweet_delta_rejects w2 a2 fs2 gf next c0 t2 (Time.Truncate t0 Second)
    · rw [hw2, huser]
      exact hc0
    · rw [hw2]
      exact hp2
    · rw [hcfg, huser]
      rcases hwithin with ⟨hfit, hlt⟩ | ⟨hfit, htype, hlt⟩
      · exact Or.inl ⟨hfit, hgetP, hlt⟩
      · refine Or.inr ⟨hfit, ?_, hlt⟩
        rw [htype]
        exact hgetC

/-- Witness of C36: the text of the sample status is already held, so the
status is rejected by gate 7 after both delta gates recorded 13:08:45; the
same status sent one second later, within the delta of 2 seconds, is then
rejected. -/
theorem processTweet_rejected_state_persists_witness :
    runChain (gateChain sampleWorld sampleFriendship sampleStatus) 0 textHeldGlobals =
        .Rejected 7 textRejectedGlobals ∧
      processTweet sampleWorld sampleApi sampleFriendship textHeldGlobals sampleStatus =
        .ok false textRejectedGlobals ∧
      textRejectedGlobals.userContentDeltaLRU.Get ⟨1337821, "video"⟩ =
        some 63355439325000000000 ∧
      textRejectedGlobals.userPostDeltaLRU.Get 1337821 = some 63355439325000000000 ∧
      ∃ g2, processTweet sampleWorld sampleApi sampleFriendship textRejectedGlobals
        sampleStatus46 = .ok false g2 := by
  obtain ⟨h1, t0, hp, _, _, _, hnext⟩ :=
    processTweet_rejected_state_persists sampleWorld sampleApi sampleFriendship textHeldGlobals
      sampleStatus 7 textRejectedGlobals (by decide) (by decide) (by decide) (by decide)
      (Or.inl rfl)
  have ht0 : t0 = 63355439325000000000 := by
    have e : sampleWorld.parseRubyDate sampleStatus.CreatedAt = some 63355439325000000000 := by
      decide
    rw [e] at hp
    injection hp with e1
    exact e1.symm
  subst ht0
  refine ⟨by decide, h1, by decide, by decide, ?_⟩
  exact hnext sampleWorld sampleApi sampleFriendship sampleStatus46 63355439326000000000 rfl rfl
    (by decide) (Or.inl ⟨⟨by decide, by decide⟩, by decide⟩)

/-- Counterexample to C36 as stated: with both deltas at 9223372037 seconds,
whose duration in nanoseconds wraps to a negative value, the sample status is
rejected by gate 7 after both delta gates recorded 13:08:45 for its author,
and the following event of the same author, created two seconds later with the
same content type, is admitted. -/
theorem processTweet_rejected_state_persists_counterexample :
    runChain (gateChain sampleWorld sampleFriendship sampleStatus) 0 longDeltaGlobals =
        .Rejected 7 longDeltaRejectedGlobals ∧
      processTweet sampleWorld sampleApi sampleFriendship longDeltaGlobals sampleStatus =
        .ok false longDeltaRejectedGlobals ∧
      longDeltaRejectedGlobals.userContentDeltaLRU.Get ⟨1337821, "video"⟩ =
        some 63355439325000000000 ∧
      longDeltaRejectedGlobals.userPostDeltaLRU.Get 1337821 = some 63355439325000000000 ∧
      sampleRepost.User = sampleStatus.User ∧
      (checkTweetContent longDeltaGlobals.config sampleRepost).2.1 = "video" ∧
      sampleWorld.parseRubyDate sampleRepost.CreatedAt = some 63355439327000000000 ∧
      (63355439327000000000 : Int) - 63355439325000000000 <
        longDeltaGlobals.config.Settings.PostTimeDelta * Second ∧
      (63355439327000000000 : Int) - 63355439325000000000 <
        longDeltaGlobals.config.Settings.ContentTimeDelta * Second ∧
      wrap64 (longDeltaGlobals.config.Settings.PostTimeDelta * Second) = -9223372036709551616 ∧
      processTweet sampleWorld sampleApi sampleFriendship longDeltaRejectedGlobals sampleRepost =
        .ok true
          (processTweet sampleWorld sampleApi sampleFriendship longDeltaRejectedGlobals
            sampleRepost).globals := by
  decide

end Chim
